import Mathlib

/-! Finance-Tracker: budget evaluation and category roll-ups.

A shallow embedding of `backend/controllers/budgetController.js` and
`backend/controllers/reportController.js`.

Conventions of the embedding:

* A JavaScript `Number` is the rational it denotes (`ℚ`); `none` is a result
  that is not finite (`NaN`, `±Infinity`).  The divisions and multiplications
  of the percentage (`/`, `*`) round to IEEE 754 binary64 as the language
  does (`NumberValue`).  The sum of the amounts of the expenses, the
  remainder `amount - spent` and the comparisons are exact: the amounts are
  taken to add up without rounding error.
* A `Date` is its time value, an integer number of milliseconds since the
  epoch.  The server's local time zone is taken to be UTC, so the local-time
  `Date` constructor needs no offset.
* A MongoDB collection is the list of its documents in natural (retrieval)
  order; `find` is a filter of that list.
* An `ObjectId` is a natural number; `a.toString() !== b.toString()` on two
  ObjectIds is inequality of the numbers.
-/

namespace FinanceTracker

/-! ## Documents -/

abbrev ObjectId := Nat

/-- The `type` enum of `models/Category.js`. -/
inductive CategoryType where
  | income
  | expense
  deriving DecidableEq, Repr

/-- A document of `models/Category.js`. -/
structure Category where
  _id : ObjectId
  name : String
  type : CategoryType
  user : ObjectId
  deriving DecidableEq, Repr

/-- A document of `models/Income.js`: title, amount, category reference,
date (time value in ms) and owner. -/
structure Income where
  _id : ObjectId
  title : String
  amount : ℚ
  category : ObjectId
  date : Int
  user : ObjectId
  deriving DecidableEq, Repr

/-- Modelled from the spec: `models/Expense.js` is not among the sources; the
spec gives an expense the same shape as an income (§3, "Expense or Income,
structurally identical"), and the controllers read `user`, `category`, `date`
and `amount` of it. -/
abbrev Expense := Income

/-- A document of `models/Budget.js`. -/
structure Budget where
  _id : ObjectId
  category : ObjectId
  amount : ℚ
  month : Int
  year : Int
  user : ObjectId
  deriving DecidableEq, Repr

/-- The four collections the controllers read. -/
structure Store where
  budgets : List Budget
  categories : List Category
  expenses : List Expense
  incomes : List Income

/-! ## ECMAScript `Date` arithmetic (ECMA-262 §21.4.1) -/

def msPerDay : Int := 86400000
def msPerHour : Int := 3600000
def msPerMinute : Int := 60000
def msPerSecond : Int := 1000

/-- Models `DayFromYear(y)`: day number of 1 January of year `y`; the divisions
are floor divisions (Lean's `/` on `Int` with a positive divisor). -/
def DayFromYear (y : Int) : Int :=
  365 * (y - 1970) + (y - 1969) / 4 - (y - 1901) / 100 + (y - 1601) / 400

/-- Models `InLeapYear` as a Boolean on the year. -/
def InLeapYear (y : Int) : Bool :=
  (y % 4 == 0 && y % 100 != 0) || y % 400 == 0

/-- Number of days of month `mn` (0 = January) in a year. -/
def daysInMonth (leap : Bool) (mn : Nat) : Int :=
  match mn with
  | 0 => 31
  | 1 => if leap then 29 else 28
  | 2 => 31
  | 3 => 30
  | 4 => 31
  | 5 => 30
  | 6 => 31
  | 7 => 31
  | 8 => 30
  | 9 => 31
  | 10 => 30
  | _ => 31

/-- Days of the year that precede the first day of month `mn`. -/
def daysBeforeMonth (leap : Bool) : Nat → Int
  | 0 => 0
  | mn + 1 => daysBeforeMonth leap mn + daysInMonth leap mn

/-- Models `MakeDay(year, month, date)`: a month index outside 0..11 carries into
the year, and a day outside the month carries into the neighbouring month. -/
def MakeDay (year month date : Int) : Int :=
  let ym := year + month / 12
  let mn := (month % 12).toNat
  DayFromYear ym + daysBeforeMonth (InLeapYear ym) mn + date - 1

/-- Models `MakeTime(hour, min, sec, ms)`. -/
def MakeTime (hour min sec ms : Int) : Int :=
  hour * msPerHour + min * msPerMinute + sec * msPerSecond + ms

/-- Models `MakeDate(day, time)`. -/
def MakeDate (day time : Int) : Int :=
  day * msPerDay + time

/-- Models `TimeClip`: a time value beyond ±8.64e15 ms is an Invalid Date. -/
def TimeClip (t : Int) : Option Int :=
  if t.natAbs ≤ 8640000000000000 then some t else none

/-- Models `new Date(year, monthIndex, day, hours, minutes, seconds)`: a year in
0..99 denotes 1900 + year; the milliseconds argument is absent, hence 0.
`none` is an Invalid Date. -/
def Date.new (year monthIndex day hours minutes seconds : Int) : Option Int :=
  let yr := if 0 ≤ year ∧ year ≤ 99 then 1900 + year else year
  TimeClip (MakeDate (MakeDay yr monthIndex day) (MakeTime hours minutes seconds 0))

/-! ## `budgetController.js` -/

/-- What a handler sends: `res.status(200).json(body)` or
`res.status(code).json` of a message. -/
inductive Response (α : Type) where
  | ok (body : α)
  | fail (status : Nat) (message : String)
  deriving DecidableEq, Repr

/-- The `category` field after `.populate('category', 'name type')`. -/
structure PopulatedCategory where
  _id : ObjectId
  name : String
  type : CategoryType
  deriving DecidableEq, Repr

/-- The `budget` snapshot of a status body. -/
structure BudgetSnapshot where
  _id : ObjectId
  category : PopulatedCategory
  amount : ℚ
  month : Int
  year : Int
  deriving DecidableEq, Repr

/-- The body of a budget status; `percentageUsed = none` stands for a
non-finite number. -/
structure BudgetStatus where
  budget : BudgetSnapshot
  spent : ℚ
  remaining : ℚ
  percentageUsed : Option ℚ
  isOverBudget : Bool
  expenseCount : Nat
  deriving DecidableEq, Repr

/-- Models `Budget.findById(id)`: the document with that `_id`, if any. -/
def Budget.findById (db : Store) (id : ObjectId) : Option Budget :=
  db.budgets.find? (fun b => b._id == id)

/-- The populated `category` path: the referenced category restricted to
`_id`, `name` and `type`, or `none` (JavaScript `null`) when the reference
matches no category. -/
def populateCategory (db : Store) (ref : ObjectId) : Option PopulatedCategory :=
  (db.categories.find? (fun c => c._id == ref)).map
    (fun c => { _id := c._id, name := c.name, type := c.type })

/-- Models `Expense.find` with `user`, `category` and an inclusive `date` range
(`$gte` / `$lte`). -/
def Expense.find (db : Store) (user category : ObjectId) (startDate endDate : Int) :
    List Expense :=
  db.expenses.filter (fun e =>
    e.user == user && e.category == category &&
      decide (startDate ≤ e.date) && decide (e.date ≤ endDate))

/-- Counts the binary digits of `n` with `fuel` steps to spend. -/
def bitLengthAux : Nat → Nat → Nat
  | 0, _ => 0
  | fuel + 1, n => if n = 0 then 0 else bitLengthAux fuel (n / 2) + 1

/-- The number of binary digits of `n` (0 for 0). -/
def bitLength (n : Nat) : Nat :=
  bitLengthAux n n

/-- The binary exponent of a rational `x ≠ 0`: the integer `e` with
`2 ^ e ≤ |x| < 2 ^ (e + 1)`. -/
def binaryExponent (x : ℚ) : Int :=
  let c : Int := (bitLength x.num.natAbs : Int) - (bitLength x.den : Int)
  if (2 : ℚ) ^ c ≤ |x| then c else c - 1

/-- Rounding to the nearest integer, a tie going to the even one. -/
def roundTiesToEven (y : ℚ) : Int :=
  let f := ⌊y⌋
  if y - f < 1 / 2 then f
  else if 1 / 2 < y - f then f + 1
  else if f % 2 = 0 then f else f + 1

/-- The nearest multiple of the binary64 unit in the last place of `x`: 53
significant binary digits, and steps of `2 ^ (-1074)` below `2 ^ (-1022)`
(the subnormal numbers). -/
def roundToBinary64 (x : ℚ) : ℚ :=
  let e := max (binaryExponent x) (-1022)
  let ulp : ℚ := 2 ^ (e - 52)
  roundTiesToEven (x / ulp) * ulp

/-- Models the Number value for `x` (ECMA-262 §6.1.6.1): the IEEE 754 binary64
value nearest to `x`, ties to even; `none` is a result that is not finite
(here `±Infinity`, on overflow).  The sign of zero is not kept. -/
def NumberValue (x : ℚ) : Option ℚ :=
  if x = 0 then some 0
  else if |roundToBinary64 x| < 2 ^ (1024 : Int) then some (roundToBinary64 x)
  else none

/-- JavaScript `/` on numbers: the Number value for the quotient, `none` when
the result is not finite. -/
def jsDiv (a b : ℚ) : Option ℚ :=
  if b = 0 then none else NumberValue (a / b)

/-- JavaScript `*` on numbers: the Number value for the product, `none` when
the result is not finite. -/
def jsMul (a b : ℚ) : Option ℚ :=
  NumberValue (a * b)

/-- Models `Math.round`: the nearest integer, a tie going towards +∞. -/
def Math.round (x : ℚ) : ℚ :=
  (⌊x + 1 / 2⌋ : Int)

/-- Lines 219-236 (and 278-295): the status computed from a populated budget
and the expenses found for it. -/
def statusBody (budget : Budget) (category : PopulatedCategory)
    (expenses : List Expense) : BudgetStatus :=
  let totalSpent := expenses.foldl (fun sum expense => sum + expense.amount) 0
  let remaining := budget.amount - totalSpent
  let percentageUsed : Option ℚ :=
    if budget.amount > 0 then (jsDiv totalSpent budget.amount).bind (fun q => jsMul q 100)
    else some 0
  { budget :=
      { _id := budget._id, category := category, amount := budget.amount,
        month := budget.month, year := budget.year }
    spent := totalSpent
    remaining := remaining
    percentageUsed :=
      (percentageUsed.bind (fun p => jsMul p 100)).bind (fun x => jsDiv (Math.round x) 100)
    isOverBudget := decide (totalSpent > budget.amount)
    expenseCount := expenses.length }

/-- The status of one budget once it is loaded: date range of its month, the
expense query, the status body.  `none` is an exception thrown on the way
(reading `_id` of a `null` category, or an Invalid Date in the query). -/
def budgetStatusFor (db : Store) (reqUser : ObjectId) (year month : Int)
    (budget : Budget) : Option BudgetStatus :=
  match Date.new year (month - 1) 1 0 0 0, Date.new year month 0 23 59 59,
      populateCategory db budget.category with
  | some startDate, some endDate, some category =>
      some (statusBody budget category
        (Expense.find db reqUser category._id startDate endDate))
  | _, _, _ => none

/-- Models `getBudgetStatus` (GET /api/budgets/:id/status) for the authenticated
user `reqUser` and the path parameter `id`. -/
def getBudgetStatus (db : Store) (reqUser id : ObjectId) : Response BudgetStatus :=
  match Budget.findById db id with
  | none => .fail 404 "Budget not found"
  | some budget =>
      if budget.user ≠ reqUser then
        .fail 403 "Not authorized to access this budget"
      else
        match budgetStatusFor db reqUser budget.year budget.month budget with
        | some body => .ok body
        | none => .fail 500 "Server error"

/-! ### `getAllBudgetStatuses` -/

/-- Models `StrWhiteSpaceChar`: the white space and line terminators that `parseInt`
skips at the start of its input. -/
def isStrWhiteSpaceChar (c : Char) : Bool :=
  let n := c.toNat
  n == 9 || n == 10 || n == 11 || n == 12 || n == 13 || n == 32 || n == 160 ||
    n == 0x1680 || (0x2000 ≤ n && n ≤ 0x200A) || n == 0x2028 || n == 0x2029 ||
    n == 0x202F || n == 0x205F || n == 0x3000 || n == 0xFEFF

/-- The value of a digit character in radixes up to 36. -/
def digitValue (c : Char) : Option Nat :=
  if '0' ≤ c ∧ c ≤ '9' then some (c.toNat - 48)
  else if 'a' ≤ c ∧ c ≤ 'z' then some (c.toNat - 97 + 10)
  else if 'A' ≤ c ∧ c ≤ 'Z' then some (c.toNat - 65 + 10)
  else none

/-- The values of the longest prefix of radix-`R` digits. -/
def leadingDigits (R : Nat) : List Char → List Nat
  | [] => []
  | c :: cs =>
    match digitValue c with
    | some d => if d < R then d :: leadingDigits R cs else []
    | none => []

/-- Models `parseInt(string)` without a radix (ECMA-262 §19.2.5): leading white space
is skipped, a sign is read, `0x`/`0X` selects radix 16, and the longest prefix
of digits is the value; `none` is `NaN`.  The value is kept as an exact
integer. -/
def parseInt (string : String) : Option Int :=
  let S := string.toList.dropWhile isStrWhiteSpaceChar
  let sign : Int :=
    match S with
    | '-' :: _ => -1
    | _ => 1
  let S :=
    match S with
    | '-' :: rest => rest
    | '+' :: rest => rest
    | _ => S
  let RS : Nat × List Char :=
    match S with
    | '0' :: 'x' :: rest => (16, rest)
    | '0' :: 'X' :: rest => (16, rest)
    | _ => (10, S)
  let Z := leadingDigits RS.1 RS.2
  if Z.isEmpty then none
  else some (sign * ((Z.foldl (fun acc d => acc * RS.1 + d) 0 : Nat) : Int))

/-- Models `Budget.find` with `user`, `month` and `year`, in retrieval order. -/
def Budget.find (db : Store) (user : ObjectId) (month year : Int) : List Budget :=
  db.budgets.filter (fun b => b.user == user && b.month == month && b.year == year)

/-- Models `Promise.all` over already settled promises: the results in the order of
the inputs, or a rejection (`none`) when one of them is rejected. -/
def Promise.all {α : Type} : List (Option α) → Option (List α)
  | [] => some []
  | none :: _ => none
  | some a :: rest => (Promise.all rest).map (fun as => a :: as)

/-- The body sent by `getAllBudgetStatuses`. -/
structure AllBudgetStatuses where
  month : Int
  year : Int
  count : Nat
  budgets : List BudgetStatus
  deriving DecidableEq, Repr

/-- Models `getAllBudgetStatuses` (GET /api/budgets/status/all) for the authenticated
user and the query parameters `month` and `year` (`none` is `undefined`). -/
def getAllBudgetStatuses (db : Store) (reqUser : ObjectId) (month year : Option String) :
    Response AllBudgetStatuses :=
  match month, year with
  | some month, some year =>
    if month = "" ∨ year = "" then
      .fail 400 "Please provide month and year"
    else
      match parseInt month, parseInt year with
      | some monthNum, some yearNum =>
        let budgets := Budget.find db reqUser monthNum yearNum
        match Promise.all (budgets.map (budgetStatusFor db reqUser yearNum monthNum)) with
        | some budgetStatuses =>
          .ok { month := monthNum, year := yearNum, count := budgetStatuses.length,
                budgets := budgetStatuses }
        | none => .fail 500 "Server error"
      | _, _ => .fail 500 "Server error"
  | _, _ => .fail 400 "Please provide month and year"

/-! ## `reportController.js`: roll-up by category -/

/-- One output document of the `$group` stage: `_id` is the category name. -/
structure CategoryRollup where
  _id : String
  totalAmount : ℚ
  count : Nat
  deriving DecidableEq, Repr

/-- The `$match` stage: the user's documents, with `date ≥ startDate` when
`startDate` is given and `date ≤ endDate` when `endDate` is given.  A bound is
the time value of `new Date(param)`; `none` is an absent or empty parameter. -/
def matchStage (docs : List Income) (userId : ObjectId) (startDate endDate : Option Int) :
    List Income :=
  docs.filter (fun d =>
    d.user == userId &&
      (match startDate with
        | some s => decide (s ≤ d.date)
        | none => true) &&
      (match endDate with
        | some e => decide (d.date ≤ e)
        | none => true))

/-- The `$lookup` of `categoryInfo` followed by `$unwind`: one output per
category document whose `_id` equals the transaction's `category`; a
transaction matching no category yields nothing. -/
def lookupUnwind (categories : List Category) (docs : List Income) :
    List (Income × Category) :=
  docs.flatMap (fun d =>
    (categories.filter (fun c => c._id == d.category)).map (fun c => (d, c)))

/-- One step of `$group`: add `amount` to the group named `name`, opening the
group when it does not exist. -/
def accumulate (acc : List CategoryRollup) (name : String) (amount : ℚ) :
    List CategoryRollup :=
  match acc with
  | [] => [{ _id := name, totalAmount := amount, count := 1 }]
  | g :: gs =>
    if g._id = name then
      { g with totalAmount := g.totalAmount + amount, count := g.count + 1 } :: gs
    else g :: accumulate gs name amount

/-- The `$group` stage keyed by `categoryInfo.name`, with `$sum` of `amount`
and a count.  Groups come out in order of first appearance (MongoDB leaves
that order open). -/
def groupStage (docs : List (Income × Category)) : List CategoryRollup :=
  docs.foldl (fun acc dc => accumulate acc dc.2.name dc.1.amount) []

/-- The `$sort` stage `totalAmount: -1`, as a stable insertion sort. -/
def sortStage (groups : List CategoryRollup) : List CategoryRollup :=
  groups.insertionSort (fun a b => a.totalAmount ≥ b.totalAmount)

/-- The aggregation pipeline shared by the two roll-up handlers. -/
def categoryPipeline (db : Store) (docs : List Income) (userId : ObjectId)
    (startDate endDate : Option Int) : List CategoryRollup :=
  sortStage (groupStage (lookupUnwind db.categories (matchStage docs userId startDate endDate)))

/-- Models `getExpensesByCategory` (GET /api/reports/expenses-by-category). -/
def getExpensesByCategory (db : Store) (userId : ObjectId)
    (startDate endDate : Option Int) : Response (List CategoryRollup) :=
  .ok (categoryPipeline db db.expenses userId startDate endDate)

/-- Models `getIncomeByCategory` (GET /api/reports/income-by-category). -/
def getIncomeByCategory (db : Store) (userId : ObjectId)
    (startDate endDate : Option Int) : Response (List CategoryRollup) :=
  .ok (categoryPipeline db db.incomes userId startDate endDate)

/-! ## `reportController.js`: recent transactions -/

/-- The `category` field after `.populate('category', 'name')`. -/
structure PopulatedName where
  _id : ObjectId
  name : String
  deriving DecidableEq, Repr

/-- A plain (`.lean()`) expense or income with its category populated;
`category = none` is `null`, the reference matching no category. -/
structure RecentDoc where
  _id : ObjectId
  title : String
  amount : ℚ
  category : Option PopulatedName
  date : Int
  user : ObjectId
  deriving DecidableEq, Repr

/-- The spread of a document with a `type` field added. -/
structure TaggedTransaction extends RecentDoc where
  type : String
  deriving DecidableEq, Repr

/-- The populated `category` path restricted to `_id` and `name`. -/
def populateName (db : Store) (ref : ObjectId) : Option PopulatedName :=
  (db.categories.find? (fun c => c._id == ref)).map
    (fun c => { _id := c._id, name := c.name })

/-- The document of a transaction after `populate` and `lean`. -/
def toRecentDoc (db : Store) (d : Income) : RecentDoc :=
  { _id := d._id, title := d.title, amount := d.amount,
    category := populateName db d.category, date := d.date, user := d.user }

/-- The sort `date: -1` of a query, as a stable insertion sort (MongoDB
leaves the order of equal dates open). -/
def sortByDateDesc (docs : List Income) : List Income :=
  docs.insertionSort (fun a b => a.date ≥ b.date)

/-- The cursor `limit(n)`: 0 is no limit, and a negative `n` limits to `|n|`
documents. -/
def cursorLimit {α : Type} (n : Int) (l : List α) : List α :=
  if n = 0 then l else l.take n.natAbs

/-- The query `find(user).populate('category', 'name').sort(date: -1)
.limit(limit).lean()` on one collection. -/
def recentFind (db : Store) (docs : List Income) (userId : ObjectId) (limit : Int) :
    List RecentDoc :=
  (cursorLimit limit (sortByDateDesc (docs.filter (fun d => d.user == userId)))).map
    (toRecentDoc db)

/-- Models `parseInt(req.query.limit) || 10`: 10 when the parameter is absent, is not
a number (`NaN`) or is 0. -/
def recentLimit (limit : Option String) : Int :=
  match limit with
  | none => 10
  | some s =>
    match parseInt s with
    | none => 10
    | some n => if n = 0 then 10 else n

/-- Models `array.slice(0, end)`: the first `end` elements, or for a negative `end`
all but the last `|end|`. -/
def slice0 {α : Type} (l : List α) (stop : Int) : List α :=
  if stop < 0 then l.take (l.length - stop.natAbs) else l.take stop.toNat

/-- The array sort with comparator `new Date(b.date) - new Date(a.date)`:
the stable sort by date, latest first. -/
def sortTaggedByDateDesc (l : List TaggedTransaction) : List TaggedTransaction :=
  l.insertionSort (fun a b => a.date ≥ b.date)

/-- Models `getRecentTransactions` (GET /api/reports/recent-transactions). -/
def getRecentTransactions (db : Store) (userId : ObjectId) (limit : Option String) :
    Response (List TaggedTransaction) :=
  let limit := recentLimit limit
  let recentExpenses := recentFind db db.expenses userId limit
  let recentIncome := recentFind db db.incomes userId limit
  let expenses : List TaggedTransaction :=
    recentExpenses.map (fun exp => { exp with type := "expense" })
  let income : List TaggedTransaction :=
    recentIncome.map (fun inc => { inc with type := "income" })
  let allTransactions := sortTaggedByDateDesc (expenses ++ income)
  .ok (slice0 allTransactions limit)

/-! ## `reportController.js`: monthly summary -/

/-- The `_id` of a monthly group: `$year` and `$month` of the date. -/
structure MonthKey where
  year : Int
  month : Int
  deriving DecidableEq, Repr

/-- Models `$year` and `$month` (1..12) of a date in UTC: the proleptic Gregorian
calendar date of day number `floor(t / msPerDay)`, computed from the count of
days since 1 March 0000 in 400-year eras. -/
def monthKeyOfDate (t : Int) : MonthKey :=
  let z := t / msPerDay + 719468
  let era := z / 146097
  let doe := z - era * 146097
  let yoe := (doe - doe / 1460 + doe / 36524 - doe / 146096) / 365
  let doy := doe - (365 * yoe + yoe / 4 - yoe / 100)
  let mp := (5 * doy + 2) / 153
  let m := if mp < 10 then mp + 3 else mp - 9
  { year := if m ≤ 2 then yoe + era * 400 + 1 else yoe + era * 400, month := m }

/-- One output document of a monthly `$group` stage; `total` is the field
`totalExpenses` of the expense pipeline and `totalIncome` of the income
pipeline. -/
structure MonthlyTotal where
  _id : MonthKey
  total : ℚ
  deriving DecidableEq, Repr

/-- One step of the monthly `$group`: add `amount` to the group of `key`,
opening the group when it does not exist. -/
def accumulateMonth (acc : List MonthlyTotal) (key : MonthKey) (amount : ℚ) :
    List MonthlyTotal :=
  match acc with
  | [] => [{ _id := key, total := amount }]
  | g :: gs =>
    if g._id = key then { g with total := g.total + amount } :: gs
    else g :: accumulateMonth gs key amount

/-- The monthly `$group` stage with `$sum` of `amount`. -/
def monthlyGroupStage (docs : List Income) : List MonthlyTotal :=
  docs.foldl (fun acc d => accumulateMonth acc (monthKeyOfDate d.date) d.amount) []

/-- The order of the `$sort` stage `'_id.year': 1, '_id.month': 1`. -/
def MonthKey.le (a b : MonthKey) : Prop :=
  a.year < b.year ∨ (a.year = b.year ∧ a.month ≤ b.month)

instance (a b : MonthKey) : Decidable (MonthKey.le a b) := by
  unfold MonthKey.le; infer_instance

/-- The monthly `$sort` stage, ascending by year, then month. -/
def monthlySortStage (groups : List MonthlyTotal) : List MonthlyTotal :=
  groups.insertionSort (fun a b => MonthKey.le a._id b._id)

/-- One monthly aggregation: `$match`, `$group` by year and month, `$sort`. -/
def monthlyPipeline (docs : List Income) (userId : ObjectId)
    (startDate endDate : Option Int) : List MonthlyTotal :=
  monthlySortStage (monthlyGroupStage (matchStage docs userId startDate endDate))

/-- The array `monthNames` of the handler. -/
def monthNames : List String :=
  ["Jan", "Feb", "Mar", "Apr", "May", "Jun", "Jul", "Aug", "Sep", "Oct", "Nov", "Dec"]

/-- The property name built by the template with year, "-" and month; an
integer is rendered in decimal. -/
def monthMapKey (k : MonthKey) : String :=
  toString k.year ++ "-" ++ toString k.month

/-- The label built by the template with `monthNames[month - 1]`, a space and
the year; an index outside the array gives `undefined`. -/
def monthName (k : MonthKey) : String :=
  (if k.month < 1 then "undefined"
    else (monthNames.get? (k.month - 1).toNat).getD "undefined")
    ++ " " ++ toString k.year

/-- One value of `monthMap`, as sent in the answer. -/
structure MonthlyBucket where
  month : String
  totalExpenses : ℚ
  totalIncome : ℚ
  deriving DecidableEq, Repr

/-- The object `monthMap`: its properties in insertion order, which is the
order of `Object.values` for these property names. -/
abbrev MonthMap := List (String × MonthlyBucket)

/-- Reading `monthMap[key]`; `none` is `undefined`. -/
def MonthMap.get (monthMap : MonthMap) (key : String) : Option MonthlyBucket :=
  match monthMap with
  | [] => none
  | (k, v) :: rest => if k = key then some v else MonthMap.get rest key

/-- Writing `monthMap[key]`: an existing property keeps its place, a new one
goes last. -/
def MonthMap.set (monthMap : MonthMap) (key : String) (value : MonthlyBucket) : MonthMap :=
  match monthMap with
  | [] => [(key, value)]
  | (k, v) :: rest =>
    if k = key then (k, value) :: rest else (k, v) :: MonthMap.set rest key value

/-- The body of `monthlyExpenses.forEach`. -/
def expenseStep (monthMap : MonthMap) (item : MonthlyTotal) : MonthMap :=
  monthMap.set (monthMapKey item._id)
    { month := monthName item._id, totalExpenses := item.total, totalIncome := 0 }

/-- The body of `monthlyIncome.forEach`. -/
def incomeStep (monthMap : MonthMap) (item : MonthlyTotal) : MonthMap :=
  match monthMap.get (monthMapKey item._id) with
  | some bucket => monthMap.set (monthMapKey item._id) { bucket with totalIncome := item.total }
  | none =>
    monthMap.set (monthMapKey item._id)
      { month := monthName item._id, totalExpenses := 0, totalIncome := item.total }

/-- Lines 168-194: `monthMap` after the two `forEach` loops. -/
def mergeMonthly (monthlyExpenses monthlyIncome : List MonthlyTotal) : MonthMap :=
  monthlyIncome.foldl incomeStep (monthlyExpenses.foldl expenseStep [])

/-- Models `getMonthlySummary` (GET /api/reports/monthly-summary): the values of
`monthMap`. -/
def getMonthlySummary (db : Store) (userId : ObjectId)
    (startDate endDate : Option Int) : Response (List MonthlyBucket) :=
  let monthlyExpenses := monthlyPipeline db.expenses userId startDate endDate
  let monthlyIncome := monthlyPipeline db.incomes userId startDate endDate
  .ok ((mergeMonthly monthlyExpenses monthlyIncome).map (fun kv => kv.2))

/-! ## `reportController.js`: overall summary -/

/-- One output document of the `$group` stage with `_id: null`. -/
structure TotalDoc where
  total : ℚ
  deriving DecidableEq, Repr

/-- The pipeline `$match` on the user, `$group` with `_id: null` and `$sum` of
`amount`: no output document when nothing matches, else one document. -/
def totalPipeline (docs : List Income) (userId : ObjectId) : List TotalDoc :=
  match docs.filter (fun d => d.user == userId) with
  | [] => []
  | d :: rest => [{ total := (d :: rest).foldl (fun acc x => acc + x.amount) 0 }]

/-- The body sent by `getSummary`. -/
structure Summary where
  totalIncome : ℚ
  totalExpenses : ℚ
  netBalance : ℚ
  deriving DecidableEq, Repr

/-- Models `getSummary` (GET /api/reports/summary). -/
def getSummary (db : Store) (userId : ObjectId) : Response Summary :=
  let totalIncomeResult := totalPipeline db.incomes userId
  let totalExpensesResult := totalPipeline db.expenses userId
  let totalIncome : ℚ :=
    match totalIncomeResult with
    | r :: _ => r.total
    | [] => 0
  let totalExpenses : ℚ :=
    match totalExpensesResult with
    | r :: _ => r.total
    | [] => 0
  .ok { totalIncome := totalIncome, totalExpenses := totalExpenses,
        netBalance := totalIncome - totalExpenses }

/-! ## `budgetController.js`: writing budgets -/

/-- The fields a budget request body may carry: each is absent (`undefined`)
or a value of its type, an id for `category` and a number for the others. -/
structure BudgetBody where
  category : Option ObjectId
  amount : Option ℚ
  month : Option Int
  year : Option Int
  deriving DecidableEq, Repr

/-- The JSON of a budget document after `populate('category', 'name type')`. -/
structure BudgetDocument where
  _id : ObjectId
  category : Option PopulatedCategory
  amount : ℚ
  month : Int
  year : Int
  user : ObjectId
  deriving DecidableEq, Repr

/-- What a writing handler sends: `res.status(status).json(budget)` or
`res.status(status).json` of a message. -/
inductive BudgetResponse where
  | json (status : Nat) (budget : BudgetDocument)
  | message (status : Nat) (message : String)
  deriving DecidableEq, Repr

/-- Models `Category.findOne` with `_id`, `user` and `type: 'expense'`. -/
def Category.findOne (db : Store) (id user : ObjectId) : Option Category :=
  db.categories.find? (fun c => c._id == id && c.user == user && c.type == .expense)

/-- Models `Budget.findOne` with `category`, `month`, `year` and `user`. -/
def Budget.findOne (db : Store) (category : ObjectId) (month year : Int) (user : ObjectId) :
    Option Budget :=
  db.budgets.find? (fun b =>
    b.category == category && b.month == month && b.year == year && b.user == user)

/-- The unique index `category, month, year, user` of `models/Budget.js`
(line 37): whether a document other than `doc` holds the key of `doc`. -/
def duplicateKey (budgets : List Budget) (doc : Budget) : Bool :=
  budgets.any (fun b =>
    b._id != doc._id && b.category == doc.category && b.month == doc.month &&
      b.year == doc.year && b.user == doc.user)

/-- Models `Budget.create`: the document is inserted at the end of the collection;
the insert is rejected (`none`, an exception) when its `_id` is taken or the
unique index of the schema is violated. -/
def Budget.create (db : Store) (doc : Budget) : Option Store :=
  if db.budgets.any (fun b => b._id == doc._id) || duplicateKey db.budgets doc then none
  else some { db with budgets := db.budgets ++ [doc] }

/-- The update of the one document with the `_id` of `doc`. -/
def replaceOne (doc : Budget) : List Budget → List Budget
  | [] => []
  | b :: rest => if b._id = doc._id then doc :: rest else b :: replaceOne doc rest

/-- Models `budget.save()` on a loaded document: the stored document with its
`_id` is replaced; the write is rejected (`none`, an exception) when the
unique index of the schema is violated. -/
def Budget.save (db : Store) (doc : Budget) : Option Store :=
  if duplicateKey db.budgets doc then none
  else some { db with budgets := replaceOne doc db.budgets }

/-- The response body of a written budget: the document with its category
populated. -/
def toBudgetDocument (db : Store) (doc : Budget) : BudgetDocument :=
  { _id := doc._id, category := populateCategory db doc.category, amount := doc.amount,
    month := doc.month, year := doc.year, user := doc.user }

/-- Models `createBudget` (POST /api/budgets) for the authenticated user; `newId`
is the `_id` generated for the new document.  The result is the response and
the store after the request.  A field that is `undefined` or 0 is falsy. -/
def createBudget (db : Store) (reqUser newId : ObjectId) (body : BudgetBody) :
    BudgetResponse × Store :=
  match body.category, body.amount, body.month, body.year with
  | some category, some amount, some month, some year =>
    if amount = 0 ∨ month = 0 ∨ year = 0 then
      (.message 400 "Please provide category, amount, month, and year", db)
    else if amount < 0 then
      (.message 400 "Amount cannot be negative", db)
    else if month < 1 ∨ month > 12 then
      (.message 400 "Month must be between 1 and 12", db)
    else
      match Category.findOne db category reqUser with
      | none => (.message 404 "Category not found or not an expense category", db)
      | some _ =>
        match Budget.findOne db category month year reqUser with
        | some _ =>
          (.message 400
            "Budget already exists for this category and month. Use update to modify it.", db)
        | none =>
          let budget : Budget :=
            { _id := newId, category := category, amount := amount, month := month,
              year := year, user := reqUser }
          match Budget.create db budget with
          | none => (.message 500 "Server error", db)
          | some db1 => (.json 201 (toBudgetDocument db1 budget), db1)
  | _, _, _, _ => (.message 400 "Please provide category, amount, month, and year", db)

/-- Models `updateBudget` (PUT /api/budgets/:id) for the authenticated user and the
path parameter `id`; the body's `category` is not read.  The result is the
response and the store after the request. -/
def updateBudget (db : Store) (reqUser id : ObjectId) (body : BudgetBody) :
    BudgetResponse × Store :=
  match Budget.findById db id with
  | none => (.message 404 "Budget not found", db)
  | some budget =>
    if budget.user ≠ reqUser then
      (.message 403 "Not authorized to update this budget", db)
    else if (match body.amount with
        | some amount => decide (amount < 0)
        | none => false) then
      (.message 400 "Amount cannot be negative", db)
    else if (match body.month with
        | some month => decide (month < 1 ∨ month > 12)
        | none => false) then
      (.message 400 "Month must be between 1 and 12", db)
    else
      let budget : Budget :=
        { budget with
          amount := match body.amount with
            | some amount => amount
            | none => budget.amount
          month := match body.month with
            | some month => month
            | none => budget.month
          year := match body.year with
            | some year => year
            | none => budget.year }
      match Budget.save db budget with
      | none => (.message 500 "Server error", db)
      | some db1 => (.json 200 (toBudgetDocument db1 budget), db1)

/-! ## Specification-side notions -/

/-- The spec's words (§4.1 step 2): an expense that belongs to the calling
user, references the budget's category and is dated inside the closed range
from `startDate` to `endDate`. -/
def matchesBudget (reqUser : ObjectId) (budget : Budget) (startDate endDate : Int)
    (x : Expense) : Prop :=
  x.user = reqUser ∧ x.category = budget.category ∧ startDate ≤ x.date ∧ x.date ≤ endDate

instance (reqUser : ObjectId) (budget : Budget) (startDate endDate : Int) (x : Expense) :
    Decidable (matchesBudget reqUser budget startDate endDate x) := by
  unfold matchesBudget; infer_instance

/-- The spec's words (§4.1 step 7): rounding to two decimal places, a tie going
away from zero. -/
def round2HalfAwayFromZero (x : ℚ) : ℚ :=
  if 0 ≤ x then ((⌊x * 100 + 1 / 2⌋ : Int) : ℚ) / 100
  else -(((⌊-x * 100 + 1 / 2⌋ : Int) : ℚ) / 100)

/-- What it means for `r` to be `x` rounded to two decimals with ties away
from zero: `r` is a whole number of hundredths, no further than half a
hundredth from `x`, and at exactly half a hundredth it is the one of larger
magnitude. -/
def IsRound2HalfAway (x r : ℚ) : Prop :=
  (∃ k : Int, r = (k : ℚ) / 100) ∧ |r - x| ≤ 1 / 200 ∧ (|r - x| = 1 / 200 → |x| < |r|)

/-! ## Example stores

User 7 owns everything unless said otherwise.  March 2024 runs from
1709251200000 to 1711929599999 (ms), April 2024 from 1711929600000. -/

/-- The expense category "Food" of user 7. -/
def foodCategory : Category :=
  { _id := 1, name := "Food", type := .expense, user := 7 }

/-- The expense category "Rent" of user 7. -/
def rentCategory : Category :=
  { _id := 2, name := "Rent", type := .expense, user := 7 }

/-- Food budget of 1000 for March 2024. -/
def foodBudget : Budget :=
  { _id := 10, category := 1, amount := 1000, month := 3, year := 2024, user := 7 }

/-- Rent budget of 500 for March 2024 (Scenario B of the spec once 600 is
spent). -/
def rentBudget : Budget :=
  { _id := 11, category := 2, amount := 500, month := 3, year := 2024, user := 7 }

/-- Food budget of amount 0 for April 2024. -/
def freeBudget : Budget :=
  { _id := 12, category := 1, amount := 0, month := 4, year := 2024, user := 7 }

/-- Scenario A of the spec, with further expenses that must not be counted:
one of another category, one of another user, one dated in February and one
dated in April. -/
def scenarioA : Store :=
  { budgets := [foodBudget, rentBudget, freeBudget]
    categories := [foodCategory, rentCategory]
    expenses :=
      [ { _id := 100, title := "groceries", amount := 300, category := 1,
          date := 1709251200000, user := 7 },
        { _id := 101, title := "dinner", amount := 450, category := 1,
          date := 1711929599000, user := 7 },
        { _id := 102, title := "rent", amount := 600, category := 2,
          date := 1710000000000, user := 7 },
        { _id := 103, title := "other user", amount := 70, category := 1,
          date := 1710000000000, user := 8 },
        { _id := 104, title := "february", amount := 20, category := 1,
          date := 1709251199999, user := 7 },
        { _id := 105, title := "april", amount := 35, category := 1,
          date := 1711929600000, user := 7 } ]
    incomes := [] }

/-- A budget of 1000 with one expense of 10.05, stored as the binary64 number
nearest to 10.05 (`2828823515942093 / 2 ^ 48`, a little above 10.05): the
exact percentage is just above the tie 1.005. -/
def scenarioNearTie : Store :=
  { budgets := [foodBudget]
    categories := [foodCategory]
    expenses :=
      [ { _id := 100, title := "groceries", amount := 2828823515942093 / 281474976710656,
          category := 1, date := 1710000000000, user := 7 } ]
    incomes := [] }

/-- A Food budget for March 2024 and one Food expense dated 31 March 2024,
23:59:59.500. -/
def scenarioLastSecond : Store :=
  { budgets := [foodBudget]
    categories := [foodCategory]
    expenses :=
      [ { _id := 100, title := "late snack", amount := 40, category := 1,
          date := 1711929599500, user := 7 } ]
    incomes := [] }

/-- A store where one expense and one income reference category 9, which does
not exist (its category was deleted), next to one expense and one income of
existing categories. -/
def scenarioOrphan : Store :=
  { budgets := []
    categories :=
      [foodCategory, { _id := 3, name := "Salary", type := .income, user := 7 }]
    expenses :=
      [ { _id := 100, title := "groceries", amount := 300, category := 1,
          date := 1710000000000, user := 7 },
        { _id := 101, title := "orphan", amount := 450, category := 9,
          date := 1710000000000, user := 7 } ]
    incomes :=
      [ { _id := 200, title := "pay", amount := 2000, category := 3,
          date := 1710000000000, user := 7 },
        { _id := 201, title := "orphan", amount := 50, category := 9,
          date := 1710000000000, user := 7 } ] }

/-- Scenario D of the spec: Food 300, Food 450, Rent 1000. -/
def scenarioD : Store :=
  { budgets := []
    categories := [foodCategory, rentCategory]
    expenses :=
      [ { _id := 100, title := "groceries", amount := 300, category := 1,
          date := 1710000000000, user := 7 },
        { _id := 101, title := "dinner", amount := 450, category := 1,
          date := 1710100000000, user := 7 },
        { _id := 102, title := "rent", amount := 1000, category := 2,
          date := 1710200000000, user := 7 } ]
    incomes :=
      [ { _id := 200, title := "refund", amount := 25, category := 1,
          date := 1710000000000, user := 7 } ] }

/-- Two expense categories of user 7 that share the name "Food" (ids 1 and
4), and one expense in each. -/
def scenarioSameName : Store :=
  { budgets := []
    categories :=
      [foodCategory, rentCategory,
       { _id := 4, name := "Food", type := .expense, user := 7 }]
    expenses :=
      [ { _id := 100, title := "groceries", amount := 300, category := 1,
          date := 1710000000000, user := 7 },
        { _id := 101, title := "rent", amount := 1000, category := 2,
          date := 1710100000000, user := 7 },
        { _id := 102, title := "take-away", amount := 450, category := 4,
          date := 1710200000000, user := 7 } ]
    incomes := [] }

/-- The spec's words (§4.3): `rollup` is the grouping of the transactions
`included` (each paired with its category) by category name: no name occurs
twice, the name of every included transaction's category occurs exactly once,
and the entry of a name carries the sum of the amounts and the number of all
included transactions whose category has that name, whatever the category's
id. -/
def GroupedByName (included : List (Income × Category)) (rollup : List CategoryRollup) :
    Prop :=
  (rollup.map (fun g => g._id)).Nodup ∧
  (∀ dc ∈ included, (rollup.filter (fun g => g._id = dc.2.name)).length = 1) ∧
  (∀ g ∈ rollup,
    g.totalAmount
      = ((included.filter (fun dc => dc.2.name = g._id)).map (fun dc => dc.1.amount)).sum ∧
    g.count = (included.filter (fun dc => dc.2.name = g._id)).length ∧
    0 < g.count)

/-- Three expenses and two incomes of user 7 (one income with the date of an
expense), and one expense of user 8. -/
def scenarioRecent : Store :=
  { budgets := []
    categories :=
      [foodCategory, rentCategory, { _id := 3, name := "Salary", type := .income, user := 7 }]
    expenses :=
      [ { _id := 100, title := "groceries", amount := 300, category := 1,
          date := 1710000000000, user := 7 },
        { _id := 101, title := "rent", amount := 1000, category := 2,
          date := 1710300000000, user := 7 },
        { _id := 102, title := "dinner", amount := 45, category := 1,
          date := 1710200000000, user := 7 },
        { _id := 103, title := "other user", amount := 70, category := 1,
          date := 1710400000000, user := 8 } ]
    incomes :=
      [ { _id := 200, title := "pay", amount := 2000, category := 3,
          date := 1710200000000, user := 7 },
        { _id := 201, title := "gift", amount := 50, category := 9,
          date := 1710100000000, user := 7 } ] }

/-- Scenario C of the spec: expenses of 750 in March 2024, incomes of 2000 in
March and in April 2024. -/
def scenarioC : Store :=
  { budgets := []
    categories :=
      [foodCategory, { _id := 3, name := "Salary", type := .income, user := 7 }]
    expenses :=
      [ { _id := 100, title := "groceries", amount := 300, category := 1,
          date := 1709251200000, user := 7 },
        { _id := 101, title := "dinner", amount := 450, category := 1,
          date := 1711929599000, user := 7 } ]
    incomes :=
      [ { _id := 200, title := "pay", amount := 2000, category := 3,
          date := 1710000000000, user := 7 },
        { _id := 201, title := "pay", amount := 2000, category := 3,
          date := 1712000000000, user := 7 } ] }

/-- An expense in April 2024 and an income in March 2024. -/
def scenarioIncomeFirst : Store :=
  { budgets := []
    categories :=
      [foodCategory, { _id := 3, name := "Salary", type := .income, user := 7 }]
    expenses :=
      [ { _id := 100, title := "groceries", amount := 300, category := 1,
          date := 1712000000000, user := 7 } ]
    incomes :=
      [ { _id := 200, title := "pay", amount := 2000, category := 3,
          date := 1710000000000, user := 7 } ] }

/-- The spec's words (§4.4): the total of the grouping for `key`, or 0 when
the grouping has no entry for it. -/
def totalOr0 (grouping : List MonthlyTotal) (key : MonthKey) : ℚ :=
  match grouping.find? (fun i => decide (i._id = key)) with
  | some i => i.total
  | none => 0

/-- The Food budget of March 2024 after its category was deleted (categories
are deleted without their budgets), and a Rent budget of user 7 for January
of the year 300000; no expenses at all. -/
def scenarioDeletedCategory : Store :=
  { budgets :=
      [foodBudget,
       { _id := 14, category := 2, amount := 500, month := 1, year := 300000, user := 7 }]
    categories := [rentCategory]
    expenses := []
    incomes := [] }

/-- The Food budgets of March 2024 (1000) and April 2024 (0) with no expense
of user 7 in either month: one Food expense of user 8 in March and one Food
expense of user 7 in February. -/
def scenarioQuiet : Store :=
  { budgets := [foodBudget, freeBudget]
    categories := [foodCategory]
    expenses :=
      [ { _id := 103, title := "other user", amount := 70, category := 1,
          date := 1710000000000, user := 8 },
        { _id := 104, title := "february", amount := 20, category := 1,
          date := 1709251199999, user := 7 } ]
    incomes := [] }

/-- The spec's words: the category reference of a transaction matches an
existing category. -/
def categoryResolves (db : Store) (d : Income) : Bool :=
  db.categories.any (fun c => c._id == d.category)

/-- The spec's words (§4.4): key `a` is strictly earlier than key `b` in
(year, month) order. -/
def MonthKey.lt (a b : MonthKey) : Prop :=
  a.year < b.year ∨ (a.year = b.year ∧ a.month < b.month)

instance (a b : MonthKey) : Decidable (MonthKey.lt a b) := by
  unfold MonthKey.lt; infer_instance

/-- The spec's words: the given dates in descending order, with multiplicity. -/
def sortedDesc (dates : List Int) : List Int :=
  dates.insertionSort (fun a b => a ≥ b)

/-- The spec's words: the number of the last calendar day of month `m` (1..12)
of year `y`: 28 or 29 for February by the leap-year rule, 30 for April, June,
September and November, 31 otherwise. -/
def lastDayOfMonth (y m : Int) : Int :=
  if m = 2 then (if (y % 4 = 0 ∧ y % 100 ≠ 0) ∨ y % 400 = 0 then 29 else 28)
  else if m = 4 ∨ m = 6 ∨ m = 9 ∨ m = 11 then 30 else 31

/-- The year a year argument of the `Date` constructor denotes: 1900 + y for
y in 0..99, y otherwise. -/
def denotedYear (y : Int) : Int :=
  if 0 ≤ y ∧ y ≤ 99 then 1900 + y else y

/-- A Food budget of 500 for March of the year 24, one Food expense dated
15 March 0024 and one dated 15 March 1924. -/
def scenarioYear24 : Store :=
  { budgets := [{ _id := 13, category := 1, amount := 500, month := 3, year := 24, user := 7 }]
    categories := [foodCategory]
    expenses :=
      [ { _id := 110, title := "bread", amount := 40, category := 1,
          date := -61403443200000, user := 7 },
        { _id := 111, title := "coal", amount := 60, category := 1,
          date := -1445299200000, user := 7 } ]
    incomes := [] }

/-- The key of the unique index of budgets. -/
def budgetKey (b : Budget) : ObjectId × ObjectId × Int × Int :=
  (b.user, b.category, b.month, b.year)

/-- The spec's words: at most one budget per (user, category, month, year). -/
def UniqueBudgets (db : Store) : Prop :=
  (db.budgets.map budgetKey).Nodup

instance (db : Store) : Decidable (UniqueBudgets db) := by
  unfold UniqueBudgets; infer_instance

/-- Two Food budgets of user 7, for March and for April 2024, and the Rent
budget for March 2024. -/
def scenarioBudgets : Store :=
  { budgets := [foodBudget, rentBudget, freeBudget]
    categories := [foodCategory, rentCategory]
    expenses := []
    incomes := [] }

/-! ## Helper lemmas -/

theorem foldl_add_amount (l : List Expense) (a : ℚ) :
    l.foldl (fun sum expense => sum + expense.amount) a
      = a + (l.map (fun x => x.amount)).sum := by
  induction l generalizing a with
  | nil => simp
  | cons x xs ih => simp [List.foldl_cons, ih, add_assoc]

theorem populateCategory_id {db : Store} {ref : ObjectId} {c : PopulatedCategory}
    (h : populateCategory db ref = some c) : c._id = ref := by
  unfold populateCategory at h
  rw [Option.map_eq_some'] at h
  obtain ⟨cat, hcat, rfl⟩ := h
  simpa using List.find?_some hcat

/-- When the budget is found, owned by the caller, its category resolves and
the month's two dates are valid, the handler answers 200 with the status
body of the expenses found. -/
theorem getBudgetStatus_ok {db : Store} {reqUser id : ObjectId} {b : Budget}
    {c : PopulatedCategory} {s e : Int}
    (hfind : Budget.findById db id = some b) (hown : b.user = reqUser)
    (hs : Date.new b.year (b.month - 1) 1 0 0 0 = some s)
    (he : Date.new b.year b.month 0 23 59 59 = some e)
    (hc : populateCategory db b.category = some c) :
    getBudgetStatus db reqUser id
      = .ok (statusBody b c (Expense.find db reqUser b.category s e)) := by
  have hid : c._id = b.category := populateCategory_id hc
  unfold getBudgetStatus budgetStatusFor
  rw [hfind]
  simp only [hown, ne_eq, not_true_eq_false, if_false]
  rw [hs, he, hc]
  simp only [hid]

theorem find_filter_iff (reqUser : ObjectId) (b : Budget) (s e : Int) (x : Expense) :
    (x.user == reqUser && x.category == b.category && decide (s ≤ x.date) &&
      decide (x.date ≤ e)) = true ↔ matchesBudget reqUser b s e x := by
  simp [matchesBudget, and_assoc]

theorem sum_find_eq (db : Store) (reqUser : ObjectId) (b : Budget) (s e : Int) :
    ((Expense.find db reqUser b.category s e).map (fun x => x.amount)).sum
      = (db.expenses.map (fun x =>
          if matchesBudget reqUser b s e x then x.amount else 0)).sum := by
  unfold Expense.find
  induction db.expenses with
  | nil => simp
  | cons x xs ih =>
    by_cases hx : matchesBudget reqUser b s e x
    · have h := (find_filter_iff reqUser b s e x).mpr hx
      simp only [List.filter_cons, h, if_true, List.map_cons, List.sum_cons, hx, ih]
    · have h : (x.user == reqUser && x.category == b.category && decide (s ≤ x.date) &&
          decide (x.date ≤ e)) = false := by
        rw [Bool.eq_false_iff]
        exact fun hcon => hx ((find_filter_iff reqUser b s e x).mp hcon)
      simp only [List.filter_cons, h, List.map_cons, List.sum_cons, hx, ih, if_false,
        zero_add, Bool.false_eq_true]

theorem length_find_eq (db : Store) (reqUser : ObjectId) (b : Budget) (s e : Int) :
    (Expense.find db reqUser b.category s e).length
      = db.expenses.countP (fun x => decide (matchesBudget reqUser b s e x)) := by
  unfold Expense.find
  rw [List.countP_eq_length_filter]
  congr 1
  apply List.filter_congr
  intro x _
  rw [Bool.eq_iff_iff, find_filter_iff, decide_eq_true_iff]

theorem round2HalfAwayFromZero_spec (x : ℚ) :
    IsRound2HalfAway x (round2HalfAwayFromZero x) := by
  unfold round2HalfAwayFromZero
  by_cases hx : 0 ≤ x
  · rw [if_pos hx]
    have h1 := Int.floor_le (x * 100 + 1 / 2)
    have h2 := Int.lt_floor_add_one (x * 100 + 1 / 2)
    set n : ℚ := ((⌊x * 100 + 1 / 2⌋ : Int) : ℚ) with hn
    refine ⟨⟨_, rfl⟩, ?_, ?_⟩
    · rw [abs_le]; constructor <;> linarith
    · intro htie
      have hle : n / 100 - x ≤ 1 / 200 := by linarith
      have hgt : -(1 / 200) < n / 100 - x := by linarith
      have hpos : n / 100 - x = 1 / 200 := by
        rcases abs_eq (by norm_num : (0 : ℚ) ≤ 1 / 200) |>.mp htie with h | h
        · exact h
        · linarith
      rw [abs_of_nonneg hx, abs_of_nonneg (by linarith)]
      linarith
  · rw [if_neg hx]
    push_neg at hx
    have h1 := Int.floor_le (-x * 100 + 1 / 2)
    have h2 := Int.lt_floor_add_one (-x * 100 + 1 / 2)
    set n : ℚ := ((⌊-x * 100 + 1 / 2⌋ : Int) : ℚ) with hn
    refine ⟨⟨-⌊-x * 100 + 1 / 2⌋, by push_cast; ring⟩, ?_, ?_⟩
    · rw [abs_le]; constructor <;> linarith
    · intro htie
      have hlt : -(n / 100) - x < 1 / 200 := by linarith
      have hneg : -(n / 100) - x = -(1 / 200) := by
        rcases abs_eq (by norm_num : (0 : ℚ) ≤ 1 / 200) |>.mp htie with h | h
        · linarith
        · exact h
      rw [abs_of_neg hx, abs_of_neg (by linarith)]
      linarith

/-- Scenario A evaluated: spent 750, remaining 250, 75.00 per cent, not over
budget, two expenses. -/
theorem scenarioA_status :
    getBudgetStatus scenarioA 7 10 = .ok
      { budget := { _id := 10, category := { _id := 1, name := "Food", type := .expense },
                    amount := 1000, month := 3, year := 2024 }
        spent := 750
        remaining := 250
        percentageUsed := some 75
        isOverBudget := false
        expenseCount := 2 } := by
  decide!

/-! ## Claims -/

/-- C1: when `getBudgetStatus` reaches its expense query (budget found, owned
by the caller, category resolved, `s` and `e` the start and end dates of the
budget's month), it answers with a status whose `spent` is the sum of the
amounts of exactly the stored expenses that belong to the caller, reference
the budget's category and are dated in `[s, e]`, and whose `expenseCount` is
the number of those expenses. -/
theorem getBudgetStatus_spent_expenseCount (db : Store) (reqUser id : ObjectId)
    (b : Budget) (c : PopulatedCategory) (s e : Int)
    (hfind : Budget.findById db id = some b) (hown : b.user = reqUser)
    (hs : Date.new b.year (b.month - 1) 1 0 0 0 = some s)
    (he : Date.new b.year b.month 0 23 59 59 = some e)
    (hc : populateCategory db b.category = some c) :
    ∃ st, getBudgetStatus db reqUser id = .ok st ∧
      st.spent = (db.expenses.map (fun x =>
          if matchesBudget reqUser b s e x then x.amount else 0)).sum ∧
      st.expenseCount = db.expenses.countP (fun x => decide (matchesBudget reqUser b s e x)) := by
  refine ⟨_, getBudgetStatus_ok hfind hown hs he hc, ?_, ?_⟩
  · show List.foldl _ 0 _ = _
    rw [foldl_add_amount, zero_add, sum_find_eq]
  · exact length_find_eq db reqUser b s e

/-- Witness of C1 on Scenario A: 300 + 450 = 750 over two expenses. -/
theorem getBudgetStatus_spent_expenseCount_witness :
    (∃ st, getBudgetStatus scenarioA 7 10 = .ok st ∧ st.spent = 750 ∧ st.expenseCount = 2) ∧
    ∃ st, getBudgetStatus scenarioA 7 10 = .ok st ∧
      st.spent = (scenarioA.expenses.map (fun x =>
          if matchesBudget 7 foodBudget 1709251200000 1711929599000 x
          then x.amount else 0)).sum ∧
      st.expenseCount = scenarioA.expenses.countP
        (fun x => decide (matchesBudget 7 foodBudget 1709251200000 1711929599000 x)) :=
  ⟨⟨_, scenarioA_status, rfl, rfl⟩,
   getBudgetStatus_spent_expenseCount scenarioA 7 10 foodBudget
    { _id := 1, name := "Food", type := .expense } 1709251200000 1711929599000
    (by decide) rfl (by decide) (by decide) (by decide)⟩

/-! ### The percentage in binary64 -/

theorem bitLengthAux_zero (fuel : Nat) : bitLengthAux fuel 0 = 0 := by
  cases fuel <;> simp [bitLengthAux]

theorem bitLengthAux_spec (fuel : Nat) :
    ∀ n, n ≤ fuel → 0 < n →
      ∃ k, bitLengthAux fuel n = k + 1 ∧ 2 ^ k ≤ n ∧ n < 2 ^ (k + 1) := by
  induction fuel with
  | zero => intro n h hn; omega
  | succ fuel ih =>
    intro n h hn
    have hne : n ≠ 0 := by omega
    simp only [bitLengthAux, hne, if_false]
    by_cases h2 : n / 2 = 0
    · rw [h2, bitLengthAux_zero]
      refine ⟨0, rfl, ?_, ?_⟩
      · simpa using hn
      · simp only [zero_add, pow_one]
        omega
    · obtain ⟨k, hk, hlo, hhi⟩ := ih (n / 2) (by omega) (by omega)
      refine ⟨k + 1, by rw [hk], ?_, ?_⟩
      · rw [pow_succ]
        omega
      · rw [pow_succ]
        omega

theorem bitLength_spec {n : Nat} (hn : 0 < n) :
    ∃ k, bitLength n = k + 1 ∧ 2 ^ k ≤ n ∧ n < 2 ^ (k + 1) :=
  bitLengthAux_spec n n le_rfl hn

theorem abs_eq_natAbs_div_den (x : ℚ) : |x| = (x.num.natAbs : ℚ) / (x.den : ℚ) := by
  have hden : (0 : ℚ) < x.den := by exact_mod_cast x.den_pos
  conv_lhs => rw [← Rat.num_div_den x]
  rw [abs_div, abs_of_pos hden, Nat.cast_natAbs, Int.cast_abs]

/-- The binary exponent brackets the magnitude: `2 ^ e ≤ |x| < 2 ^ (e + 1)`. -/
theorem binaryExponent_spec {x : ℚ} (hx : x ≠ 0) :
    (2 : ℚ) ^ binaryExponent x ≤ |x| ∧ |x| < (2 : ℚ) ^ (binaryExponent x + 1) := by
  have hnum : 0 < x.num.natAbs := Int.natAbs_pos.mpr (Rat.num_ne_zero.mpr hx)
  obtain ⟨a, ha, halo, hahi⟩ := bitLength_spec hnum
  obtain ⟨b, hb, hblo, hbhi⟩ := bitLength_spec x.den_pos
  have hA : (0 : ℚ) < 2 ^ a := by positivity
  have hB : (0 : ℚ) < 2 ^ b := by positivity
  have halo' : (2 : ℚ) ^ a ≤ (x.num.natAbs : ℚ) := by exact_mod_cast halo
  have hahi' : (x.num.natAbs : ℚ) < 2 ^ a * 2 := by
    rw [← pow_succ]; exact_mod_cast hahi
  have hblo' : (2 : ℚ) ^ b ≤ (x.den : ℚ) := by exact_mod_cast hblo
  have hbhi' : (x.den : ℚ) < 2 ^ b * 2 := by
    rw [← pow_succ]; exact_mod_cast hbhi
  have hden : (0 : ℚ) < x.den := by exact_mod_cast x.den_pos
  have hc : ((bitLength x.num.natAbs : Int) - (bitLength x.den : Int)) = (a : Int) - b := by
    rw [ha, hb]; push_cast; ring
  have h2 : (2 : ℚ) ≠ 0 := by norm_num
  have hpc : (2 : ℚ) ^ ((a : Int) - b) = 2 ^ a / 2 ^ b := by
    rw [zpow_sub₀ h2, zpow_natCast, zpow_natCast]
  have hpc1 : (2 : ℚ) ^ ((a : Int) - b + 1) = 2 ^ a * 2 / 2 ^ b := by
    rw [zpow_add₀ h2, hpc, zpow_one]; ring
  have hpcm : (2 : ℚ) ^ ((a : Int) - b - 1) = 2 ^ a / (2 ^ b * 2) := by
    rw [zpow_sub₀ h2, hpc, zpow_one]; field_simp
  have habs := abs_eq_natAbs_div_den x
  unfold binaryExponent
  simp only [hc]
  split_ifs with hle
  · refine ⟨hle, ?_⟩
    rw [hpc1, habs]
    exact div_lt_div₀ hahi' hblo' (by positivity) hB
  · push_neg at hle
    refine ⟨?_, ?_⟩
    · rw [hpcm, habs]
      exact div_le_div₀ (Nat.cast_nonneg _) halo' hden hbhi'.le
    · rw [sub_add_cancel]
      exact hle

theorem roundTiesToEven_error (y : ℚ) : |(roundTiesToEven y : ℚ) - y| ≤ 1 / 2 := by
  have h1 := Int.floor_le y
  have h2 := Int.lt_floor_add_one y
  unfold roundTiesToEven
  simp only []
  rw [abs_le]
  split_ifs <;> push_cast <;> constructor <;> linarith

/-- Rounding to binary64 moves a number by at most half a unit in the last
place: a relative error of `2 ^ (-53)`, or `2 ^ (-1075)` among the subnormal
numbers. -/
theorem roundToBinary64_error (x : ℚ) :
    |roundToBinary64 x - x| ≤ |x| / 2 ^ 53 + 1 / 2 ^ 1075 := by
  by_cases hx : x = 0
  · subst hx
    simp [roundToBinary64, roundTiesToEven]
  have hspec := (binaryExponent_spec hx).1
  unfold roundToBinary64
  simp only []
  set e := max (binaryExponent x) (-1022) with he
  have hulp : (0 : ℚ) < 2 ^ (e - 52) := by positivity
  have hr := roundTiesToEven_error (x / 2 ^ (e - 52))
  have hmul : |(roundTiesToEven (x / 2 ^ (e - 52)) : ℚ) * 2 ^ (e - 52) - x|
      = |(roundTiesToEven (x / 2 ^ (e - 52)) : ℚ) - x / 2 ^ (e - 52)| * 2 ^ (e - 52) := by
    rw [← abs_of_pos hulp, ← abs_mul, abs_of_pos hulp]
    congr 1
    field_simp
  rw [hmul]
  have h2 : (2 : ℚ) ≠ 0 := by norm_num
  have hhalf : (1 / 2 : ℚ) * 2 ^ (e - 52) ≤ |x| / 2 ^ 53 + 1 / 2 ^ 1075 := by
    rcases le_total (binaryExponent x) (-1022) with hsmall | hbig
    · have hemax : e = -1022 := by rw [he, max_eq_right hsmall]
      rw [hemax]
      have : (1 / 2 : ℚ) * 2 ^ ((-1022 : Int) - 52) = 1 / 2 ^ 1075 := by
        rw [show ((-1022 : Int) - 52) = -(1074 : ℕ) by norm_num, zpow_neg, zpow_natCast]
        ring
      rw [this]
      have : (0 : ℚ) ≤ |x| / 2 ^ 53 := by positivity
      linarith
    · have hemax : e = binaryExponent x := by rw [he, max_eq_left hbig]
      rw [hemax]
      have : (1 / 2 : ℚ) * 2 ^ (binaryExponent x - 52) = 2 ^ binaryExponent x / 2 ^ 53 := by
        rw [zpow_sub₀ h2, show ((52 : Int)) = ((52 : ℕ) : Int) by norm_num, zpow_natCast]
        ring
      rw [this]
      have h53 : (0 : ℚ) < 2 ^ 53 := by positivity
      have : (2 : ℚ) ^ binaryExponent x / 2 ^ 53 ≤ |x| / 2 ^ 53 :=
        div_le_div_of_nonneg_right hspec h53.le
      have : (0 : ℚ) ≤ 1 / 2 ^ 1075 := by positivity
      linarith
  calc |(roundTiesToEven (x / 2 ^ (e - 52)) : ℚ) - x / 2 ^ (e - 52)| * 2 ^ (e - 52)
      ≤ 1 / 2 * 2 ^ (e - 52) := mul_le_mul_of_nonneg_right hr hulp.le
    _ ≤ |x| / 2 ^ 53 + 1 / 2 ^ 1075 := hhalf

theorem roundToBinary64_zero : roundToBinary64 0 = 0 := by
  simp [roundToBinary64, roundTiesToEven]

/-- A number of magnitude up to `2 ^ 1023` has a finite Number value, within
the rounding error of binary64. -/
theorem NumberValue_of_le {x : ℚ} (hx : |x| ≤ 2 ^ 1023) :
    ∃ r, NumberValue x = some r ∧ |r - x| ≤ |x| / 2 ^ 53 + 1 / 2 ^ 1075 := by
  by_cases h0 : x = 0
  · subst h0
    refine ⟨0, by simp [NumberValue], ?_⟩
    simp
  · have herr := roundToBinary64_error x
    refine ⟨roundToBinary64 x, ?_, herr⟩
    unfold NumberValue
    rw [if_neg h0, if_pos]
    have htri : |roundToBinary64 x| ≤ |roundToBinary64 x - x| + |x| := by
      have := abs_add (roundToBinary64 x - x) x
      rwa [sub_add_cancel] at this
    rw [show ((1024 : Int)) = ((1024 : ℕ) : Int) by norm_num, zpow_natCast]
    have h1 : |x| / 2 ^ 53 ≤ 2 ^ 1023 / 2 ^ 53 :=
      div_le_div_of_nonneg_right hx (by positivity)
    have h2 : (2 : ℚ) ^ 1023 / 2 ^ 53 + 1 / 2 ^ 1075 + 2 ^ 1023 < 2 ^ 1024 := by norm_num
    linarith

/-- The three roundings of `s / a * 100 * 100` in binary64: each operation
has a finite result, and the last one is within a relative `2 ^ (-51)` (and
`2 ^ (-1000)`) of the exact value. -/
theorem percentage_chain (s a : ℚ) (ha : 0 < a) (hs : 0 ≤ s) (hr : s / a ≤ 2 ^ 1000) :
    ∃ q p x v, jsDiv s a = some q ∧ jsMul q 100 = some p ∧ jsMul p 100 = some x ∧
      jsDiv (Math.round x) 100 = some v ∧
      |x - s / a * 100 * 100| ≤ s / a * 100 * 100 / 2 ^ 51 + 1 / 2 ^ 1000 := by
  have hr0 : 0 ≤ s / a := div_nonneg hs ha.le
  -- the large constants are kept as atoms
  obtain ⟨R, hR⟩ : ∃ R : ℚ, R = 2 ^ 1000 := ⟨_, rfl⟩
  obtain ⟨M, hM⟩ : ∃ M : ℚ, M = 2 ^ 1023 := ⟨_, rfl⟩
  obtain ⟨η, hη⟩ : ∃ η : ℚ, η = 1 / 2 ^ 1075 := ⟨_, rfl⟩
  obtain ⟨τ, hτ⟩ : ∃ τ : ℚ, τ = 1 / 2 ^ 1000 := ⟨_, rfl⟩
  have hbig : R * 20000 + 2 ≤ M := by rw [hR, hM]; norm_num
  have hη0 : 0 ≤ η := by rw [hη]; positivity
  have hη1 : η ≤ 1 / 1000000 := by rw [hη]; norm_num
  have hητ : 20000 * η ≤ τ := by rw [hη, hτ]; norm_num
  rw [← hR] at hr
  rw [← hτ]
  have step : ∀ y : ℚ, |y| ≤ M →
      ∃ z, NumberValue y = some z ∧ |z - y| ≤ |y| / 2 ^ 53 + η ∧ |z| ≤ |y| + |y| / 2 ^ 53 + η := by
    intro y hy
    rw [hM] at hy
    obtain ⟨z, hz, hze⟩ := NumberValue_of_le hy
    rw [← hη] at hze
    refine ⟨z, hz, hze, ?_⟩
    have := abs_add (z - y) y
    rw [sub_add_cancel] at this
    linarith
  have small : ∀ t : ℚ, 0 ≤ t → t / 2 ^ 53 ≤ t := fun t ht => div_le_self ht (by norm_num)
  have h100 : ∀ t : ℚ, |t * 100| = |t| * 100 := fun t => by
    rw [abs_mul, abs_of_pos (by norm_num : (0 : ℚ) < 100)]
  set r := s / a with hrdef
  have hrabs : |r| = r := abs_of_nonneg hr0
  -- the quotient
  obtain ⟨q, hq, hqe, hqa⟩ := step r (by rw [hrabs]; linarith)
  rw [hrabs] at hqe hqa
  have hrs := small r hr0
  have hq0 := abs_nonneg q
  -- times 100
  obtain ⟨p, hp, hpe, hpa⟩ := step (q * 100) (by rw [h100]; linarith)
  rw [h100] at hpe hpa
  have hqs := small (|q| * 100) (by linarith)
  have hp0 := abs_nonneg p
  -- times 100 again
  obtain ⟨x, hx, hxe, hxa⟩ := step (p * 100) (by rw [h100]; linarith)
  rw [h100] at hxe hxa
  have hps := small (|p| * 100) (by linarith)
  -- the rounded value divided by 100
  have hround : |Math.round x / 100| ≤ |x| + 1 := by
    unfold Math.round
    have h1 := Int.floor_le (x + 1 / 2)
    have h2 := Int.lt_floor_add_one (x + 1 / 2)
    rw [abs_div, abs_of_pos (by norm_num : (0 : ℚ) < 100)]
    have h3 : |((⌊x + 1 / 2⌋ : Int) : ℚ)| ≤ |x| + 1 := by
      rw [abs_le]
      have := neg_abs_le x
      have := le_abs_self x
      constructor <;> linarith
    have h4 : |((⌊x + 1 / 2⌋ : Int) : ℚ)| / 100 ≤ |((⌊x + 1 / 2⌋ : Int) : ℚ)| :=
      div_le_self (abs_nonneg _) (by norm_num)
    linarith
  obtain ⟨v, hv, _, _⟩ := step (Math.round x / 100) (by linarith)
  refine ⟨q, p, x, v, ?_, hp, hx, ?_, ?_⟩
  · unfold jsDiv
    rw [if_neg ha.ne']
    exact hq
  · unfold jsDiv
    rw [if_neg (by norm_num)]
    exact hv
  · -- the accumulated error
    have e1 := abs_le.mp hqe
    have e2 := abs_le.mp hpe
    have e3 := abs_le.mp hxe
    rw [abs_le]
    constructor <;> linarith

theorem percentage_of_zero :
    ((some (0 : ℚ)).bind (fun p => jsMul p 100)).bind (fun x => jsDiv (Math.round x) 100)
      = some 0 := by
  have h1 : jsMul 0 100 = some 0 := by simp [jsMul, NumberValue]
  have h2 : Math.round 0 = 0 := by norm_num [Math.round]
  have h3 : jsDiv 0 100 = some 0 := by simp [jsDiv, NumberValue]
  rw [Option.some_bind, h1, Option.some_bind, h2, h3]

/-- An integer within `1 / 2 + ε` of `X` is `X` rounded to the nearest integer
when `X` is farther than `ε` from the tie between its two neighbours. -/
theorem eq_floor_add_half_of_not_near_tie (X : ℚ) (k : Int) (ε : ℚ) (h0 : 0 ≤ ε)
    (hk : |(k : ℚ) - X| ≤ 1 / 2 + ε) (hε : ε < |X - ⌊X⌋ - 1 / 2|) :
    k = ⌊X + 1 / 2⌋ := by
  have h1 := Int.floor_le X
  have h2 := Int.lt_floor_add_one X
  have hk2 := abs_le.mp hk
  rcases lt_abs.mp hε with hhi | hlo
  · -- above the tie
    have hfloor : ⌊X + 1 / 2⌋ = ⌊X⌋ + 1 := by
      rw [Int.floor_eq_iff]
      push_cast
      constructor <;> linarith
    rw [hfloor]
    have hlt : ((⌊X⌋ : Int) : ℚ) < k := by linarith
    have hlt2 : (k : ℚ) < ((⌊X⌋ + 2 : Int) : ℚ) := by push_cast; linarith
    have hlt' : ⌊X⌋ < k := by exact_mod_cast hlt
    have hlt2' : k < ⌊X⌋ + 2 := by exact_mod_cast hlt2
    omega
  · -- below the tie
    have hfloor : ⌊X + 1 / 2⌋ = ⌊X⌋ := by
      rw [Int.floor_eq_iff]
      constructor <;> linarith
    rw [hfloor]
    have hlt : ((⌊X⌋ - 1 : Int) : ℚ) < k := by push_cast; linarith
    have hlt2 : (k : ℚ) < ((⌊X⌋ + 1 : Int) : ℚ) := by push_cast; linarith
    have hlt' : ⌊X⌋ - 1 < k := by exact_mod_cast hlt
    have hlt2' : k < ⌊X⌋ + 1 := by exact_mod_cast hlt2
    omega

/-- C2 (counterexample): a budget of 1000 and one expense of 10.05 (the
binary64 number the text 10.05 is read as).  The exact percentage
spent / amount × 100 is a little above 1.005 and rounds to 1.01, also under
the tie rule; the handler computes 1.0049999999999999 × 100 =
100.49999999999999 in binary64, rounds it to 100 and answers 1. -/
theorem getBudgetStatus_percentageUsed_near_tie :
    NumberValue (1005 / 100) = some (2828823515942093 / 281474976710656) ∧
    (match getBudgetStatus scenarioNearTie 7 10 with
      | .ok st => some (st.budget.amount, st.spent, st.percentageUsed)
      | .fail _ _ => none)
      = some (1000, 2828823515942093 / 281474976710656, some 1) ∧
    round2HalfAwayFromZero ((2828823515942093 / 281474976710656 : ℚ) / 1000 * 100)
      = 101 / 100 ∧
    (1005 / 1000 : ℚ) < (2828823515942093 / 281474976710656 : ℚ) / 1000 * 100 ∧
    NumberValue (101 / 100) ≠ some 1 ∧
    (jsDiv (2828823515942093 / 281474976710656) 1000).bind (fun q => jsMul q 100)
      = some (1131529406376837 / 1125899906842624) ∧
    jsMul (1131529406376837 / 1125899906842624) 100
      = some (7072058789855231 / 70368744177664) ∧
    Math.round (7072058789855231 / 70368744177664) = 100 := by
  decide!

/-- C2 (amended): for a budget with `amount > 0` and a non-negative total of
the expenses found, with spent / amount at most 2 ^ 1000, the status carries
as `percentageUsed` the Number value for k / 100, a whole number k of
hundredths with |k − spent / amount × 100 × 100| ≤ 1/2 + margin, where the
margin is a relative 2 ^ (-51) of spent / amount × 100 × 100 (plus
2 ^ (-1000)).  When spent / amount × 100 × 100 is farther than the margin from
the tie between its neighbouring integers, k / 100 is spent / amount × 100
rounded to two decimals (the spec's rounding function). -/
theorem getBudgetStatus_percentageUsed (db : Store) (reqUser id : ObjectId)
    (b : Budget) (c : PopulatedCategory) (s e : Int)
    (hfind : Budget.findById db id = some b) (hown : b.user = reqUser)
    (hs : Date.new b.year (b.month - 1) 1 0 0 0 = some s)
    (he : Date.new b.year b.month 0 23 59 59 = some e)
    (hc : populateCategory db b.category = some c)
    (hamount : 0 < b.amount)
    (hspent : 0 ≤ ((Expense.find db reqUser b.category s e).map (fun x => x.amount)).sum)
    (hratio : ((Expense.find db reqUser b.category s e).map (fun x => x.amount)).sum
      / b.amount ≤ 2 ^ 1000) :
    ∃ (st : BudgetStatus) (k : Int) (r : ℚ), getBudgetStatus db reqUser id = .ok st ∧
      st.spent = ((Expense.find db reqUser b.category s e).map (fun x => x.amount)).sum ∧
      st.percentageUsed = some r ∧
      NumberValue ((k : ℚ) / 100) = some r ∧
      |(k : ℚ) - st.spent / b.amount * 100 * 100|
        ≤ 1 / 2 + (st.spent / b.amount * 100 * 100 / 2 ^ 51 + 1 / 2 ^ 1000) ∧
      (st.spent / b.amount * 100 * 100 / 2 ^ 51 + 1 / 2 ^ 1000
          < |st.spent / b.amount * 100 * 100 - ⌊st.spent / b.amount * 100 * 100⌋ - 1 / 2| →
        (k : ℚ) / 100 = round2HalfAwayFromZero (st.spent / b.amount * 100) ∧
        IsRound2HalfAway (st.spent / b.amount * 100) ((k : ℚ) / 100)) := by
  have hsp : (statusBody b c (Expense.find db reqUser b.category s e)).spent
      = ((Expense.find db reqUser b.category s e).map (fun x => x.amount)).sum := by
    show List.foldl _ 0 _ = _
    rw [foldl_add_amount, zero_add]
  obtain ⟨q, p, x, v, hq, hp, hx, hv, herr⟩ := percentage_chain _ b.amount hamount hspent hratio
  have hX0 : 0 ≤ ((Expense.find db reqUser b.category s e).map (fun x => x.amount)).sum
      / b.amount * 100 * 100 :=
    mul_nonneg (mul_nonneg (div_nonneg hspent hamount.le) (by norm_num)) (by norm_num)
  have hkx : |((⌊x + 1 / 2⌋ : Int) : ℚ) - x| ≤ 1 / 2 := by
    have h1 := Int.floor_le (x + 1 / 2)
    have h2 := Int.lt_floor_add_one (x + 1 / 2)
    rw [abs_le]
    constructor <;> linarith
  have hbound : |((⌊x + 1 / 2⌋ : Int) : ℚ)
      - ((Expense.find db reqUser b.category s e).map (fun x => x.amount)).sum
        / b.amount * 100 * 100|
      ≤ 1 / 2 + (((Expense.find db reqUser b.category s e).map (fun x => x.amount)).sum
        / b.amount * 100 * 100 / 2 ^ 51 + 1 / 2 ^ 1000) := by
    have h1 := abs_le.mp hkx
    have h2 := abs_le.mp herr
    rw [abs_le]
    constructor <;> linarith
  refine ⟨_, ⌊x + 1 / 2⌋, v, getBudgetStatus_ok hfind hown hs he hc, hsp, ?_, ?_, ?_, ?_⟩
  · show Option.bind (Option.bind (if b.amount > 0 then
        (jsDiv (List.foldl _ 0 _) b.amount).bind (fun q => jsMul q 100) else some 0) _) _ = _
    rw [foldl_add_amount, zero_add, if_pos hamount, hq, Option.some_bind, hp,
      Option.some_bind, hx, Option.some_bind, hv]
  · have h100 : (100 : ℚ) ≠ 0 := by norm_num
    unfold jsDiv at hv
    rw [if_neg h100] at hv
    exact hv
  · rw [hsp]
    exact hbound
  · rw [hsp]
    intro hfar
    have hε0 : 0 ≤ ((Expense.find db reqUser b.category s e).map (fun x => x.amount)).sum
        / b.amount * 100 * 100 / 2 ^ 51 + 1 / 2 ^ 1000 :=
      add_nonneg (div_nonneg hX0 (pow_nonneg (by norm_num) _))
        (div_nonneg zero_le_one (pow_nonneg (by norm_num) _))
    have hk := eq_floor_add_half_of_not_near_tie _ ⌊x + 1 / 2⌋ _ hε0 hbound hfar
    have hp0 : 0 ≤ ((Expense.find db reqUser b.category s e).map (fun x => x.amount)).sum
        / b.amount * 100 :=
      mul_nonneg (div_nonneg hspent hamount.le) (by norm_num)
    have hval : ((⌊x + 1 / 2⌋ : Int) : ℚ) / 100
        = round2HalfAwayFromZero
            (((Expense.find db reqUser b.category s e).map (fun x => x.amount)).sum
              / b.amount * 100) := by
      rw [round2HalfAwayFromZero, if_pos hp0, hk]
    refine ⟨hval, ?_⟩
    rw [hval]
    exact round2HalfAwayFromZero_spec _

/-- Witness of C2 (amended) on Scenario A: 750 spent of 1000 is 75 per
cent, far from a tie, and the status carries 75. -/
theorem getBudgetStatus_percentageUsed_witness :
    ∃ (st : BudgetStatus) (k : Int) (r : ℚ), getBudgetStatus scenarioA 7 10 = .ok st ∧
      st.spent = ((Expense.find scenarioA 7 foodBudget.category 1709251200000
        1711929599000).map (fun x => x.amount)).sum ∧
      st.percentageUsed = some r ∧
      NumberValue ((k : ℚ) / 100) = some r ∧
      |(k : ℚ) - st.spent / foodBudget.amount * 100 * 100|
        ≤ 1 / 2 + (st.spent / foodBudget.amount * 100 * 100 / 2 ^ 51 + 1 / 2 ^ 1000) ∧
      (st.spent / foodBudget.amount * 100 * 100 / 2 ^ 51 + 1 / 2 ^ 1000
          < |st.spent / foodBudget.amount * 100 * 100
              - ⌊st.spent / foodBudget.amount * 100 * 100⌋ - 1 / 2| →
        (k : ℚ) / 100 = round2HalfAwayFromZero (st.spent / foodBudget.amount * 100) ∧
        IsRound2HalfAway (st.spent / foodBudget.amount * 100) ((k : ℚ) / 100)) :=
  getBudgetStatus_percentageUsed scenarioA 7 10 foodBudget
    { _id := 1, name := "Food", type := .expense } 1709251200000 1711929599000
    (by decide) rfl (by decide) (by decide) (by decide) (by decide!) (by decide!) (by decide!)

/-- C3: the status carries `remaining = budget.amount − spent`, signed: when
the spent total exceeds the amount it is negative, not 0. -/
theorem getBudgetStatus_remaining (db : Store) (reqUser id : ObjectId)
    (b : Budget) (c : PopulatedCategory) (s e : Int)
    (hfind : Budget.findById db id = some b) (hown : b.user = reqUser)
    (hs : Date.new b.year (b.month - 1) 1 0 0 0 = some s)
    (he : Date.new b.year b.month 0 23 59 59 = some e)
    (hc : populateCategory db b.category = some c) :
    ∃ st, getBudgetStatus db reqUser id = .ok st ∧
      st.spent = ((Expense.find db reqUser b.category s e).map (fun x => x.amount)).sum ∧
      st.remaining = b.amount - st.spent ∧
      (b.amount < st.spent → st.remaining < 0) := by
  refine ⟨_, getBudgetStatus_ok hfind hown hs he hc, ?_, rfl, ?_⟩
  · show List.foldl _ 0 _ = _
    rw [foldl_add_amount, zero_add]
  · intro h
    show b.amount - _ < 0
    exact sub_neg.mpr h

/-- Witness of C3 on Scenario B: amount 500, spent 600, remaining −100. -/
theorem getBudgetStatus_remaining_witness :
    getBudgetStatus scenarioA 7 11 = .ok
      { budget := { _id := 11, category := { _id := 2, name := "Rent", type := .expense },
                    amount := 500, month := 3, year := 2024 }
        spent := 600
        remaining := -100
        percentageUsed := some 120
        isOverBudget := true
        expenseCount := 1 } ∧
    ∃ st, getBudgetStatus scenarioA 7 11 = .ok st ∧
      st.spent = ((Expense.find scenarioA 7 rentBudget.category 1709251200000
        1711929599000).map (fun x => x.amount)).sum ∧
      st.remaining = rentBudget.amount - st.spent ∧
      (rentBudget.amount < st.spent → st.remaining < 0) :=
  ⟨by decide!,
   getBudgetStatus_remaining scenarioA 7 11 rentBudget
    { _id := 2, name := "Rent", type := .expense } 1709251200000 1711929599000
    (by decide) rfl (by decide) (by decide) (by decide)⟩

/-- C4: the status carries `isOverBudget = true` exactly when the spent total
is strictly greater than the budget's amount, whatever the amount; a spent
total equal to the amount is not over budget, and for amount 0 the flag is
true exactly when something was spent. -/
theorem getBudgetStatus_isOverBudget (db : Store) (reqUser id : ObjectId)
    (b : Budget) (c : PopulatedCategory) (s e : Int)
    (hfind : Budget.findById db id = some b) (hown : b.user = reqUser)
    (hs : Date.new b.year (b.month - 1) 1 0 0 0 = some s)
    (he : Date.new b.year b.month 0 23 59 59 = some e)
    (hc : populateCategory db b.category = some c) :
    ∃ st, getBudgetStatus db reqUser id = .ok st ∧
      st.spent = ((Expense.find db reqUser b.category s e).map (fun x => x.amount)).sum ∧
      (st.isOverBudget = true ↔ b.amount < st.spent) ∧
      (st.spent = b.amount → st.isOverBudget = false) ∧
      (b.amount = 0 → (st.isOverBudget = true ↔ 0 < st.spent)) := by
  have hover : (statusBody b c (Expense.find db reqUser b.category s e)).isOverBudget = true
      ↔ b.amount < (statusBody b c (Expense.find db reqUser b.category s e)).spent := by
    show decide (_ > b.amount) = true ↔ _
    rw [decide_eq_true_iff]
    exact Iff.rfl
  refine ⟨_, getBudgetStatus_ok hfind hown hs he hc, ?_, hover, ?_, ?_⟩
  · show List.foldl _ 0 _ = _
    rw [foldl_add_amount, zero_add]
  · intro heq
    rw [Bool.eq_false_iff]
    intro hcon
    exact absurd (hover.mp hcon) (by rw [heq]; exact lt_irrefl _)
  · intro h0
    rw [hover, h0]

/-- Witness of C4: a budget of amount 0 with 35 spent in its month is over
budget. -/
theorem getBudgetStatus_isOverBudget_witness :
    getBudgetStatus scenarioA 7 12 = .ok
      { budget := { _id := 12, category := { _id := 1, name := "Food", type := .expense },
                    amount := 0, month := 4, year := 2024 }
        spent := 35
        remaining := -35
        percentageUsed := some 0
        isOverBudget := true
        expenseCount := 1 } ∧
    ∃ st, getBudgetStatus scenarioA 7 12 = .ok st ∧
      st.spent = ((Expense.find scenarioA 7 freeBudget.category 1711929600000
        1714521599000).map (fun x => x.amount)).sum ∧
      (st.isOverBudget = true ↔ freeBudget.amount < st.spent) ∧
      (st.spent = freeBudget.amount → st.isOverBudget = false) ∧
      (freeBudget.amount = 0 → (st.isOverBudget = true ↔ 0 < st.spent)) :=
  ⟨by decide!,
   getBudgetStatus_isOverBudget scenarioA 7 12 freeBudget
    { _id := 1, name := "Food", type := .expense } 1711929600000 1714521599000
    (by decide) rfl (by decide) (by decide) (by decide)⟩

/-- C5: for a budget of amount 0 the status carries `percentageUsed = 0`, a
finite number, whatever was spent: the guarded division is not evaluated. -/
theorem getBudgetStatus_percentageUsed_zero_amount (db : Store) (reqUser id : ObjectId)
    (b : Budget) (c : PopulatedCategory) (s e : Int)
    (hfind : Budget.findById db id = some b) (hown : b.user = reqUser)
    (hs : Date.new b.year (b.month - 1) 1 0 0 0 = some s)
    (he : Date.new b.year b.month 0 23 59 59 = some e)
    (hc : populateCategory db b.category = some c)
    (hzero : b.amount = 0) :
    jsDiv ((Expense.find db reqUser b.category s e).map (fun x => x.amount)).sum b.amount
      = none ∧
    ∃ st, getBudgetStatus db reqUser id = .ok st ∧
      st.spent = ((Expense.find db reqUser b.category s e).map (fun x => x.amount)).sum ∧
      st.percentageUsed = some 0 := by
  refine ⟨by simp [jsDiv, hzero], _, getBudgetStatus_ok hfind hown hs he hc, ?_, ?_⟩
  · show List.foldl _ 0 _ = _
    rw [foldl_add_amount, zero_add]
  · show Option.bind (Option.bind (if b.amount > 0 then _ else some 0) _) _ = _
    rw [if_neg (by rw [hzero]; exact lt_irrefl 0)]
    exact percentage_of_zero

/-- Witness of C5: amount 0 and 35 spent give 0 per cent, where the division
35 / 0 itself has no finite value. -/
theorem getBudgetStatus_percentageUsed_zero_amount_witness :
    jsDiv ((Expense.find scenarioA 7 freeBudget.category 1711929600000
        1714521599000).map (fun x => x.amount)).sum freeBudget.amount = none ∧
    ∃ st, getBudgetStatus scenarioA 7 12 = .ok st ∧
      st.spent = ((Expense.find scenarioA 7 freeBudget.category 1711929600000
        1714521599000).map (fun x => x.amount)).sum ∧
      st.percentageUsed = some 0 :=
  getBudgetStatus_percentageUsed_zero_amount scenarioA 7 12 freeBudget
    { _id := 1, name := "Food", type := .expense } 1711929600000 1714521599000
    (by decide) rfl (by decide) (by decide) (by decide) rfl

/-- C6 (defect): a Food expense of the budget's owner dated 31 March 2024 at
23:59:59.500, inside the last second of the last day of the budget's month
and before 1 April, is not counted: the end date built by the handler is
23:59:59.000, so `getBudgetStatus` and `getAllBudgetStatuses` report spent 0
over 0 expenses. -/
theorem getBudgetStatus_last_second_not_counted :
    Date.new 2024 2 31 23 59 59 = some 1711929599000 ∧
    Date.new 2024 3 1 0 0 0 = some 1711929600000 ∧
    scenarioLastSecond.expenses.map (fun x => (x.user, x.category, x.date))
      = [(7, 1, 1711929599500)] ∧
    Date.new foodBudget.year foodBudget.month 0 23 59 59 = some 1711929599000 ∧
    getBudgetStatus scenarioLastSecond 7 10 = .ok
      { budget := { _id := 10, category := { _id := 1, name := "Food", type := .expense },
                    amount := 1000, month := 3, year := 2024 }
        spent := 0
        remaining := 1000
        percentageUsed := some 0
        isOverBudget := false
        expenseCount := 0 } ∧
    getAllBudgetStatuses scenarioLastSecond 7 (some "3") (some "2024") = .ok
      { month := 3, year := 2024, count := 1,
        budgets :=
          [{ budget := { _id := 10,
                         category := { _id := 1, name := "Food", type := .expense },
                         amount := 1000, month := 3, year := 2024 }
             spent := 0
             remaining := 1000
             percentageUsed := some 0
             isOverBudget := false
             expenseCount := 0 }] } := by
  decide!

/-- C7 (counterexample): budget 10 exists and belongs to user 7; for caller 8
the handler answers 403 "Not authorized to access this budget", not 404. -/
theorem getBudgetStatus_foreign_budget_is_403 :
    (∃ b, Budget.findById scenarioA 10 = some b ∧ b.user ≠ 8) ∧
    getBudgetStatus scenarioA 8 10 = .fail 403 "Not authorized to access this budget" ∧
    ∀ message, getBudgetStatus scenarioA 8 10 ≠ .fail 404 message := by
  refine ⟨⟨foodBudget, by decide, by decide⟩, by decide, ?_⟩
  intro message h
  have h403 : getBudgetStatus scenarioA 8 10
      = .fail 403 "Not authorized to access this budget" := by decide
  rw [h403] at h
  injection h with hstatus _
  exact absurd hstatus (by decide)

/-- C7 (amended): `getBudgetStatus` answers 404 "Budget not found" when no
budget has the requested id, and 403 "Not authorized to access this budget"
when the budget belongs to a user other than the caller; in both cases the
answer is not a status. -/
theorem getBudgetStatus_not_found_or_forbidden (db : Store) (reqUser id : ObjectId) :
    (Budget.findById db id = none →
      getBudgetStatus db reqUser id = .fail 404 "Budget not found") ∧
    (∀ b, Budget.findById db id = some b → b.user ≠ reqUser →
      getBudgetStatus db reqUser id = .fail 403 "Not authorized to access this budget") ∧
    ((Budget.findById db id = none ∨
        ∃ b, Budget.findById db id = some b ∧ b.user ≠ reqUser) →
      ∀ st, getBudgetStatus db reqUser id ≠ .ok st) := by
  have h404 : Budget.findById db id = none →
      getBudgetStatus db reqUser id = .fail 404 "Budget not found" := by
    intro h
    unfold getBudgetStatus
    rw [h]
  have h403 : ∀ b, Budget.findById db id = some b → b.user ≠ reqUser →
      getBudgetStatus db reqUser id
        = .fail 403 "Not authorized to access this budget" := by
    intro b h hne
    unfold getBudgetStatus
    rw [h]
    simp only [hne, ne_eq, not_false_eq_true, if_true]
  refine ⟨h404, h403, ?_⟩
  rintro (h | ⟨b, h, hne⟩) st hst
  · rw [h404 h] at hst
    cases hst
  · rw [h403 b h hne] at hst
    cases hst

/-- Witness of the amended C7: in Scenario A no budget has id 99 (404), and
budget 10 is not user 8's (403). -/
theorem getBudgetStatus_not_found_or_forbidden_witness :
    Budget.findById scenarioA 99 = none ∧
    getBudgetStatus scenarioA 7 99 = .fail 404 "Budget not found" ∧
    Budget.findById scenarioA 10 = some foodBudget ∧ foodBudget.user ≠ 8 ∧
    getBudgetStatus scenarioA 8 10 = .fail 403 "Not authorized to access this budget" :=
  ⟨by decide,
   (getBudgetStatus_not_found_or_forbidden scenarioA 7 99).1 (by decide),
   by decide, by decide,
   (getBudgetStatus_not_found_or_forbidden scenarioA 8 10).2.1 foodBudget (by decide)
     (by decide)⟩

/-! ### Batch evaluation -/

theorem parseInt_empty : parseInt "" = none := by decide

theorem Promise.all_map_of_forall {α β : Type} (f : α → Option β) (l : List α)
    (h : ∀ x ∈ l, ∃ y, f x = some y) :
    ∃ ys, Promise.all (l.map f) = some ys ∧ List.Forall₂ (fun x y => f x = some y) l ys := by
  induction l with
  | nil => exact ⟨[], rfl, List.Forall₂.nil⟩
  | cons x xs ih =>
    obtain ⟨y, hy⟩ := h x (List.mem_cons_self x xs)
    obtain ⟨ys, hys, hall⟩ := ih (fun z hz => h z (List.mem_cons_of_mem x hz))
    refine ⟨y :: ys, ?_, List.Forall₂.cons hy hall⟩
    simp only [List.map_cons, hy, Promise.all, hys, Option.map_some']

theorem Promise.all_map_eq_some {α β : Type} (f : α → Option β) (l : List α) (ys : List β)
    (h : Promise.all (l.map f) = some ys) : List.Forall₂ (fun x y => f x = some y) l ys := by
  induction l generalizing ys with
  | nil =>
    simp only [List.map_nil, Promise.all, Option.some.injEq] at h
    subst h
    exact List.Forall₂.nil
  | cons x xs ih =>
    rw [List.map_cons] at h
    cases hx : f x with
    | none => rw [hx] at h; simp [Promise.all] at h
    | some y =>
      rw [hx] at h
      simp only [Promise.all, Option.map_eq_some'] at h
      obtain ⟨zs, hzs, rfl⟩ := h
      exact List.Forall₂.cons hx (ih zs hzs)

theorem budgetStatusFor_eq_some {db : Store} {reqUser : ObjectId} {year month : Int}
    {b : Budget} {st : BudgetStatus}
    (h : budgetStatusFor db reqUser year month b = some st) :
    ∃ s e c, Date.new year (month - 1) 1 0 0 0 = some s ∧
      Date.new year month 0 23 59 59 = some e ∧
      populateCategory db b.category = some c ∧
      st = statusBody b c (Expense.find db reqUser b.category s e) := by
  unfold budgetStatusFor at h
  split at h
  · next s e c hs he hc =>
    refine ⟨s, e, c, hs, he, hc, ?_⟩
    rw [← populateCategory_id hc]
    exact (Option.some.inj h).symm
  · cases h

theorem budgetStatusFor_of_some {db : Store} {reqUser : ObjectId} {year month : Int}
    {b : Budget} {s e : Int} {c : PopulatedCategory}
    (hs : Date.new year (month - 1) 1 0 0 0 = some s)
    (he : Date.new year month 0 23 59 59 = some e)
    (hc : populateCategory db b.category = some c) :
    budgetStatusFor db reqUser year month b
      = some (statusBody b c (Expense.find db reqUser b.category s e)) := by
  unfold budgetStatusFor
  rw [hs, he, hc]
  simp only [populateCategory_id hc]

theorem Budget.find_eq_filter (db : Store) (user : ObjectId) (month year : Int) :
    Budget.find db user month year
      = db.budgets.filter (fun b => decide (b.user = user ∧ b.month = month ∧ b.year = year)) := by
  unfold Budget.find
  apply List.filter_congr
  intro b _
  rw [Bool.eq_iff_iff]
  simp [and_assoc]

/-- What a 200 answer of `getAllBudgetStatuses` tells about its inputs. -/
theorem getAllBudgetStatuses_ok_inv {db : Store} {reqUser : ObjectId}
    {month year : Option String} {body : AllBudgetStatuses}
    (h : getAllBudgetStatuses db reqUser month year = .ok body) :
    ∃ m y, month = some m ∧ year = some y ∧
      parseInt m = some body.month ∧ parseInt y = some body.year ∧
      body.count = body.budgets.length ∧
      Promise.all ((Budget.find db reqUser body.month body.year).map
        (budgetStatusFor db reqUser body.year body.month)) = some body.budgets := by
  unfold getAllBudgetStatuses at h
  split at h
  · next m y =>
    split at h
    · cases h
    · split at h
      · next monthNum yearNum hm hy =>
        dsimp only at h
        split at h
        · next statuses hall =>
          cases h
          exact ⟨m, y, rfl, rfl, hm, hy, rfl, hall⟩
        · cases h
      · cases h
  · cases h

/-- C8: for a user and `month`, `year` query values that parse to integers
(with the month's two dates valid and the category of each of the user's
budgets of that month resolving), `getAllBudgetStatuses` answers with exactly
one status per budget of that user with that month and year, in the order in
which the budgets are retrieved, each carrying its budget's snapshot, and
with `count` equal to the number of statuses. -/
theorem getAllBudgetStatuses_one_status_per_budget (db : Store) (reqUser : ObjectId)
    (month year : String) (monthNum yearNum : Int)
    (hm : parseInt month = some monthNum) (hy : parseInt year = some yearNum)
    (hs : Date.new yearNum (monthNum - 1) 1 0 0 0 ≠ none)
    (he : Date.new yearNum monthNum 0 23 59 59 ≠ none)
    (hcat : ∀ b ∈ db.budgets, b.user = reqUser → b.month = monthNum → b.year = yearNum →
      populateCategory db b.category ≠ none) :
    ∃ body, getAllBudgetStatuses db reqUser (some month) (some year) = .ok body ∧
      List.Forall₂
        (fun b st => st.budget._id = b._id ∧ st.budget.amount = b.amount ∧
          st.budget.month = b.month ∧ st.budget.year = b.year ∧
          st.budget.category._id = b.category)
        (db.budgets.filter
          (fun b => decide (b.user = reqUser ∧ b.month = monthNum ∧ b.year = yearNum)))
        body.budgets ∧
      body.count = body.budgets.length ∧
      body.budgets.length = (db.budgets.filter
          (fun b => decide (b.user = reqUser ∧ b.month = monthNum ∧ b.year = yearNum))).length := by
  have hmne : month ≠ "" := fun h0 => by rw [h0, parseInt_empty] at hm; cases hm
  have hyne : year ≠ "" := fun h0 => by rw [h0, parseInt_empty] at hy; cases hy
  obtain ⟨s, hs⟩ := Option.ne_none_iff_exists'.mp hs
  obtain ⟨e, he⟩ := Option.ne_none_iff_exists'.mp he
  have hall : ∀ b ∈ Budget.find db reqUser monthNum yearNum,
      ∃ st, budgetStatusFor db reqUser yearNum monthNum b = some st := by
    intro b hb
    rw [Budget.find_eq_filter, List.mem_filter, decide_eq_true_iff] at hb
    obtain ⟨c, hc⟩ := Option.ne_none_iff_exists'.mp (hcat b hb.1 hb.2.1 hb.2.2.1 hb.2.2.2)
    exact ⟨_, budgetStatusFor_of_some hs he hc⟩
  obtain ⟨statuses, hst, hrel⟩ := Promise.all_map_of_forall _ _ hall
  have hrel2 : List.Forall₂
      (fun b st => st.budget._id = b._id ∧ st.budget.amount = b.amount ∧
        st.budget.month = b.month ∧ st.budget.year = b.year ∧
        st.budget.category._id = b.category)
      (Budget.find db reqUser monthNum yearNum) statuses := by
    refine hrel.imp ?_
    intro b st hb
    obtain ⟨s2, e2, c, _, _, hc, rfl⟩ := budgetStatusFor_eq_some hb
    exact ⟨rfl, rfl, rfl, rfl, populateCategory_id hc⟩
  refine ⟨{ month := monthNum, year := yearNum, count := statuses.length,
            budgets := statuses }, ?_, ?_, rfl, ?_⟩
  · unfold getAllBudgetStatuses
    simp only [hmne, hyne, or_self, if_false]
    rw [hm, hy]
    simp only [hst]
  · rw [← Budget.find_eq_filter]
    exact hrel2
  · rw [← Budget.find_eq_filter]
    exact hrel2.length_eq.symm

/-- Witness of C8 on Scenario A: user 7 has two budgets for March 2024, and
the batch answers with their two statuses in retrieval order. -/
theorem getAllBudgetStatuses_one_status_per_budget_witness :
    (∃ body, getAllBudgetStatuses scenarioA 7 (some "3") (some "2024") = .ok body ∧
      body.budgets.map (fun st => st.budget._id) = [10, 11] ∧ body.count = 2) ∧
    ∃ body, getAllBudgetStatuses scenarioA 7 (some "3") (some "2024") = .ok body ∧
      List.Forall₂
        (fun b st => st.budget._id = b._id ∧ st.budget.amount = b.amount ∧
          st.budget.month = b.month ∧ st.budget.year = b.year ∧
          st.budget.category._id = b.category)
        (scenarioA.budgets.filter
          (fun b => decide (b.user = 7 ∧ b.month = 3 ∧ b.year = 2024)))
        body.budgets ∧
      body.count = body.budgets.length ∧
      body.budgets.length = (scenarioA.budgets.filter
          (fun b => decide (b.user = 7 ∧ b.month = 3 ∧ b.year = 2024))).length :=
  ⟨⟨_, rfl, by decide!, by decide!⟩,
   getAllBudgetStatuses_one_status_per_budget scenarioA 7 "3" "2024" 3 2024
    (by decide) (by decide) (by decide) (by decide) (by decide)⟩

theorem forall₂_exists_of_mem_right {α β : Type} {R : α → β → Prop} {l : List α}
    {ys : List β} (h : List.Forall₂ R l ys) {y : β} (hy : y ∈ ys) : ∃ x ∈ l, R x y := by
  induction h with
  | nil => cases hy
  | cons hxy _ ih =>
    rcases List.mem_cons.mp hy with rfl | hmem
    · exact ⟨_, List.mem_cons_self _ _, hxy⟩
    · obtain ⟨x, hx, hr⟩ := ih hmem
      exact ⟨x, List.mem_cons_of_mem _ hx, hr⟩

theorem find?_id_of_mem (l : List Budget) (hnodup : (l.map (fun b => b._id)).Nodup)
    {b : Budget} (hb : b ∈ l) : l.find? (fun x => x._id == b._id) = some b := by
  induction l with
  | nil => cases hb
  | cons x xs ih =>
    rw [List.map_cons, List.nodup_cons] at hnodup
    rcases List.mem_cons.mp hb with rfl | hmem
    · simp
    · have hne : x._id ≠ b._id := by
        intro heq
        exact hnodup.1 (heq ▸ List.mem_map_of_mem (fun b => b._id) hmem)
      have hbeq : (x._id == b._id) = false := by simpa using hne
      rw [List.find?_cons, hbeq]
      exact ih hnodup.2 hmem

/-- C9: with budget ids unique in the store, every status entry that
`getAllBudgetStatuses` answers with for (user, month, year) is, field for
field, the status that `getBudgetStatus` answers with for that entry's
budget on the same store. -/
theorem getAllBudgetStatuses_entry_eq_getBudgetStatus (db : Store) (reqUser : ObjectId)
    (month year : Option String) (body : AllBudgetStatuses) (st : BudgetStatus)
    (hid : (db.budgets.map (fun b => b._id)).Nodup)
    (hbatch : getAllBudgetStatuses db reqUser month year = .ok body)
    (hst : st ∈ body.budgets) :
    getBudgetStatus db reqUser st.budget._id = .ok st := by
  obtain ⟨m, y, _, _, _, _, _, hall⟩ := getAllBudgetStatuses_ok_inv hbatch
  obtain ⟨b, hb, hbst⟩ := forall₂_exists_of_mem_right (Promise.all_map_eq_some _ _ _ hall) hst
  rw [Budget.find_eq_filter, List.mem_filter, decide_eq_true_iff] at hb
  obtain ⟨hmem, huser, hmonth, hyear⟩ := hb
  have hsid : st.budget._id = b._id := by
    obtain ⟨s, e, c, _, _, _, rfl⟩ := budgetStatusFor_eq_some hbst
    rfl
  rw [hsid]
  unfold getBudgetStatus Budget.findById
  rw [find?_id_of_mem db.budgets hid hmem]
  simp only [huser, ne_eq, not_true_eq_false, if_false, hmonth, hyear, hbst]

/-- Witness of C9 on Scenario A: the Rent entry of the March 2024 batch is
the answer of `getBudgetStatus` for budget 11. -/
theorem getAllBudgetStatuses_entry_eq_getBudgetStatus_witness :
    getBudgetStatus scenarioA 7 11 = .ok
      { budget := { _id := 11, category := { _id := 2, name := "Rent", type := .expense },
                    amount := 500, month := 3, year := 2024 }
        spent := 600
        remaining := -100
        percentageUsed := some 120
        isOverBudget := true
        expenseCount := 1 } :=
  getAllBudgetStatuses_entry_eq_getBudgetStatus scenarioA 7 (some "3") (some "2024")
    { month := 3, year := 2024, count := 2,
      budgets :=
        [{ budget := { _id := 10,
                       category := { _id := 1, name := "Food", type := .expense },
                       amount := 1000, month := 3, year := 2024 }
           spent := 750
           remaining := 250
           percentageUsed := some 75
           isOverBudget := false
           expenseCount := 2 },
         { budget := { _id := 11,
                       category := { _id := 2, name := "Rent", type := .expense },
                       amount := 500, month := 3, year := 2024 }
           spent := 600
           remaining := -100
           percentageUsed := some 120
           isOverBudget := true
           expenseCount := 1 }] }
    { budget := { _id := 11, category := { _id := 2, name := "Rent", type := .expense },
                  amount := 500, month := 3, year := 2024 }
      spent := 600
      remaining := -100
      percentageUsed := some 120
      isOverBudget := true
      expenseCount := 1 }
    (by decide) (by decide!) (by decide!)

/-! ### Roll-up by category -/

theorem accumulate_totalAmount (acc : List CategoryRollup) (name : String) (amount : ℚ) :
    ((accumulate acc name amount).map (fun g => g.totalAmount)).sum
      = (acc.map (fun g => g.totalAmount)).sum + amount := by
  induction acc with
  | nil => simp [accumulate]
  | cons g gs ih =>
    unfold accumulate
    split
    · simp only [List.map_cons, List.sum_cons]; ring
    · simp only [List.map_cons, List.sum_cons, ih]; ring

theorem accumulate_count (acc : List CategoryRollup) (name : String) (amount : ℚ) :
    ((accumulate acc name amount).map (fun g => g.count)).sum
      = (acc.map (fun g => g.count)).sum + 1 := by
  induction acc with
  | nil => simp [accumulate]
  | cons g gs ih =>
    unfold accumulate
    split
    · simp only [List.map_cons, List.sum_cons]; omega
    · simp only [List.map_cons, List.sum_cons, ih]; omega

theorem foldl_accumulate_totalAmount (docs : List (Income × Category))
    (acc : List CategoryRollup) :
    ((docs.foldl (fun acc dc => accumulate acc dc.2.name dc.1.amount) acc).map
        (fun g => g.totalAmount)).sum
      = (acc.map (fun g => g.totalAmount)).sum + (docs.map (fun dc => dc.1.amount)).sum := by
  induction docs generalizing acc with
  | nil => simp
  | cons dc rest ih =>
    simp only [List.foldl_cons, ih, accumulate_totalAmount, List.map_cons, List.sum_cons]
    ring

theorem foldl_accumulate_count (docs : List (Income × Category))
    (acc : List CategoryRollup) :
    ((docs.foldl (fun acc dc => accumulate acc dc.2.name dc.1.amount) acc).map
        (fun g => g.count)).sum
      = (acc.map (fun g => g.count)).sum + docs.length := by
  induction docs generalizing acc with
  | nil => simp
  | cons dc rest ih =>
    simp only [List.foldl_cons, ih, accumulate_count, List.length_cons]
    omega

theorem sortStage_perm (groups : List CategoryRollup) : (sortStage groups).Perm groups :=
  List.perm_insertionSort _ groups

/-- The pipeline conserves the totals of what `$unwind` lets through. -/
theorem categoryPipeline_sums (db : Store) (docs : List Income) (userId : ObjectId)
    (startDate endDate : Option Int) :
    ((categoryPipeline db docs userId startDate endDate).map (fun g => g.totalAmount)).sum
        = ((lookupUnwind db.categories (matchStage docs userId startDate endDate)).map
            (fun dc => dc.1.amount)).sum ∧
    ((categoryPipeline db docs userId startDate endDate).map (fun g => g.count)).sum
        = (lookupUnwind db.categories (matchStage docs userId startDate endDate)).length := by
  unfold categoryPipeline
  constructor
  · rw [((sortStage_perm _).map _).sum_eq]
    unfold groupStage
    rw [foldl_accumulate_totalAmount]
    simp
  · rw [((sortStage_perm _).map _).sum_eq]
    unfold groupStage
    rw [foldl_accumulate_count]
    simp

/-- When every document's category reference matches exactly one category,
`$lookup` + `$unwind` keeps every document once, in order. -/
theorem lookupUnwind_fst (categories : List Category) (docs : List Income)
    (hres : ∀ d ∈ docs, (categories.filter (fun c => c._id == d.category)).length = 1) :
    (lookupUnwind categories docs).map (fun dc => dc.1) = docs := by
  induction docs with
  | nil => rfl
  | cons d rest ih =>
    obtain ⟨c, hc⟩ := List.length_eq_one.mp (hres d (List.mem_cons_self d rest))
    have ih2 := ih (fun x hx => hres x (List.mem_cons_of_mem d hx))
    unfold lookupUnwind at ih2 ⊢
    rw [List.flatMap_cons, hc, List.map_append, ih2]
    rfl

theorem categoryPipeline_conserves (db : Store) (docs : List Income) (userId : ObjectId)
    (startDate endDate : Option Int)
    (hres : ∀ d ∈ matchStage docs userId startDate endDate,
      (db.categories.filter (fun c => c._id == d.category)).length = 1) :
    ((categoryPipeline db docs userId startDate endDate).map (fun g => g.totalAmount)).sum
        = ((matchStage docs userId startDate endDate).map (fun d => d.amount)).sum ∧
    ((categoryPipeline db docs userId startDate endDate).map (fun g => g.count)).sum
        = (matchStage docs userId startDate endDate).length := by
  obtain ⟨h1, h2⟩ := categoryPipeline_sums db docs userId startDate endDate
  have hfst := lookupUnwind_fst db.categories _ hres
  constructor
  · rw [h1]
    conv_rhs => rw [← hfst]
    rw [List.map_map]
    rfl
  · rw [h2]
    conv_rhs => rw [← hfst]
    rw [List.length_map]

/-- C10 (counterexample): in a store where an expense (450) and an income (50)
reference a category that no longer exists, the roll-ups lose them: the
expense roll-up totals 300 over 1 transaction where the input totals 750 over
2, and the income roll-up totals 2000 over 1 where the input totals 2050
over 2. -/
theorem getExpensesByCategory_not_conserving :
    ((matchStage scenarioOrphan.expenses 7 none none).map (fun d => d.amount)).sum = 750 ∧
    (matchStage scenarioOrphan.expenses 7 none none).length = 2 ∧
    getExpensesByCategory scenarioOrphan 7 none none
      = .ok [{ _id := "Food", totalAmount := 300, count := 1 }] ∧
    ((matchStage scenarioOrphan.incomes 7 none none).map (fun d => d.amount)).sum = 2050 ∧
    (matchStage scenarioOrphan.incomes 7 none none).length = 2 ∧
    getIncomeByCategory scenarioOrphan 7 none none
      = .ok [{ _id := "Salary", totalAmount := 2000, count := 1 }] := by
  decide!

/-- C10 (amended): when the category reference of every transaction that
passes the user and date filter matches exactly one category document, the
roll-up of `getExpensesByCategory` (`getIncomeByCategory`) conserves the
input: the `totalAmount`s add up to the sum of the amounts of the filtered
transactions, and the `count`s add up to their number. -/
theorem getExpensesByCategory_conserves (db : Store) (userId : ObjectId)
    (startDate endDate : Option Int)
    (hexp : ∀ d ∈ matchStage db.expenses userId startDate endDate,
      (db.categories.filter (fun c => c._id == d.category)).length = 1)
    (hinc : ∀ d ∈ matchStage db.incomes userId startDate endDate,
      (db.categories.filter (fun c => c._id == d.category)).length = 1) :
    (∃ rollup, getExpensesByCategory db userId startDate endDate = .ok rollup ∧
      (rollup.map (fun g => g.totalAmount)).sum
        = ((matchStage db.expenses userId startDate endDate).map (fun d => d.amount)).sum ∧
      (rollup.map (fun g => g.count)).sum
        = (matchStage db.expenses userId startDate endDate).length) ∧
    (∃ rollup, getIncomeByCategory db userId startDate endDate = .ok rollup ∧
      (rollup.map (fun g => g.totalAmount)).sum
        = ((matchStage db.incomes userId startDate endDate).map (fun d => d.amount)).sum ∧
      (rollup.map (fun g => g.count)).sum
        = (matchStage db.incomes userId startDate endDate).length) := by
  obtain ⟨e1, e2⟩ := categoryPipeline_conserves db db.expenses userId startDate endDate hexp
  obtain ⟨i1, i2⟩ := categoryPipeline_conserves db db.incomes userId startDate endDate hinc
  exact ⟨⟨_, rfl, e1, e2⟩, ⟨_, rfl, i1, i2⟩⟩

/-- Witness of the amended C10 on Scenario D, restricted to dates from
1710050000000 on: the roll-up is Rent 1000 ×1, Food 450 ×1. -/
theorem getExpensesByCategory_conserves_witness :
    getExpensesByCategory scenarioD 7 (some 1710050000000) none
      = .ok [{ _id := "Rent", totalAmount := 1000, count := 1 },
             { _id := "Food", totalAmount := 450, count := 1 }] ∧
    ((matchStage scenarioD.expenses 7 (some 1710050000000) none).map
      (fun d => d.amount)).sum = 1450 ∧
    ((∃ rollup, getExpensesByCategory scenarioD 7 (some 1710050000000) none = .ok rollup ∧
      (rollup.map (fun g => g.totalAmount)).sum
        = ((matchStage scenarioD.expenses 7 (some 1710050000000) none).map
            (fun d => d.amount)).sum ∧
      (rollup.map (fun g => g.count)).sum
        = (matchStage scenarioD.expenses 7 (some 1710050000000) none).length) ∧
    (∃ rollup, getIncomeByCategory scenarioD 7 (some 1710050000000) none = .ok rollup ∧
      (rollup.map (fun g => g.totalAmount)).sum
        = ((matchStage scenarioD.incomes 7 (some 1710050000000) none).map
            (fun d => d.amount)).sum ∧
      (rollup.map (fun g => g.count)).sum
        = (matchStage scenarioD.incomes 7 (some 1710050000000) none).length)) :=
  ⟨by decide!, by decide!,
   getExpensesByCategory_conserves scenarioD 7 (some 1710050000000) none
    (by decide) (by decide)⟩

/-! ### Roll-up order and grouping -/

theorem sortStage_sorted (groups : List CategoryRollup) :
    (sortStage groups).Sorted (fun a b => a.totalAmount ≥ b.totalAmount) := by
  haveI : IsTotal CategoryRollup (fun a b => a.totalAmount ≥ b.totalAmount) :=
    ⟨fun a b => le_total b.totalAmount a.totalAmount⟩
  haveI : IsTrans CategoryRollup (fun a b => a.totalAmount ≥ b.totalAmount) :=
    ⟨fun _ _ _ hab hbc => le_trans hbc hab⟩
  exact List.sorted_insertionSort _ groups

/-- Scenario D evaluated: Food 300, Food 450, Rent 1000 roll up to
Rent 1000 ×1, Food 750 ×2. -/
theorem scenarioD_rollup :
    getExpensesByCategory scenarioD 7 none none
      = .ok [{ _id := "Rent", totalAmount := 1000, count := 1 },
             { _id := "Food", totalAmount := 750, count := 2 }] := by
  decide!

/-- C11: for every store, user and date bounds, the roll-up list answered by
`getExpensesByCategory` and by `getIncomeByCategory` is in descending order
of `totalAmount`: every entry's total is at least that of every later entry,
in particular of the entry right after it. -/
theorem getExpensesByCategory_sorted_desc (db : Store) (userId : ObjectId)
    (startDate endDate : Option Int) :
    (∃ rollup, getExpensesByCategory db userId startDate endDate = .ok rollup ∧
      rollup.Pairwise (fun a b => a.totalAmount ≥ b.totalAmount) ∧
      ∀ (i : Nat) (h : i + 1 < rollup.length),
        (rollup.get ⟨i, Nat.lt_of_succ_lt h⟩).totalAmount
          ≥ (rollup.get ⟨i + 1, h⟩).totalAmount) ∧
    (∃ rollup, getIncomeByCategory db userId startDate endDate = .ok rollup ∧
      rollup.Pairwise (fun a b => a.totalAmount ≥ b.totalAmount) ∧
      ∀ (i : Nat) (h : i + 1 < rollup.length),
        (rollup.get ⟨i, Nat.lt_of_succ_lt h⟩).totalAmount
          ≥ (rollup.get ⟨i + 1, h⟩).totalAmount) := by
  have key : ∀ docs : List Income,
      (categoryPipeline db docs userId startDate endDate).Pairwise
        (fun a b => a.totalAmount ≥ b.totalAmount) := fun docs => sortStage_sorted _
  have adj : ∀ l : List CategoryRollup,
      l.Pairwise (fun a b => a.totalAmount ≥ b.totalAmount) →
      ∀ (i : Nat) (h : i + 1 < l.length),
        (l.get ⟨i, Nat.lt_of_succ_lt h⟩).totalAmount ≥ (l.get ⟨i + 1, h⟩).totalAmount := by
    intro l hl i h
    exact List.pairwise_iff_get.mp hl ⟨i, Nat.lt_of_succ_lt h⟩ ⟨i + 1, h⟩ (Nat.lt_succ_self i)
  exact ⟨⟨_, rfl, key _, adj _ (key _)⟩, ⟨_, rfl, key _, adj _ (key _)⟩⟩

theorem mem_matchStage (docs : List Income) (userId : ObjectId)
    (startDate endDate : Option Int) (d : Income) :
    d ∈ matchStage docs userId startDate endDate ↔
      d ∈ docs ∧ d.user = userId ∧ (∀ s, startDate = some s → s ≤ d.date) ∧
        (∀ e, endDate = some e → d.date ≤ e) := by
  unfold matchStage
  rw [List.mem_filter]
  cases startDate <;> cases endDate <;> simp [and_assoc]

theorem mem_lookupUnwind (categories : List Category) (docs : List Income)
    (d : Income) (c : Category) :
    (d, c) ∈ lookupUnwind categories docs ↔ d ∈ docs ∧ c ∈ categories ∧ c._id = d.category := by
  unfold lookupUnwind
  simp only [List.mem_flatMap, List.mem_map, List.mem_filter, beq_iff_eq, Prod.mk.injEq]
  constructor
  · rintro ⟨d2, hd2, c2, ⟨hc2, hid⟩, rfl, rfl⟩
    exact ⟨hd2, hc2, hid⟩
  · rintro ⟨hd, hc, hid⟩
    exact ⟨d, hd, c, ⟨hc, hid⟩, rfl, rfl⟩

theorem accumulate_names (acc : List CategoryRollup) (name : String) (amount : ℚ) :
    (accumulate acc name amount).map (fun g => g._id)
      = if name ∈ acc.map (fun g => g._id) then acc.map (fun g => g._id)
        else acc.map (fun g => g._id) ++ [name] := by
  induction acc with
  | nil => simp [accumulate]
  | cons g gs ih =>
    unfold accumulate
    by_cases hg : g._id = name
    · simp [hg]
    · have hne : ¬ name = g._id := fun h => hg h.symm
      rw [if_neg hg, List.map_cons, ih]
      by_cases hmem : name ∈ gs.map (fun g => g._id)
      · simp [hmem]
      · simp [hmem, hne]

theorem accumulate_total_of (acc : List CategoryRollup) (name : String) (amount : ℚ)
    (m : String) :
    (((accumulate acc name amount).filter (fun g => g._id = m)).map
        (fun g => g.totalAmount)).sum
      = ((acc.filter (fun g => g._id = m)).map (fun g => g.totalAmount)).sum
          + (if name = m then amount else 0) := by
  induction acc with
  | nil =>
    by_cases h : name = m <;> simp [accumulate, List.filter_cons, h]
  | cons g gs ih =>
    unfold accumulate
    by_cases hg : g._id = name
    · rw [if_pos hg]
      by_cases hm : name = m
      · have hgm : g._id = m := hg.trans hm
        simp only [List.filter_cons, hgm, decide_True, if_true, List.map_cons, List.sum_cons, hm]
        ring
      · have hgm : ¬ g._id = m := fun h => hm (hg.symm.trans h)
        simp [List.filter_cons, hgm, hm]
    · rw [if_neg hg]
      by_cases hgm : g._id = m
      · simp only [List.filter_cons, hgm, decide_True, if_true, List.map_cons, List.sum_cons]
        rw [ih]
        ring
      · simp only [List.filter_cons, hgm, decide_False]
        exact ih

theorem accumulate_count_of (acc : List CategoryRollup) (name : String) (amount : ℚ)
    (m : String) :
    (((accumulate acc name amount).filter (fun g => g._id = m)).map (fun g => g.count)).sum
      = ((acc.filter (fun g => g._id = m)).map (fun g => g.count)).sum
          + (if name = m then 1 else 0) := by
  induction acc with
  | nil =>
    by_cases h : name = m <;> simp [accumulate, List.filter_cons, h]
  | cons g gs ih =>
    unfold accumulate
    by_cases hg : g._id = name
    · rw [if_pos hg]
      by_cases hm : name = m
      · have hgm : g._id = m := hg.trans hm
        simp only [List.filter_cons, hgm, decide_True, if_true, List.map_cons, List.sum_cons, hm]
        omega
      · have hgm : ¬ g._id = m := fun h => hm (hg.symm.trans h)
        simp [List.filter_cons, hgm, hm]
    · rw [if_neg hg]
      by_cases hgm : g._id = m
      · simp only [List.filter_cons, hgm, decide_True, if_true, List.map_cons, List.sum_cons]
        rw [ih]
        omega
      · simp only [List.filter_cons, hgm, decide_False]
        exact ih

theorem accumulate_names_nodup (acc : List CategoryRollup) (name : String) (amount : ℚ)
    (h : (acc.map (fun g => g._id)).Nodup) :
    ((accumulate acc name amount).map (fun g => g._id)).Nodup := by
  rw [accumulate_names]
  split
  · exact h
  · next hmem =>
    rw [List.nodup_append]
    refine ⟨h, List.nodup_singleton _, ?_⟩
    intro a ha hb
    rw [List.mem_singleton] at hb
    exact hmem (hb ▸ ha)

theorem groupFold_names_nodup (docs : List (Income × Category)) (acc : List CategoryRollup)
    (h : (acc.map (fun g => g._id)).Nodup) :
    ((docs.foldl (fun acc dc => accumulate acc dc.2.name dc.1.amount) acc).map
      (fun g => g._id)).Nodup := by
  induction docs generalizing acc with
  | nil => exact h
  | cons dc rest ih => exact ih _ (accumulate_names_nodup acc _ _ h)

theorem groupFold_mem_names (docs : List (Income × Category)) (acc : List CategoryRollup)
    (n : String) :
    n ∈ (docs.foldl (fun acc dc => accumulate acc dc.2.name dc.1.amount) acc).map
        (fun g => g._id)
      ↔ n ∈ acc.map (fun g => g._id) ∨ n ∈ docs.map (fun dc => dc.2.name) := by
  induction docs generalizing acc with
  | nil => simp
  | cons dc rest ih =>
    rw [List.foldl_cons, ih, accumulate_names]
    by_cases hmem : dc.2.name ∈ acc.map (fun g => g._id)
    · rw [if_pos hmem, List.map_cons, List.mem_cons]
      constructor
      · rintro (h | h)
        · exact Or.inl h
        · exact Or.inr (Or.inr h)
      · rintro (h | h | h)
        · exact Or.inl h
        · exact Or.inl (h ▸ hmem)
        · exact Or.inr h
    · rw [if_neg hmem, List.mem_append, List.mem_singleton, List.map_cons, List.mem_cons]
      tauto

theorem groupFold_total_of (docs : List (Income × Category)) (acc : List CategoryRollup)
    (m : String) :
    (((docs.foldl (fun acc dc => accumulate acc dc.2.name dc.1.amount) acc).filter
        (fun g => g._id = m)).map (fun g => g.totalAmount)).sum
      = ((acc.filter (fun g => g._id = m)).map (fun g => g.totalAmount)).sum
        + ((docs.filter (fun dc => dc.2.name = m)).map (fun dc => dc.1.amount)).sum := by
  induction docs generalizing acc with
  | nil => simp
  | cons dc rest ih =>
    rw [List.foldl_cons, ih, accumulate_total_of]
    by_cases h : dc.2.name = m
    · simp only [h, if_true, List.filter_cons, decide_True, List.map_cons, List.sum_cons]
      ring
    · simp only [h, if_false, List.filter_cons, decide_False, add_zero, Bool.false_eq_true]

theorem groupFold_count_of (docs : List (Income × Category)) (acc : List CategoryRollup)
    (m : String) :
    (((docs.foldl (fun acc dc => accumulate acc dc.2.name dc.1.amount) acc).filter
        (fun g => g._id = m)).map (fun g => g.count)).sum
      = ((acc.filter (fun g => g._id = m)).map (fun g => g.count)).sum
        + (docs.filter (fun dc => dc.2.name = m)).length := by
  induction docs generalizing acc with
  | nil => simp
  | cons dc rest ih =>
    rw [List.foldl_cons, ih, accumulate_count_of]
    by_cases h : dc.2.name = m
    · simp only [h, if_true, List.filter_cons, decide_True, List.length_cons]
      omega
    · simp only [h, if_false, List.filter_cons, decide_False, add_zero, Bool.false_eq_true]

theorem filter_id_of_nodup (l : List CategoryRollup) (h : (l.map (fun g => g._id)).Nodup)
    {g : CategoryRollup} (hg : g ∈ l) : l.filter (fun x => x._id = g._id) = [g] := by
  induction l with
  | nil => cases hg
  | cons x xs ih =>
    rw [List.map_cons, List.nodup_cons] at h
    rcases List.mem_cons.mp hg with rfl | hmem
    · have hnone : xs.filter (fun x => x._id = g._id) = [] := by
        rw [List.filter_eq_nil_iff]
        intro y hy hyg
        exact h.1 (by
          rw [← of_decide_eq_true hyg]
          exact List.mem_map_of_mem (fun g => g._id) hy)
      simp [List.filter_cons, hnone]
    · have hne : ¬ x._id = g._id := fun heq =>
        h.1 (heq ▸ List.mem_map_of_mem (fun g => g._id) hmem)
      simp only [List.filter_cons, hne, decide_False, Bool.false_eq_true, if_false]
      exact ih h.2 hmem

theorem groupStage_groupedByName (docs : List (Income × Category)) :
    GroupedByName docs (groupStage docs) := by
  unfold groupStage
  have hnd := groupFold_names_nodup docs [] (by simp)
  refine ⟨hnd, ?_, ?_⟩
  · intro dc hdc
    have hmem : dc.2.name ∈ (docs.foldl (fun acc dc => accumulate acc dc.2.name dc.1.amount)
        []).map (fun g => g._id) :=
      (groupFold_mem_names docs [] _).mpr (Or.inr (List.mem_map_of_mem _ hdc))
    obtain ⟨g, hg, hgn⟩ := List.mem_map.mp hmem
    rw [← hgn, filter_id_of_nodup _ hnd hg]
    rfl
  · intro g hg
    have hf := filter_id_of_nodup _ hnd hg
    have ht := groupFold_total_of docs [] g._id
    have hc := groupFold_count_of docs [] g._id
    rw [hf] at ht hc
    simp only [List.map_cons, List.map_nil, List.sum_cons, List.sum_nil, add_zero,
      List.filter_nil, zero_add] at ht hc
    refine ⟨ht, hc, ?_⟩
    have hname : g._id ∈ docs.map (fun dc => dc.2.name) := by
      have := (groupFold_mem_names docs [] g._id).mp (List.mem_map_of_mem _ hg)
      simpa using this
    obtain ⟨dc, hdc, hdcn⟩ := List.mem_map.mp hname
    rw [hc, List.length_pos]
    intro hnil
    have : dc ∈ docs.filter (fun dc => dc.2.name = g._id) :=
      List.mem_filter.mpr ⟨hdc, by simpa using hdcn⟩
    rw [hnil] at this
    cases this

theorem GroupedByName.of_perm {included : List (Income × Category)}
    {l₁ l₂ : List CategoryRollup} (hp : l₁.Perm l₂) (h : GroupedByName included l₂) :
    GroupedByName included l₁ := by
  obtain ⟨h1, h2, h3⟩ := h
  refine ⟨(hp.map _).nodup_iff.mpr h1, ?_, ?_⟩
  · intro dc hdc
    rw [(hp.filter _).length_eq]
    exact h2 dc hdc
  · intro g hg
    exact h3 g (hp.mem_iff.mp hg)

theorem categoryPipeline_groupedByName (db : Store) (docs : List Income) (userId : ObjectId)
    (startDate endDate : Option Int) :
    GroupedByName (lookupUnwind db.categories (matchStage docs userId startDate endDate))
      (categoryPipeline db docs userId startDate endDate) :=
  GroupedByName.of_perm (sortStage_perm _) (groupStage_groupedByName _)

/-- Two categories named "Food" (ids 1 and 4) give one "Food" entry that
covers the expenses of both: 300 + 450 over 2. -/
theorem scenarioSameName_rollup :
    getExpensesByCategory scenarioSameName 7 none none
      = .ok [{ _id := "Rent", totalAmount := 1000, count := 1 },
             { _id := "Food", totalAmount := 750, count := 2 }] := by
  decide!

/-- C12: the roll-up of `getExpensesByCategory` and of `getIncomeByCategory`
is grouped by category name: no two entries carry the same name, the name of
the category of every included transaction (one that passes the filter and
whose category is found) occurs exactly once, and the entry of a name holds
the sum of the amounts and the number of all included transactions whose
category has that name, so categories with different ids and the same name
share one entry. -/
theorem getExpensesByCategory_grouped_by_name (db : Store) (userId : ObjectId)
    (startDate endDate : Option Int) :
    (∃ rollup, getExpensesByCategory db userId startDate endDate = .ok rollup ∧
      GroupedByName
        (lookupUnwind db.categories (matchStage db.expenses userId startDate endDate))
        rollup) ∧
    (∃ rollup, getIncomeByCategory db userId startDate endDate = .ok rollup ∧
      GroupedByName
        (lookupUnwind db.categories (matchStage db.incomes userId startDate endDate))
        rollup) :=
  ⟨⟨_, rfl, categoryPipeline_groupedByName db db.expenses userId startDate endDate⟩,
   ⟨_, rfl, categoryPipeline_groupedByName db db.incomes userId startDate endDate⟩⟩

/-- C13 (counterexample): with neither bound given, the expense 101 of user 7
(amount 450, category 9, which does not exist) passes `$match`, yet
`$lookup` + `$unwind` remove it: it is not among the documents that are
grouped, and the roll-up is Food 300 ×1. -/
theorem getExpensesByCategory_excludes_unresolved :
    (∃ d ∈ scenarioOrphan.expenses, d._id = 101 ∧ d.user = 7 ∧
      d ∈ matchStage scenarioOrphan.expenses 7 none none ∧
      d ∉ (lookupUnwind scenarioOrphan.categories
            (matchStage scenarioOrphan.expenses 7 none none)).map (fun dc => dc.1)) ∧
    getExpensesByCategory scenarioOrphan 7 none none
      = .ok [{ _id := "Food", totalAmount := 300, count := 1 }] := by
  refine ⟨⟨{ _id := 101, title := "orphan", amount := 450, category := 9,
             date := 1710000000000, user := 7 }, ?_, rfl, rfl, ?_, ?_⟩, ?_⟩
  · decide!
  · decide!
  · decide!
  · decide!

theorem mem_included_iff (db : Store) (docs : List Income) (userId : ObjectId)
    (startDate endDate : Option Int) (d : Income) :
    d ∈ (lookupUnwind db.categories (matchStage docs userId startDate endDate)).map
        (fun dc => dc.1) ↔
      (d ∈ docs ∧ d.user = userId ∧ (∀ s, startDate = some s → s ≤ d.date) ∧
        (∀ e, endDate = some e → d.date ≤ e)) ∧
      ∃ c ∈ db.categories, c._id = d.category := by
  rw [List.mem_map]
  constructor
  · rintro ⟨⟨d2, c⟩, hmem, rfl⟩
    rw [mem_lookupUnwind, mem_matchStage] at hmem
    exact ⟨hmem.1, c, hmem.2.1, hmem.2.2⟩
  · rintro ⟨hd, c, hc, hid⟩
    exact ⟨(d, c), (mem_lookupUnwind _ _ _ _).mpr ⟨(mem_matchStage _ _ _ _ _).mpr hd, hc, hid⟩,
      rfl⟩

/-- C13 (amended): a transaction of the user whose category reference matches
an existing category is among the transactions rolled up by
`getExpensesByCategory` / `getIncomeByCategory` (grouped by name into the
answer) if and only if (`startDate` is absent or `date ≥ startDate`) and
(`endDate` is absent or `date ≤ endDate`); each bound applies on its own,
both are inclusive, and with neither given the transaction is always rolled
up. -/
theorem getExpensesByCategory_date_filter (db : Store) (userId : ObjectId)
    (startDate endDate : Option Int) (d : Income)
    (huser : d.user = userId) (hcat : ∃ c ∈ db.categories, c._id = d.category) :
    (∃ rollup, getExpensesByCategory db userId startDate endDate = .ok rollup ∧
      GroupedByName
        (lookupUnwind db.categories (matchStage db.expenses userId startDate endDate))
        rollup) ∧
    (∃ rollup, getIncomeByCategory db userId startDate endDate = .ok rollup ∧
      GroupedByName
        (lookupUnwind db.categories (matchStage db.incomes userId startDate endDate))
        rollup) ∧
    (d ∈ db.expenses →
      (d ∈ (lookupUnwind db.categories
            (matchStage db.expenses userId startDate endDate)).map (fun dc => dc.1) ↔
        (∀ s, startDate = some s → s ≤ d.date) ∧ (∀ e, endDate = some e → d.date ≤ e))) ∧
    (d ∈ db.incomes →
      (d ∈ (lookupUnwind db.categories
            (matchStage db.incomes userId startDate endDate)).map (fun dc => dc.1) ↔
        (∀ s, startDate = some s → s ≤ d.date) ∧ (∀ e, endDate = some e → d.date ≤ e))) ∧
    (d ∈ db.expenses →
      d ∈ (lookupUnwind db.categories (matchStage db.expenses userId none none)).map
        (fun dc => dc.1)) ∧
    (d ∈ db.incomes →
      d ∈ (lookupUnwind db.categories (matchStage db.incomes userId none none)).map
        (fun dc => dc.1)) := by
  have hiff : ∀ (docs : List Income) (s e : Option Int), d ∈ docs →
      (d ∈ (lookupUnwind db.categories (matchStage docs userId s e)).map (fun dc => dc.1) ↔
        (∀ s', s = some s' → s' ≤ d.date) ∧ (∀ e', e = some e' → d.date ≤ e')) := by
    intro docs s e hd
    rw [mem_included_iff]
    constructor
    · rintro ⟨⟨_, _, hs, he⟩, _⟩
      exact ⟨hs, he⟩
    · rintro ⟨hs, he⟩
      exact ⟨⟨hd, huser, hs, he⟩, hcat⟩
  have hnone : ∀ docs : List Income, d ∈ docs →
      d ∈ (lookupUnwind db.categories (matchStage docs userId none none)).map
        (fun dc => dc.1) := by
    intro docs hd
    rw [hiff docs none none hd]
    exact ⟨fun s h => Option.noConfusion h, fun e h => Option.noConfusion h⟩
  exact ⟨⟨_, rfl, categoryPipeline_groupedByName db db.expenses userId startDate endDate⟩,
    ⟨_, rfl, categoryPipeline_groupedByName db db.incomes userId startDate endDate⟩,
    hiff db.expenses startDate endDate, hiff db.incomes startDate endDate,
    hnone db.expenses, hnone db.incomes⟩

/-- Witness of the amended C13 on Scenario D with `startDate` 1710050000000
and no `endDate`: the expense "dinner" (date 1710100000000) is rolled up. -/
theorem getExpensesByCategory_date_filter_witness :
    ({ _id := 101, title := "dinner", amount := 450, category := 1,
       date := 1710100000000, user := 7 } : Income) ∈
      (lookupUnwind scenarioD.categories
        (matchStage scenarioD.expenses 7 (some 1710050000000) none)).map (fun dc => dc.1) :=
  ((getExpensesByCategory_date_filter scenarioD 7 (some 1710050000000) none
      { _id := 101, title := "dinner", amount := 450, category := 1,
        date := 1710100000000, user := 7 }
      rfl ⟨foodCategory, by decide, rfl⟩).2.2.1 (by decide!)).mpr
    ⟨fun s h => by cases h; decide, fun e h => Option.noConfusion h⟩

/-! ### Recent transactions -/

theorem length_cursorLimit_le {α : Type} (n : Int) (hn : 1 ≤ n) (l : List α) :
    (cursorLimit n l).length ≤ n.toNat := by
  unfold cursorLimit
  have h0 : n ≠ 0 := by omega
  rw [if_neg h0, List.length_take]
  have : n.natAbs = n.toNat := by omega
  omega

theorem length_recentFind_le (db : Store) (docs : List Income) (userId : ObjectId)
    (n : Int) (hn : 1 ≤ n) : (recentFind db docs userId n).length ≤ n.toNat := by
  unfold recentFind
  rw [List.length_map]
  exact length_cursorLimit_le n hn _

theorem length_slice0_of_nonneg {α : Type} (l : List α) (n : Int) (hn : 0 ≤ n) :
    (slice0 l n).length = min n.toNat l.length := by
  unfold slice0
  rw [if_neg (by omega), List.length_take]

theorem slice0_sublist {α : Type} (l : List α) (n : Int) : (slice0 l n).Sublist l := by
  unfold slice0
  split <;> exact List.take_sublist _ _

theorem recentLimit_of_parse {s : String} {n : Int} (hparse : parseInt s = some n)
    (hn : n ≠ 0) : recentLimit (some s) = n := by
  simp only [recentLimit, hparse, hn, if_false]

theorem sortTaggedByDateDesc_sorted (l : List TaggedTransaction) :
    (sortTaggedByDateDesc l).Sorted (fun a b => a.date ≥ b.date) := by
  haveI : IsTotal TaggedTransaction (fun a b => a.date ≥ b.date) :=
    ⟨fun a b => le_total b.date a.date⟩
  haveI : IsTrans TaggedTransaction (fun a b => a.date ≥ b.date) :=
    ⟨fun _ _ _ hab hbc => le_trans hbc hab⟩
  exact List.sorted_insertionSort _ l

theorem sortTaggedByDateDesc_perm (l : List TaggedTransaction) :
    (sortTaggedByDateDesc l).Perm l :=
  List.perm_insertionSort _ l

/-- The answer for user 7 and `limit=3` in `scenarioRecent`: the three latest
of the user's five transactions. -/
theorem scenarioRecent_feed :
    (match getRecentTransactions scenarioRecent 7 (some "3") with
      | .ok feed => feed.map (fun t => (t._id, t.type, t.date))
      | .fail _ _ => [])
      = [(101, "expense", 1710300000000), (102, "expense", 1710200000000),
         (200, "income", 1710200000000)] := by
  decide!

/-- C18: for a `limit` parameter that parses to an integer N ≥ 1, each of the
two queries fetches at most N documents, and the feed answered by
`getRecentTransactions` has at most N entries, exactly
min(N, number of expenses fetched + number of incomes fetched). -/
theorem getRecentTransactions_length (db : Store) (userId : ObjectId) (limit : String)
    (N : Int) (hparse : parseInt limit = some N) (hN : 1 ≤ N) :
    (recentFind db db.expenses userId N).length ≤ N.toNat ∧
    (recentFind db db.incomes userId N).length ≤ N.toNat ∧
    ∃ feed, getRecentTransactions db userId (some limit) = .ok feed ∧
      (feed.length : Int) ≤ N ∧
      feed.length = min N.toNat
        ((recentFind db db.expenses userId N).length
          + (recentFind db db.incomes userId N).length) := by
  have hlim : recentLimit (some limit) = N := recentLimit_of_parse hparse (by omega)
  refine ⟨length_recentFind_le db _ userId N hN, length_recentFind_le db _ userId N hN,
    _, rfl, ?_, ?_⟩
  · simp only [hlim]
    rw [length_slice0_of_nonneg _ _ (by omega)]
    omega
  · simp only [hlim]
    rw [length_slice0_of_nonneg _ _ (by omega), (sortTaggedByDateDesc_perm _).length_eq,
      List.length_append, List.length_map, List.length_map]

/-- Witness of C18: with `limit=3`, user 7 of `scenarioRecent` has 3 expenses
and 2 incomes fetched and gets a feed of 3 entries. -/
theorem getRecentTransactions_length_witness :
    (recentFind scenarioRecent scenarioRecent.expenses 7 3).length = 3 ∧
    (recentFind scenarioRecent scenarioRecent.incomes 7 3).length = 2 ∧
    ((recentFind scenarioRecent scenarioRecent.expenses 7 3).length ≤ (3 : Int).toNat ∧
    (recentFind scenarioRecent scenarioRecent.incomes 7 3).length ≤ (3 : Int).toNat ∧
    ∃ feed, getRecentTransactions scenarioRecent 7 (some "3") = .ok feed ∧
      (feed.length : Int) ≤ 3 ∧
      feed.length = min (3 : Int).toNat
        ((recentFind scenarioRecent scenarioRecent.expenses 7 3).length
          + (recentFind scenarioRecent scenarioRecent.incomes 7 3).length)) :=
  ⟨by decide!, by decide!,
   getRecentTransactions_length scenarioRecent 7 "3" 3 (by decide) (by decide)⟩

/-- C19: for every store, user and `limit` parameter, the feed answered by
`getRecentTransactions` is in descending order of date: the date of every
entry is at least the date of every later entry, in particular of the entry
right after it. -/
theorem getRecentTransactions_sorted_desc (db : Store) (userId : ObjectId)
    (limit : Option String) :
    ∃ feed, getRecentTransactions db userId limit = .ok feed ∧
      feed.Pairwise (fun a b => a.date ≥ b.date) ∧
      ∀ (i : Nat) (h : i + 1 < feed.length),
        (feed.get ⟨i, Nat.lt_of_succ_lt h⟩).date ≥ (feed.get ⟨i + 1, h⟩).date := by
  have hsorted : (slice0 (sortTaggedByDateDesc
      ((recentFind db db.expenses userId (recentLimit limit)).map
          (fun exp => ({ exp with type := "expense" } : TaggedTransaction))
        ++ (recentFind db db.incomes userId (recentLimit limit)).map
          (fun inc => ({ inc with type := "income" } : TaggedTransaction))))
      (recentLimit limit)).Pairwise (fun a b => a.date ≥ b.date) :=
    (sortTaggedByDateDesc_sorted _).sublist (slice0_sublist _ _)
  refine ⟨_, rfl, hsorted, ?_⟩
  intro i h
  exact List.pairwise_iff_get.mp hsorted ⟨i, Nat.lt_of_succ_lt h⟩ ⟨i + 1, h⟩ (Nat.lt_succ_self i)

/-- C20: every entry of the feed answered by `getRecentTransactions` is a
document of the expense query with `type = "expense"` added or a document of
the income query with `type = "income"` added, all other fields as fetched;
and the feed is, with multiplicity, part of the tagged documents of the two
queries, so nothing is duplicated or invented. -/
theorem getRecentTransactions_entries (db : Store) (userId : ObjectId)
    (limit : Option String) :
    ∃ feed, getRecentTransactions db userId limit = .ok feed ∧
      (∀ t ∈ feed,
        (t.type = "expense" ∧
          t.toRecentDoc ∈ recentFind db db.expenses userId (recentLimit limit)) ∨
        (t.type = "income" ∧
          t.toRecentDoc ∈ recentFind db db.incomes userId (recentLimit limit))) ∧
      feed.Subperm
        ((recentFind db db.expenses userId (recentLimit limit)).map
            (fun exp => ({ exp with type := "expense" } : TaggedTransaction))
          ++ (recentFind db db.incomes userId (recentLimit limit)).map
            (fun inc => ({ inc with type := "income" } : TaggedTransaction))) := by
  have hsub : (slice0 (sortTaggedByDateDesc
      ((recentFind db db.expenses userId (recentLimit limit)).map
          (fun exp => ({ exp with type := "expense" } : TaggedTransaction))
        ++ (recentFind db db.incomes userId (recentLimit limit)).map
          (fun inc => ({ inc with type := "income" } : TaggedTransaction))))
      (recentLimit limit)).Subperm
      ((recentFind db db.expenses userId (recentLimit limit)).map
          (fun exp => ({ exp with type := "expense" } : TaggedTransaction))
        ++ (recentFind db db.incomes userId (recentLimit limit)).map
          (fun inc => ({ inc with type := "income" } : TaggedTransaction))) :=
    (slice0_sublist _ _).subperm.trans (sortTaggedByDateDesc_perm _).subperm
  refine ⟨_, rfl, ?_, hsub⟩
  intro t ht
  have hmem := hsub.subset ht
  rw [List.mem_append, List.mem_map, List.mem_map] at hmem
  rcases hmem with ⟨d, hd, rfl⟩ | ⟨d, hd, rfl⟩
  · exact Or.inl ⟨rfl, hd⟩
  · exact Or.inr ⟨rfl, hd⟩

/-! ### Decimal rendering of integers, property names and labels -/

theorem toDigitsCore_eq_digits (fuel : Nat) : ∀ (n : Nat) (ds : List Char), 0 < n → n < fuel →
    Nat.toDigitsCore 10 fuel n ds = (Nat.digits 10 n).reverse.map Nat.digitChar ++ ds := by
  induction fuel with
  | zero => intro n ds _ hf; omega
  | succ f ih =>
    intro n ds hn hf
    rw [Nat.toDigitsCore, Nat.digits_def' (by norm_num) hn]
    by_cases h : n / 10 = 0
    · simp [h]
    · simp only [h, if_false]
      rw [ih (n / 10) _ (Nat.pos_of_ne_zero h) (by omega)]
      simp

/-- The decimal digits of a natural number, most significant first. -/
theorem toDigits_eq (n : Nat) :
    Nat.toDigits 10 n
      = (if n = 0 then [0] else (Nat.digits 10 n).reverse).map Nat.digitChar := by
  by_cases hn : n = 0
  · subst hn; rfl
  · rw [if_neg hn, Nat.toDigits, toDigitsCore_eq_digits _ _ _ (Nat.pos_of_ne_zero hn) (by omega),
      List.append_nil]

theorem digitChar_inj : ∀ a < 10, ∀ b < 10, Nat.digitChar a = Nat.digitChar b → a = b := by
  decide

theorem digitChar_ne_minus : ∀ a < 10, Nat.digitChar a ≠ '-' := by decide

theorem map_digitChar_inj : ∀ (l₁ l₂ : List Nat), (∀ x ∈ l₁, x < 10) → (∀ x ∈ l₂, x < 10) →
    l₁.map Nat.digitChar = l₂.map Nat.digitChar → l₁ = l₂ := by
  intro l₁
  induction l₁ with
  | nil => intro l₂ _ _ h; cases l₂ with
    | nil => rfl
    | cons _ _ => cases h
  | cons a as ih =>
    intro l₂ h1 h2 h
    cases l₂ with
    | nil => cases h
    | cons b bs =>
      rw [List.map_cons, List.map_cons, List.cons.injEq] at h
      rw [digitChar_inj a (h1 a (List.mem_cons_self _ _)) b (h2 b (List.mem_cons_self _ _)) h.1,
        ih bs (fun x hx => h1 x (List.mem_cons_of_mem _ hx))
          (fun x hx => h2 x (List.mem_cons_of_mem _ hx)) h.2]

theorem decimal_lt (n : Nat) :
    ∀ x ∈ (if n = 0 then [0] else (Nat.digits 10 n).reverse), x < 10 := by
  intro x hx
  split at hx
  · simp at hx; omega
  · exact Nat.digits_lt_base (by norm_num) (List.mem_reverse.mp hx)

theorem toDigits_injective : Function.Injective (Nat.toDigits 10) := by
  intro n m h
  rw [toDigits_eq, toDigits_eq] at h
  have hd := map_digitChar_inj _ _ (decimal_lt n) (decimal_lt m) h
  by_cases hn : n = 0 <;> by_cases hm : m = 0
  · rw [hn, hm]
  · rw [if_pos hn, if_neg hm] at hd
    have : Nat.digits 10 m = [0] := by
      have := congrArg List.reverse hd
      simpa using this.symm
    have h0 := Nat.ofDigits_digits 10 m
    rw [this] at h0
    simp at h0
    exact absurd h0.symm hm
  · rw [if_neg hn, if_pos hm] at hd
    have : Nat.digits 10 n = [0] := by
      have := congrArg List.reverse hd
      simpa using this
    have h0 := Nat.ofDigits_digits 10 n
    rw [this] at h0
    simp at h0
    exact absurd h0.symm hn
  · rw [if_neg hn, if_neg hm] at hd
    exact Nat.digits.injective 10 (List.reverse_injective hd)

theorem minus_not_mem_toDigits (n : Nat) : '-' ∉ Nat.toDigits 10 n := by
  rw [toDigits_eq]
  intro h
  obtain ⟨d, hd, hc⟩ := List.mem_map.mp h
  exact digitChar_ne_minus d (decimal_lt n d hd) hc

theorem toDigits_ne_nil (n : Nat) : Nat.toDigits 10 n ≠ [] := by
  rw [toDigits_eq]
  split
  · simp
  · next hn =>
    simp only [ne_eq, List.map_eq_nil_iff, List.reverse_eq_nil_iff]
    exact fun h => hn (Nat.digits_eq_nil_iff_eq_zero.mp h)

theorem int_toString_data (i : Int) :
    (toString i).data
      = match i with
        | Int.ofNat m => Nat.toDigits 10 m
        | Int.negSucc m => '-' :: Nat.toDigits 10 (m + 1) := by
  cases i <;> rfl

theorem int_toString_data_ne_nil (i : Int) : (toString i).data ≠ [] := by
  rw [int_toString_data]
  cases i with
  | ofNat m => exact toDigits_ne_nil m
  | negSucc m => exact List.cons_ne_nil _ _

theorem int_toString_injective : Function.Injective (fun i : Int => toString i) := by
  intro a b h
  have hd : (toString a).data = (toString b).data := congrArg String.data h
  rw [int_toString_data, int_toString_data] at hd
  cases a with
  | ofNat m =>
    cases b with
    | ofNat n => exact congrArg Int.ofNat (toDigits_injective hd)
    | negSucc n =>
      exfalso
      exact minus_not_mem_toDigits m (by
        show '-' ∈ Nat.toDigits 10 m
        rw [show Nat.toDigits 10 m = '-' :: Nat.toDigits 10 (n + 1) from hd]
        exact List.mem_cons_self _ _)
  | negSucc m =>
    cases b with
    | ofNat n =>
      exfalso
      exact minus_not_mem_toDigits n (by
        show '-' ∈ Nat.toDigits 10 n
        rw [show Nat.toDigits 10 n = '-' :: Nat.toDigits 10 (m + 1) from hd.symm]
        exact List.mem_cons_self _ _)
    | negSucc n =>
      have h2 : Nat.toDigits 10 (m + 1) = Nat.toDigits 10 (n + 1) := List.tail_eq_of_cons_eq hd
      have := toDigits_injective h2
      rw [show m = n by omega]

/-- In the decimal rendering of an integer a minus sign can only be the first
character. -/
theorem int_toString_minus_first (i : Int) (a b : List Char)
    (h : (toString i).data = a ++ '-' :: b) : a = [] := by
  rw [int_toString_data] at h
  cases i with
  | ofNat m =>
    exfalso
    apply minus_not_mem_toDigits m
    show '-' ∈ Nat.toDigits 10 m
    rw [show Nat.toDigits 10 m = a ++ '-' :: b from h]
    simp
  | negSucc m =>
    cases a with
    | nil => rfl
    | cons x xs =>
      exfalso
      apply minus_not_mem_toDigits (m + 1)
      have h2 : Nat.toDigits 10 (m + 1) = xs ++ '-' :: b := List.tail_eq_of_cons_eq h
      rw [h2]
      simp

theorem monthMapKey_data (k : MonthKey) :
    (monthMapKey k).data = (toString k.year).data ++ '-' :: (toString k.month).data := by
  unfold monthMapKey
  rw [String.data_append, String.data_append]
  simp

/-- Distinct (year, month) keys give distinct property names. -/
theorem monthMapKey_injective : Function.Injective monthMapKey := by
  intro k₁ k₂ h
  have hd : (monthMapKey k₁).data = (monthMapKey k₂).data := congrArg String.data h
  rw [monthMapKey_data, monthMapKey_data, List.append_eq_append_iff] at hd
  have hfin : (toString k₁.year).data = (toString k₂.year).data ∧
      (toString k₁.month).data = (toString k₂.month).data := by
    rcases hd with ⟨a, h1, h2⟩ | ⟨a, h1, h2⟩
    · cases a with
      | nil =>
        simp only [List.append_nil, List.nil_append, List.cons.injEq, true_and] at h1 h2
        exact ⟨h1.symm, h2⟩
      | cons x xs =>
        exfalso
        rw [List.cons_append, List.cons.injEq] at h2
        rw [← h2.1] at h1
        exact int_toString_data_ne_nil k₁.year (int_toString_minus_first _ _ _ h1)
    · cases a with
      | nil =>
        simp only [List.append_nil, List.nil_append, List.cons.injEq, true_and] at h1 h2
        exact ⟨h1, h2.symm⟩
      | cons x xs =>
        exfalso
        rw [List.cons_append, List.cons.injEq] at h2
        rw [← h2.1] at h1
        exact int_toString_data_ne_nil k₂.year (int_toString_minus_first _ _ _ h1)
  have hy : k₁.year = k₂.year := int_toString_injective (String.ext hfin.1)
  have hm : k₁.month = k₂.month := int_toString_injective (String.ext hfin.2)
  cases k₁; cases k₂
  simp only [MonthKey.mk.injEq]
  exact ⟨hy, hm⟩

theorem monthNames_get?_inj : ∀ i < 12, ∀ j < 12,
    monthNames.get? i = monthNames.get? j → i = j := by
  decide

theorem monthNames_get?_length : ∀ i < 12,
    ∃ abbr, monthNames.get? i = some abbr ∧ abbr.data.length = 3 := by
  decide

theorem monthName_of_get? (k : MonthKey) (h1 : 1 ≤ k.month) (abbr : String)
    (h : monthNames.get? (k.month - 1).toNat = some abbr) :
    monthName k = abbr ++ " " ++ toString k.year := by
  unfold monthName
  rw [if_neg (by omega), h]
  rfl

/-- Keys with months in 1..12 and different (year, month) get different
labels. -/
theorem monthName_injective (k₁ k₂ : MonthKey)
    (h₁ : 1 ≤ k₁.month ∧ k₁.month ≤ 12) (h₂ : 1 ≤ k₂.month ∧ k₂.month ≤ 12)
    (h : monthName k₁ = monthName k₂) : k₁ = k₂ := by
  have hi₁ : (k₁.month - 1).toNat < 12 := by omega
  have hi₂ : (k₂.month - 1).toNat < 12 := by omega
  obtain ⟨a₁, ha₁, hl₁⟩ := monthNames_get?_length _ hi₁
  obtain ⟨a₂, ha₂, hl₂⟩ := monthNames_get?_length _ hi₂
  rw [monthName_of_get? k₁ h₁.1 a₁ ha₁, monthName_of_get? k₂ h₂.1 a₂ ha₂] at h
  have hd := congrArg String.data h
  simp only [String.data_append] at hd
  rw [List.append_assoc, List.append_assoc] at hd
  obtain ⟨hab, hrest⟩ := List.append_inj hd (hl₁.trans hl₂.symm)
  have hidx : (k₁.month - 1).toNat = (k₂.month - 1).toNat := by
    apply monthNames_get?_inj _ hi₁ _ hi₂
    rw [ha₁, ha₂, String.ext hab]
  have hy : k₁.year = k₂.year :=
    int_toString_injective (String.ext (List.append_cancel_left hrest))
  have hm : k₁.month = k₂.month := by omega
  cases k₁; cases k₂
  simp only [MonthKey.mk.injEq]
  exact ⟨hy, hm⟩

/-! ### The insertion-ordered map of the monthly merge -/

theorem MonthMap.get_eq_none_iff (m : MonthMap) (key : String) :
    MonthMap.get m key = none ↔ key ∉ m.map (fun kv => kv.1) := by
  induction m with
  | nil => simp [MonthMap.get]
  | cons kv rest ih =>
    obtain ⟨k, v⟩ := kv
    unfold MonthMap.get
    by_cases hk : k = key
    · simp [hk]
    · have hne : ¬ key = k := fun h => hk h.symm
      simp [hk, hne, ih]

theorem MonthMap.set_of_not_mem (m : MonthMap) (key : String) (v : MonthlyBucket)
    (h : key ∉ m.map (fun kv => kv.1)) : MonthMap.set m key v = m ++ [(key, v)] := by
  induction m with
  | nil => rfl
  | cons kv rest ih =>
    obtain ⟨k, b⟩ := kv
    rw [List.map_cons, List.mem_cons, not_or] at h
    have hk : ¬ k = key := fun hk => h.1 hk.symm
    unfold MonthMap.set
    rw [if_neg hk, ih h.2]
    rfl

theorem MonthMap.set_of_get (m : MonthMap) (key : String) (b : MonthlyBucket)
    (f : MonthlyBucket → MonthlyBucket)
    (hnd : (m.map (fun kv => kv.1)).Nodup) (h : MonthMap.get m key = some b) :
    MonthMap.set m key (f b)
      = m.map (fun kv => if kv.1 = key then (kv.1, f kv.2) else kv) := by
  induction m with
  | nil => simp [MonthMap.get] at h
  | cons kv rest ih =>
    obtain ⟨k, v⟩ := kv
    rw [List.map_cons, List.nodup_cons] at hnd
    unfold MonthMap.get at h
    unfold MonthMap.set
    by_cases hk : k = key
    · rw [if_pos hk] at h
      have hv : v = b := Option.some.inj h
      rw [if_pos hk, List.map_cons, hv]
      have hrest : rest.map (fun kv => if kv.1 = key then (kv.1, f kv.2) else kv) = rest := by
        conv_rhs => rw [← List.map_id rest]
        apply List.map_congr_left
        intro kv hkv
        have hne : ¬ kv.1 = key := fun hkey =>
          hnd.1 (by
            show k ∈ rest.map (fun kv => kv.1)
            rw [hk, ← hkey]
            exact List.mem_map_of_mem (fun kv => kv.1) hkv)
        simp only [hne, if_false, id_eq]
      rw [hrest]
      simp only [hk, if_true]
    · rw [if_neg hk] at h
      rw [if_neg hk, List.map_cons, ih hnd.2 h]
      simp only [hk, if_false]

theorem foldl_expenseStep (exps : List MonthlyTotal) : ∀ (acc : MonthMap),
    (∀ i ∈ exps, monthMapKey i._id ∉ acc.map (fun kv => kv.1)) →
    (exps.map (fun i => monthMapKey i._id)).Nodup →
    exps.foldl expenseStep acc
      = acc ++ exps.map (fun i =>
          (monthMapKey i._id,
            ({ month := monthName i._id, totalExpenses := i.total, totalIncome := 0 }
              : MonthlyBucket))) := by
  induction exps with
  | nil => intro acc _ _; simp
  | cons i rest ih =>
    intro acc hacc hnd
    rw [List.map_cons, List.nodup_cons] at hnd
    rw [List.foldl_cons, expenseStep,
      MonthMap.set_of_not_mem _ _ _ (hacc i (List.mem_cons_self _ _)), ih _ _ hnd.2]
    · simp
    · intro j hj
      rw [List.map_append, List.mem_append, not_or]
      refine ⟨hacc j (List.mem_cons_of_mem _ hj), ?_⟩
      simp only [List.map_cons, List.map_nil, List.mem_singleton]
      intro heq
      exact hnd.1 (heq ▸ List.mem_map_of_mem (fun i => monthMapKey i._id) hj)

/-- What the income loop does to one property of `monthMap`. -/
theorem foldl_incomeStep (incs : List MonthlyTotal) : ∀ (acc : MonthMap),
    (acc.map (fun kv => kv.1)).Nodup →
    (incs.map (fun j => monthMapKey j._id)).Nodup →
    incs.foldl incomeStep acc
      = acc.map (fun kv =>
          match incs.find? (fun j => decide (monthMapKey j._id = kv.1)) with
          | some j => (kv.1, { kv.2 with totalIncome := j.total })
          | none => kv)
        ++ (incs.filter (fun j => decide (monthMapKey j._id ∉ acc.map (fun kv => kv.1)))).map
            (fun j =>
              (monthMapKey j._id,
                ({ month := monthName j._id, totalExpenses := 0, totalIncome := j.total }
                  : MonthlyBucket))) := by
  induction incs with
  | nil => intro acc _ _; simp
  | cons j rest ih =>
    intro acc hacc hnd
    rw [List.map_cons, List.nodup_cons] at hnd
    have hjrest : ∀ x ∈ rest, monthMapKey x._id ≠ monthMapKey j._id := by
      intro x hx heq
      exact hnd.1 (heq ▸ List.mem_map_of_mem (fun j => monthMapKey j._id) hx)
    have hfind : rest.find? (fun x => decide (monthMapKey x._id = monthMapKey j._id)) = none := by
      rw [List.find?_eq_none]
      intro x hx
      simpa using hjrest x hx
    rw [List.foldl_cons, incomeStep]
    cases hget : MonthMap.get acc (monthMapKey j._id) with
    | some b =>
      have hmem : monthMapKey j._id ∈ acc.map (fun kv => kv.1) := by
        by_contra hcon
        rw [(MonthMap.get_eq_none_iff acc _).mpr hcon] at hget
        cases hget
      simp only []
      rw [MonthMap.set_of_get acc _ b (fun b => { b with totalIncome := j.total }) hacc hget]
      have hkeys : (acc.map (fun kv =>
          if kv.1 = monthMapKey j._id then (kv.1, { kv.2 with totalIncome := j.total })
          else kv)).map (fun kv => kv.1) = acc.map (fun kv => kv.1) := by
        rw [List.map_map]
        apply List.map_congr_left
        intro kv _
        simp only [Function.comp]
        split <;> rfl
      rw [ih _ (by rw [hkeys]; exact hacc) hnd.2, hkeys, List.map_map]
      congr 1
      · apply List.map_congr_left
        intro kv _
        by_cases hk : kv.1 = monthMapKey j._id
        · simp [hk, hfind, List.find?_cons]
        · have hk2 : ¬ monthMapKey j._id = kv.1 := fun h => hk h.symm
          simp [hk, hk2, List.find?_cons]
      · rw [List.filter_cons]
        simp [hmem]
    | none =>
      have hmem : monthMapKey j._id ∉ acc.map (fun kv => kv.1) :=
        (MonthMap.get_eq_none_iff acc _).mp hget
      simp only []
      rw [MonthMap.set_of_not_mem _ _ _ hmem, ih _ _ hnd.2]
      · rw [List.map_append, List.append_assoc]
        congr 1
        · apply List.map_congr_left
          intro kv hkv
          have hk : ¬ monthMapKey j._id = kv.1 := fun h =>
            hmem (h ▸ List.mem_map_of_mem (fun kv => kv.1) hkv)
          rw [List.find?_cons]
          simp [hk]
        · rw [List.filter_cons]
          simp only [hmem, not_false_eq_true, decide_True, if_true, List.map_cons,
            List.map_nil, hfind, List.singleton_append, List.cons.injEq, true_and]
          congr 1
          apply List.filter_congr
          intro x hx
          have := hjrest x hx
          simp [this]
      · rw [List.map_append, List.nodup_append]
        refine ⟨hacc, by simp, ?_⟩
        intro a ha hb
        simp only [List.map_cons, List.map_nil, List.mem_singleton] at hb
        exact hmem (hb ▸ ha)

theorem monthMapKey_map_nodup (l : List MonthlyTotal) (h : (l.map (fun i => i._id)).Nodup) :
    (l.map (fun i => monthMapKey i._id)).Nodup := by
  have := h.map monthMapKey_injective
  rwa [List.map_map] at this

theorem monthMapKey_mem_map_iff (l : List MonthlyTotal) (k : MonthKey) :
    monthMapKey k ∈ l.map (fun i => monthMapKey i._id) ↔ k ∈ l.map (fun i => i._id) := by
  simp only [List.mem_map]
  constructor
  · rintro ⟨i, hi, heq⟩
    exact ⟨i, hi, monthMapKey_injective heq⟩
  · rintro ⟨i, hi, heq⟩
    exact ⟨i, hi, congrArg monthMapKey heq⟩

/-- The closed form of the merge for groupings with distinct keys: the
expense months in the order of the expense grouping, then the income-only
months in the order of the income grouping. -/
theorem mergeMonthly_eq (exps incs : List MonthlyTotal)
    (hE : (exps.map (fun i => i._id)).Nodup) (hI : (incs.map (fun i => i._id)).Nodup) :
    mergeMonthly exps incs
      = exps.map (fun i =>
          (monthMapKey i._id,
            ({ month := monthName i._id, totalExpenses := i.total,
               totalIncome := totalOr0 incs i._id } : MonthlyBucket)))
        ++ (incs.filter (fun j => decide (j._id ∉ exps.map (fun i => i._id)))).map
            (fun j =>
              (monthMapKey j._id,
                ({ month := monthName j._id, totalExpenses := 0, totalIncome := j.total }
                  : MonthlyBucket))) := by
  unfold mergeMonthly
  rw [foldl_expenseStep exps [] (by simp) (monthMapKey_map_nodup exps hE), List.nil_append]
  have hkeys : (exps.map (fun i =>
      (monthMapKey i._id,
        ({ month := monthName i._id, totalExpenses := i.total, totalIncome := 0 }
          : MonthlyBucket)))).map (fun kv => kv.1) = exps.map (fun i => monthMapKey i._id) := by
    rw [List.map_map]
    rfl
  rw [foldl_incomeStep incs _ (by rw [hkeys]; exact monthMapKey_map_nodup exps hE)
    (monthMapKey_map_nodup incs hI), hkeys, List.map_map]
  congr 1
  · apply List.map_congr_left
    intro i _
    have hpred : (fun j : MonthlyTotal => decide (monthMapKey j._id = monthMapKey i._id))
        = (fun j : MonthlyTotal => decide (j._id = i._id)) := by
      funext j
      exact decide_eq_decide.mpr monthMapKey_injective.eq_iff
    simp only [Function.comp, hpred, totalOr0]
    cases List.find? (fun j : MonthlyTotal => decide (j._id = i._id)) incs <;> rfl
  · congr 1
    apply List.filter_congr
    intro j _
    exact decide_eq_decide.mpr (not_congr (monthMapKey_mem_map_iff exps j._id))

theorem find?_monthKey_of_mem (l : List MonthlyTotal)
    (hnodup : (l.map (fun i => i._id)).Nodup) {i : MonthlyTotal} (hi : i ∈ l) :
    l.find? (fun x => decide (x._id = i._id)) = some i := by
  induction l with
  | nil => cases hi
  | cons x xs ih =>
    rw [List.map_cons, List.nodup_cons] at hnodup
    rcases List.mem_cons.mp hi with rfl | hmem
    · simp
    · have hne : ¬ x._id = i._id := fun heq =>
        hnodup.1 (heq ▸ List.mem_map_of_mem (fun i => i._id) hmem)
      rw [List.find?_cons, decide_eq_false hne]
      exact ih hnodup.2 hmem

theorem totalOr0_of_mem (l : List MonthlyTotal) (hnodup : (l.map (fun i => i._id)).Nodup)
    {i : MonthlyTotal} (hi : i ∈ l) : totalOr0 l i._id = i.total := by
  unfold totalOr0
  rw [find?_monthKey_of_mem l hnodup hi]

theorem totalOr0_of_not_mem (l : List MonthlyTotal) (k : MonthKey)
    (h : k ∉ l.map (fun i => i._id)) : totalOr0 l k = 0 := by
  unfold totalOr0
  have : l.find? (fun i => decide (i._id = k)) = none := by
    rw [List.find?_eq_none]
    intro x hx hxk
    exact h (of_decide_eq_true hxk ▸ List.mem_map_of_mem (fun i => i._id) hx)
  rw [this]

theorem mergeMonthly_keys (exps incs : List MonthlyTotal)
    (hE : (exps.map (fun i => i._id)).Nodup) (hI : (incs.map (fun i => i._id)).Nodup) :
    (mergeMonthly exps incs).map (fun kv => kv.1)
      = (exps.map (fun i => i._id)
          ++ (incs.map (fun i => i._id)).filter
              (fun k => decide (k ∉ exps.map (fun i => i._id)))).map monthMapKey := by
  rw [mergeMonthly_eq exps incs hE hI]
  simp only [List.map_append, List.map_map, List.filter_map]
  rfl

theorem accumulateMonth_ids (acc : List MonthlyTotal) (key : MonthKey) (amount : ℚ) :
    (accumulateMonth acc key amount).map (fun g => g._id)
      = if key ∈ acc.map (fun g => g._id) then acc.map (fun g => g._id)
        else acc.map (fun g => g._id) ++ [key] := by
  induction acc with
  | nil => simp [accumulateMonth]
  | cons g gs ih =>
    unfold accumulateMonth
    by_cases hg : g._id = key
    · simp [hg]
    · have hne : ¬ key = g._id := fun h => hg h.symm
      rw [if_neg hg, List.map_cons, ih]
      by_cases hmem : key ∈ gs.map (fun g => g._id)
      · simp [hmem]
      · simp [hmem, hne]

theorem monthlyGroupFold_ids_nodup (docs : List Income) (acc : List MonthlyTotal)
    (h : (acc.map (fun g => g._id)).Nodup) :
    ((docs.foldl (fun acc d => accumulateMonth acc (monthKeyOfDate d.date) d.amount) acc).map
      (fun g => g._id)).Nodup := by
  induction docs generalizing acc with
  | nil => exact h
  | cons d rest ih =>
    apply ih
    rw [accumulateMonth_ids]
    split
    · exact h
    · next hmem =>
      rw [List.nodup_append]
      refine ⟨h, List.nodup_singleton _, ?_⟩
      intro a ha hb
      rw [List.mem_singleton] at hb
      exact hmem (hb ▸ ha)

/-- The groupings that reach the merge in the handler have distinct keys. -/
theorem monthlyPipeline_ids_nodup (docs : List Income) (userId : ObjectId)
    (startDate endDate : Option Int) :
    ((monthlyPipeline docs userId startDate endDate).map (fun g => g._id)).Nodup := by
  unfold monthlyPipeline monthlySortStage
  exact ((List.perm_insertionSort _ _).map _).nodup_iff.mpr
    (monthlyGroupFold_ids_nodup _ [] (by simp))

/-- The answer of `getMonthlySummary` is the list of values of the merge of
the two monthly groupings of the store, each of which has distinct keys. -/
theorem getMonthlySummary_buckets (db : Store) (userId : ObjectId)
    (startDate endDate : Option Int) :
    ((monthlyPipeline db.expenses userId startDate endDate).map (fun g => g._id)).Nodup ∧
    ((monthlyPipeline db.incomes userId startDate endDate).map (fun g => g._id)).Nodup ∧
    getMonthlySummary db userId startDate endDate
      = .ok ((mergeMonthly (monthlyPipeline db.expenses userId startDate endDate)
          (monthlyPipeline db.incomes userId startDate endDate)).map (fun kv => kv.2)) :=
  ⟨monthlyPipeline_ids_nodup _ _ _ _, monthlyPipeline_ids_nodup _ _ _ _, rfl⟩

/-- Scenario C evaluated on a store: March 2024 (750, 2000), then April 2024
(0, 2000). -/
theorem scenarioC_summary :
    getMonthlySummary scenarioC 7 none none = .ok
      [{ month := "Mar 2024", totalExpenses := 750, totalIncome := 2000 },
       { month := "Apr 2024", totalExpenses := 0, totalIncome := 2000 }] := by
  decide!

/-- C14: for every pair of groupings with distinct (year, month) keys, the
map built by `getMonthlySummary` has no two buckets for one key, every bucket
belongs to a key of one of the groupings, and every key of either grouping
has its bucket, which carries the expense total of the key, or 0 when the
expense grouping lacks it, and the income total of the key, or 0 when the
income grouping lacks it. -/
theorem mergeMonthly_one_bucket_per_key (exps incs : List MonthlyTotal)
    (hE : (exps.map (fun i => i._id)).Nodup) (hI : (incs.map (fun i => i._id)).Nodup) :
    ((mergeMonthly exps incs).map (fun kv => kv.1)).Nodup ∧
    (∀ kv ∈ mergeMonthly exps incs,
      ∃ k, (k ∈ exps.map (fun i => i._id) ∨ k ∈ incs.map (fun i => i._id)) ∧
        kv.1 = monthMapKey k) ∧
    (∀ k, (k ∈ exps.map (fun i => i._id) ∨ k ∈ incs.map (fun i => i._id)) →
      (monthMapKey k,
        ({ month := monthName k, totalExpenses := totalOr0 exps k,
           totalIncome := totalOr0 incs k } : MonthlyBucket)) ∈ mergeMonthly exps incs) := by
  refine ⟨?_, ?_, ?_⟩
  · rw [mergeMonthly_keys exps incs hE hI]
    apply List.Nodup.map monthMapKey_injective
    rw [List.nodup_append]
    refine ⟨hE, hI.filter _, ?_⟩
    intro k hk hk2
    have := (List.mem_filter.mp hk2).2
    exact of_decide_eq_true this hk
  · intro kv hkv
    rw [mergeMonthly_eq exps incs hE hI, List.mem_append, List.mem_map, List.mem_map] at hkv
    rcases hkv with ⟨i, hi, rfl⟩ | ⟨j, hj, rfl⟩
    · exact ⟨i._id, Or.inl (List.mem_map_of_mem (fun i => i._id) hi), rfl⟩
    · exact ⟨j._id, Or.inr (List.mem_map_of_mem (fun i => i._id) (List.mem_filter.mp hj).1),
        rfl⟩
  · intro k hk
    rw [mergeMonthly_eq exps incs hE hI, List.mem_append, List.mem_map, List.mem_map]
    by_cases hke : k ∈ exps.map (fun i => i._id)
    · left
      obtain ⟨i, hi, rfl⟩ := List.mem_map.mp hke
      exact ⟨i, hi, by rw [totalOr0_of_mem exps hE hi]⟩
    · right
      have hki : k ∈ incs.map (fun i => i._id) := hk.resolve_left hke
      obtain ⟨j, hj, rfl⟩ := List.mem_map.mp hki
      refine ⟨j, List.mem_filter.mpr ⟨hj, decide_eq_true hke⟩, ?_⟩
      rw [totalOr0_of_mem incs hI hj, totalOr0_of_not_mem exps _ hke]

/-- Witness of C14 on the groupings of Scenario C: expenses 2024-03: 750,
income 2024-03: 2000 and 2024-04: 2000 give Mar 2024 (750, 2000) and
Apr 2024 (0, 2000). -/
theorem mergeMonthly_one_bucket_per_key_witness :
    mergeMonthly [{ _id := ⟨2024, 3⟩, total := 750 }]
        [{ _id := ⟨2024, 3⟩, total := 2000 }, { _id := ⟨2024, 4⟩, total := 2000 }]
      = [("2024-3", { month := "Mar 2024", totalExpenses := 750, totalIncome := 2000 }),
         ("2024-4", { month := "Apr 2024", totalExpenses := 0, totalIncome := 2000 })] ∧
    (monthMapKey ⟨2024, 4⟩,
      ({ month := monthName ⟨2024, 4⟩,
         totalExpenses := totalOr0 [{ _id := ⟨2024, 3⟩, total := 750 }] ⟨2024, 4⟩,
         totalIncome := totalOr0
          [{ _id := ⟨2024, 3⟩, total := 2000 }, { _id := ⟨2024, 4⟩, total := 2000 }]
          ⟨2024, 4⟩ } : MonthlyBucket))
      ∈ mergeMonthly [{ _id := ⟨2024, 3⟩, total := 750 }]
          [{ _id := ⟨2024, 3⟩, total := 2000 }, { _id := ⟨2024, 4⟩, total := 2000 }] :=
  ⟨by decide!,
   (mergeMonthly_one_bucket_per_key [{ _id := ⟨2024, 3⟩, total := 750 }]
      [{ _id := ⟨2024, 3⟩, total := 2000 }, { _id := ⟨2024, 4⟩, total := 2000 }]
      (by decide) (by decide)).2.2 ⟨2024, 4⟩ (Or.inr (by decide))⟩

/-- C15 (defect): with one expense in April 2024 and one income in March 2024,
the two groupings are each in ascending order, and `getMonthlySummary` answers
April 2024 before March 2024: the income-only month is appended after the
expense months. -/
theorem getMonthlySummary_not_ascending :
    monthlyPipeline scenarioIncomeFirst.expenses 7 none none
      = [{ _id := ⟨2024, 4⟩, total := 300 }] ∧
    monthlyPipeline scenarioIncomeFirst.incomes 7 none none
      = [{ _id := ⟨2024, 3⟩, total := 2000 }] ∧
    (mergeMonthly (monthlyPipeline scenarioIncomeFirst.expenses 7 none none)
        (monthlyPipeline scenarioIncomeFirst.incomes 7 none none)).map (fun kv => kv.1)
      = [monthMapKey ⟨2024, 4⟩, monthMapKey ⟨2024, 3⟩] ∧
    getMonthlySummary scenarioIncomeFirst 7 none none = .ok
      [{ month := "Apr 2024", totalExpenses := 300, totalIncome := 0 },
       { month := "Mar 2024", totalExpenses := 0, totalIncome := 2000 }] := by
  decide!

/-- C16 (defect): with A = (2024-04: 300) and B = (2024-03: 2000), merging A
as expenses and B as income gives the keys 2024-4, 2024-3, while merging B as
expenses and A as income gives 2024-3, 2024-4: the same months in a different
order. -/
theorem mergeMonthly_not_symmetric :
    (mergeMonthly [{ _id := ⟨2024, 4⟩, total := 300 }]
        [{ _id := ⟨2024, 3⟩, total := 2000 }]).map (fun kv => kv.1)
      = ["2024-4", "2024-3"] ∧
    (mergeMonthly [{ _id := ⟨2024, 3⟩, total := 2000 }]
        [{ _id := ⟨2024, 4⟩, total := 300 }]).map (fun kv => kv.1)
      = ["2024-3", "2024-4"] ∧
    (mergeMonthly [{ _id := ⟨2024, 4⟩, total := 300 }]
        [{ _id := ⟨2024, 3⟩, total := 2000 }]).map (fun kv => kv.2)
      = [{ month := "Apr 2024", totalExpenses := 300, totalIncome := 0 },
         { month := "Mar 2024", totalExpenses := 0, totalIncome := 2000 }] ∧
    (mergeMonthly [{ _id := ⟨2024, 3⟩, total := 2000 }]
        [{ _id := ⟨2024, 4⟩, total := 300 }]).map (fun kv => kv.2)
      = [{ month := "Mar 2024", totalExpenses := 2000, totalIncome := 0 },
         { month := "Apr 2024", totalExpenses := 0, totalIncome := 300 }] := by
  decide!

/-- C17: for a key (year, month) with month in 1..12 the label is the entry
`month − 1` of Jan, Feb, …, Dec (three letters), a space and the year in
decimal; keys with months in 1..12 that differ get different labels; and every
bucket built by the merge carries the label of its key. -/
theorem monthName_format (k : MonthKey) (h1 : 1 ≤ k.month) (h12 : k.month ≤ 12) :
    monthNames = ["Jan", "Feb", "Mar", "Apr", "May", "Jun", "Jul", "Aug", "Sep", "Oct",
      "Nov", "Dec"] ∧
    (∃ abbr, monthNames.get? (k.month - 1).toNat = some abbr ∧ abbr.length = 3 ∧
      monthName k = abbr ++ " " ++ toString k.year) ∧
    (∀ k₂ : MonthKey, 1 ≤ k₂.month → k₂.month ≤ 12 → monthName k = monthName k₂ → k = k₂) ∧
    (∀ (exps incs : List MonthlyTotal),
      (exps.map (fun i => i._id)).Nodup → (incs.map (fun i => i._id)).Nodup →
      ∀ b, (monthMapKey k, b) ∈ mergeMonthly exps incs → b.month = monthName k) := by
  refine ⟨rfl, ?_, ?_, ?_⟩
  · obtain ⟨abbr, habbr, hlen⟩ := monthNames_get?_length (k.month - 1).toNat (by omega)
    exact ⟨abbr, habbr, hlen, monthName_of_get? k h1 abbr habbr⟩
  · intro k₂ h1' h12' heq
    exact monthName_injective k k₂ ⟨h1, h12⟩ ⟨h1', h12'⟩ heq
  · intro exps incs hE hI b hb
    rw [mergeMonthly_eq exps incs hE hI, List.mem_append, List.mem_map, List.mem_map] at hb
    rcases hb with ⟨i, _, heq⟩ | ⟨j, _, heq⟩
    · rw [Prod.mk.injEq] at heq
      rw [← heq.2, monthMapKey_injective heq.1]
    · rw [Prod.mk.injEq] at heq
      rw [← heq.2, monthMapKey_injective heq.1]

/-- Witness of C17: the key (2024, 3) gets the label "Mar 2024". -/
theorem monthName_format_witness :
    monthName ⟨2024, 3⟩ = "Mar 2024" ∧
    (∃ abbr, monthNames.get? (((⟨2024, 3⟩ : MonthKey).month - 1).toNat) = some abbr ∧
      abbr.length = 3 ∧
      monthName ⟨2024, 3⟩ = abbr ++ " " ++ toString (⟨2024, 3⟩ : MonthKey).year) :=
  ⟨by decide, (monthName_format ⟨2024, 3⟩ (by decide) (by decide)).2.1⟩

/-! ### Empty result sets -/

theorem Expense.find_eq_nil (db : Store) (reqUser : ObjectId) (b : Budget) (s e : Int)
    (hnone : ∀ x ∈ db.expenses, ¬ matchesBudget reqUser b s e x) :
    Expense.find db reqUser b.category s e = [] := by
  unfold Expense.find
  rw [List.filter_eq_nil_iff]
  intro x hx hcon
  exact hnone x hx ((find_filter_iff reqUser b s e x).mp hcon)

/-- C22 (counterexample): with no expense stored at all, the status of a
budget whose category was deleted is a 500 (reading `_id` of the `null`
category throws), and so is the status of a budget for the year 300000,
whose dates are invalid. -/
theorem getBudgetStatus_empty_result_is_500 :
    scenarioDeletedCategory.expenses = [] ∧
    Budget.findById scenarioDeletedCategory 10 = some foodBudget ∧
    populateCategory scenarioDeletedCategory foodBudget.category = none ∧
    getBudgetStatus scenarioDeletedCategory 7 10 = .fail 500 "Server error" ∧
    Date.new 300000 0 1 0 0 0 = none ∧
    getBudgetStatus scenarioDeletedCategory 7 14 = .fail 500 "Server error" := by
  decide!

/-- C22 (amended): when the budget is loaded (found, owned by the caller, its
category still exists, the dates of its month are valid), its amount is not negative and no stored
expense of the caller and of the budget's category is dated in the budget's
range, `getBudgetStatus` answers 200 with spent 0, expenseCount 0,
remaining = amount, percentageUsed 0 and isOverBudget false; this holds for
amount 0 as well. -/
theorem getBudgetStatus_empty_result (db : Store) (reqUser id : ObjectId)
    (b : Budget) (c : PopulatedCategory) (s e : Int)
    (hfind : Budget.findById db id = some b) (hown : b.user = reqUser)
    (hs : Date.new b.year (b.month - 1) 1 0 0 0 = some s)
    (he : Date.new b.year b.month 0 23 59 59 = some e)
    (hc : populateCategory db b.category = some c)
    (hamount : 0 ≤ b.amount)
    (hnone : ∀ x ∈ db.expenses, ¬ matchesBudget reqUser b s e x) :
    getBudgetStatus db reqUser id = .ok
      { budget := { _id := b._id, category := c, amount := b.amount, month := b.month,
                    year := b.year }
        spent := 0
        remaining := b.amount
        percentageUsed := some 0
        isOverBudget := false
        expenseCount := 0 } := by
  rw [getBudgetStatus_ok hfind hown hs he hc, Expense.find_eq_nil db reqUser b s e hnone]
  have hnot : ¬ (0 : ℚ) > b.amount := not_lt.mpr hamount
  by_cases hpos : b.amount > 0
  · have hne : b.amount ≠ 0 := ne_of_gt hpos
    have hq : (jsDiv 0 b.amount).bind (fun q => jsMul q 100) = some 0 := by
      simp [jsDiv, jsMul, hne, NumberValue]
    simp only [statusBody, List.foldl_nil, if_pos hpos, hq, percentage_of_zero, sub_zero,
      List.length_nil, hnot, decide_False]
  · simp only [statusBody, List.foldl_nil, if_neg hpos, percentage_of_zero, sub_zero,
      List.length_nil, hnot, decide_False]

/-- Witness of C22 (amended): the April 2024 budget of amount 0 in `scenarioQuiet` has
no expense in its month. -/
theorem getBudgetStatus_empty_result_witness :
    getBudgetStatus scenarioQuiet 7 12 = .ok
      { budget := { _id := freeBudget._id,
                    category := { _id := 1, name := "Food", type := .expense },
                    amount := freeBudget.amount, month := freeBudget.month,
                    year := freeBudget.year }
        spent := 0
        remaining := freeBudget.amount
        percentageUsed := some 0
        isOverBudget := false
        expenseCount := 0 } :=
  getBudgetStatus_empty_result scenarioQuiet 7 12 freeBudget
    { _id := 1, name := "Food", type := .expense } 1711929600000 1714521599000
    (by decide) rfl (by decide) (by decide) (by decide) (by decide!) (by decide)

/-! ### Overall summary -/

theorem sum_filter_user (docs : List Income) (userId : ObjectId) :
    ((docs.filter (fun d => d.user == userId)).map (fun d => d.amount)).sum
      = (docs.map (fun d => if d.user = userId then d.amount else 0)).sum := by
  induction docs with
  | nil => rfl
  | cons d rest ih =>
    by_cases h : d.user = userId
    · simp only [List.filter_cons, h, beq_self_eq_true, if_true, List.map_cons, List.sum_cons,
        ih]
    · have hb : (d.user == userId) = false := by simpa using h
      simp only [List.filter_cons, hb, List.map_cons, List.sum_cons, h, if_false, ih, zero_add,
        Bool.false_eq_true]

theorem totalPipeline_total (docs : List Income) (userId : ObjectId) :
    (match totalPipeline docs userId with
      | r :: _ => r.total
      | [] => 0)
      = ((docs.filter (fun d => d.user == userId)).map (fun d => d.amount)).sum := by
  unfold totalPipeline
  cases h : docs.filter (fun d => d.user == userId) with
  | nil => rfl
  | cons d rest =>
    simp only []
    rw [foldl_add_amount, zero_add]

/-- The summary of user 7 in Scenario A: no income, expenses 1405, balance
−1405; the expense of user 8 is not counted. -/
theorem scenarioA_summary :
    getSummary scenarioA 7
      = .ok { totalIncome := 0, totalExpenses := 1405, netBalance := -1405 } := by
  decide!

/-- C30: for every user `getSummary` answers with totalIncome = the sum of
the amounts of that user's incomes (0 when there are none), totalExpenses =
the sum of the amounts of that user's expenses (0 when there are none) and
netBalance = totalIncome − totalExpenses, negative when the expenses exceed
the income; the answer is the same on every store with the same incomes and
expenses of that user, so records of other users do not affect it. -/
theorem getSummary_totals (db : Store) (userId : ObjectId) :
    (∃ body, getSummary db userId = .ok body ∧
      body.totalIncome
        = (db.incomes.map (fun d => if d.user = userId then d.amount else 0)).sum ∧
      body.totalExpenses
        = (db.expenses.map (fun d => if d.user = userId then d.amount else 0)).sum ∧
      body.netBalance = body.totalIncome - body.totalExpenses ∧
      (body.totalIncome < body.totalExpenses → body.netBalance < 0) ∧
      ((∀ d ∈ db.incomes, d.user ≠ userId) → body.totalIncome = 0) ∧
      ((∀ d ∈ db.expenses, d.user ≠ userId) → body.totalExpenses = 0)) ∧
    (∀ db2 : Store,
      db2.incomes.filter (fun d => d.user == userId)
        = db.incomes.filter (fun d => d.user == userId) →
      db2.expenses.filter (fun d => d.user == userId)
        = db.expenses.filter (fun d => d.user == userId) →
      getSummary db2 userId = getSummary db userId) := by
  have hinc := totalPipeline_total db.incomes userId
  have hexp := totalPipeline_total db.expenses userId
  refine ⟨⟨_, rfl, ?_, ?_, rfl, ?_, ?_, ?_⟩, ?_⟩
  · show (match totalPipeline db.incomes userId with
      | r :: _ => r.total
      | [] => 0) = _
    rw [hinc, sum_filter_user]
  · show (match totalPipeline db.expenses userId with
      | r :: _ => r.total
      | [] => 0) = _
    rw [hexp, sum_filter_user]
  · intro h
    exact sub_neg.mpr h
  · intro hnone
    show (match totalPipeline db.incomes userId with
      | r :: _ => r.total
      | [] => 0) = _
    rw [hinc]
    have : db.incomes.filter (fun d => d.user == userId) = [] := by
      rw [List.filter_eq_nil_iff]
      intro d hd hcon
      exact hnone d hd (by simpa using hcon)
    rw [this]
    rfl
  · intro hnone
    show (match totalPipeline db.expenses userId with
      | r :: _ => r.total
      | [] => 0) = _
    rw [hexp]
    have : db.expenses.filter (fun d => d.user == userId) = [] := by
      rw [List.filter_eq_nil_iff]
      intro d hd hcon
      exact hnone d hd (by simpa using hcon)
    rw [this]
    rfl
  · intro db2 h1 h2
    unfold getSummary totalPipeline
    rw [h1, h2]

/-! ### Transactions whose category is gone -/

theorem lookup_eq_nil_of_not_resolves (db : Store) (d : Income)
    (h : categoryResolves db d = false) :
    db.categories.filter (fun c => c._id == d.category) = [] := by
  rw [List.filter_eq_nil_iff]
  intro c hc hcon
  have : categoryResolves db d = true := List.any_eq_true.mpr ⟨c, hc, hcon⟩
  rw [h] at this
  cases this

theorem lookupUnwind_filter_resolves (db : Store) (docs : List Income) :
    lookupUnwind db.categories (docs.filter (categoryResolves db))
      = lookupUnwind db.categories docs := by
  unfold lookupUnwind
  induction docs with
  | nil => rfl
  | cons d rest ih =>
    cases h : categoryResolves db d with
    | true => rw [List.filter_cons, h, if_pos rfl, List.flatMap_cons, List.flatMap_cons, ih]
    | false =>
      rw [List.filter_cons, h, if_neg (by simp), List.flatMap_cons,
        lookup_eq_nil_of_not_resolves db d h, ih]
      rfl

theorem matchStage_filter (docs : List Income) (p : Income → Bool) (userId : ObjectId)
    (startDate endDate : Option Int) :
    matchStage (docs.filter p) userId startDate endDate
      = (matchStage docs userId startDate endDate).filter p := by
  unfold matchStage
  rw [List.filter_filter, List.filter_filter]
  apply List.filter_congr
  intro d _
  exact Bool.and_comm _ _

theorem categoryPipeline_filter_resolves (db : Store) (docs : List Income)
    (userId : ObjectId) (startDate endDate : Option Int) :
    categoryPipeline db (docs.filter (categoryResolves db)) userId startDate endDate
      = categoryPipeline db docs userId startDate endDate := by
  unfold categoryPipeline
  rw [matchStage_filter, lookupUnwind_filter_resolves]

theorem length_lookup_le_one (categories : List Category)
    (hnd : (categories.map (fun c => c._id)).Nodup) (k : ObjectId) :
    (categories.filter (fun c => c._id == k)).length ≤ 1 := by
  induction categories with
  | nil => simp
  | cons c rest ih =>
    rw [List.map_cons, List.nodup_cons] at hnd
    by_cases hc : c._id = k
    · have hrest : rest.filter (fun c => c._id == k) = [] := by
        rw [List.filter_eq_nil_iff]
        intro x hx hxk
        have hxk2 : x._id = k := by simpa using hxk
        exact hnd.1 (by rw [hc, ← hxk2]; exact List.mem_map_of_mem (fun c => c._id) hx)
      simp [List.filter_cons, hc, hrest]
    · have hb : (c._id == k) = false := by simpa using hc
      rw [List.filter_cons, hb]
      exact ih hnd.2

theorem length_lookup_eq_one (db : Store) (hnd : (db.categories.map (fun c => c._id)).Nodup)
    (d : Income) (h : categoryResolves db d = true) :
    (db.categories.filter (fun c => c._id == d.category)).length = 1 := by
  have hle := length_lookup_le_one db.categories hnd d.category
  obtain ⟨c, hc, hcid⟩ := List.any_eq_true.mp h
  have hpos : 0 < (db.categories.filter (fun c => c._id == d.category)).length :=
    List.length_pos_of_mem (List.mem_filter.mpr ⟨hc, hcid⟩)
  omega

/-- With category ids unique, the pipeline totals are those of the filtered
transactions whose category resolves. -/
theorem categoryPipeline_resolved_totals (db : Store)
    (hnd : (db.categories.map (fun c => c._id)).Nodup) (docs : List Income)
    (userId : ObjectId) (startDate endDate : Option Int) :
    ((categoryPipeline db docs userId startDate endDate).map (fun g => g.totalAmount)).sum
        = (((matchStage docs userId startDate endDate).filter (categoryResolves db)).map
            (fun d => d.amount)).sum ∧
    ((categoryPipeline db docs userId startDate endDate).map (fun g => g.count)).sum
        = ((matchStage docs userId startDate endDate).filter (categoryResolves db)).length := by
  rw [← categoryPipeline_filter_resolves, ← matchStage_filter]
  apply categoryPipeline_conserves
  intro d hd
  rw [matchStage_filter, List.mem_filter] at hd
  exact length_lookup_eq_one db hnd d hd.2

theorem not_mem_included_of_not_resolves (db : Store) (docs : List Income)
    (userId : ObjectId) (startDate endDate : Option Int) (d : Income)
    (h : categoryResolves db d = false) :
    d ∉ (lookupUnwind db.categories (matchStage docs userId startDate endDate)).map
        (fun dc => dc.1) := by
  rw [mem_included_iff]
  rintro ⟨_, c, hc, hcid⟩
  have : categoryResolves db d = true :=
    List.any_eq_true.mpr ⟨c, hc, by simpa using hcid⟩
  rw [h] at this
  cases this

theorem length_filter_eq_iff {α : Type} (p : α → Bool) (l : List α) :
    (l.filter p).length = l.length ↔ ∀ x ∈ l, p x = true := by
  induction l with
  | nil => simp
  | cons x xs ih =>
    cases hx : p x with
    | true =>
      rw [List.filter_cons, hx, if_pos rfl, List.length_cons, List.length_cons,
        Nat.add_right_cancel_iff, ih]
      simp [hx]
    | false =>
      rw [List.filter_cons, hx, if_neg (by simp), List.length_cons]
      have hle := List.length_filter_le p xs
      constructor
      · intro h; omega
      · intro h
        have := h x (List.mem_cons_self _ _)
        rw [hx] at this
        cases this

/-- C27: with category ids unique, a transaction whose category reference
matches no existing category is not among the transactions grouped by
`getExpensesByCategory` / `getIncomeByCategory`; the answer is the one of the
store without such transactions; the `totalAmount`s add up to the amounts
and the `count`s to the number of the filtered transactions whose category
resolves; and the counts add up to the number of all filtered transactions
exactly when the category of every one of them resolves. -/
theorem getExpensesByCategory_drops_unresolved (db : Store) (userId : ObjectId)
    (startDate endDate : Option Int)
    (hnd : (db.categories.map (fun c => c._id)).Nodup) :
    (∃ rollup, getExpensesByCategory db userId startDate endDate = .ok rollup ∧
      (∀ d, categoryResolves db d = false →
        d ∉ (lookupUnwind db.categories
              (matchStage db.expenses userId startDate endDate)).map (fun dc => dc.1)) ∧
      rollup = categoryPipeline db (db.expenses.filter (categoryResolves db)) userId
        startDate endDate ∧
      (rollup.map (fun g => g.totalAmount)).sum
        = (((matchStage db.expenses userId startDate endDate).filter
            (categoryResolves db)).map (fun d => d.amount)).sum ∧
      (rollup.map (fun g => g.count)).sum
        = ((matchStage db.expenses userId startDate endDate).filter
            (categoryResolves db)).length ∧
      ((rollup.map (fun g => g.count)).sum
          = (matchStage db.expenses userId startDate endDate).length ↔
        ∀ d ∈ matchStage db.expenses userId startDate endDate,
          categoryResolves db d = true)) ∧
    (∃ rollup, getIncomeByCategory db userId startDate endDate = .ok rollup ∧
      (∀ d, categoryResolves db d = false →
        d ∉ (lookupUnwind db.categories
              (matchStage db.incomes userId startDate endDate)).map (fun dc => dc.1)) ∧
      rollup = categoryPipeline db (db.incomes.filter (categoryResolves db)) userId
        startDate endDate ∧
      (rollup.map (fun g => g.totalAmount)).sum
        = (((matchStage db.incomes userId startDate endDate).filter
            (categoryResolves db)).map (fun d => d.amount)).sum ∧
      (rollup.map (fun g => g.count)).sum
        = ((matchStage db.incomes userId startDate endDate).filter
            (categoryResolves db)).length ∧
      ((rollup.map (fun g => g.count)).sum
          = (matchStage db.incomes userId startDate endDate).length ↔
        ∀ d ∈ matchStage db.incomes userId startDate endDate,
          categoryResolves db d = true)) := by
  have key : ∀ docs : List Income,
      (∀ d, categoryResolves db d = false →
        d ∉ (lookupUnwind db.categories
              (matchStage docs userId startDate endDate)).map (fun dc => dc.1)) ∧
      categoryPipeline db docs userId startDate endDate
        = categoryPipeline db (docs.filter (categoryResolves db)) userId startDate endDate ∧
      ((categoryPipeline db docs userId startDate endDate).map (fun g => g.totalAmount)).sum
        = (((matchStage docs userId startDate endDate).filter
            (categoryResolves db)).map (fun d => d.amount)).sum ∧
      ((categoryPipeline db docs userId startDate endDate).map (fun g => g.count)).sum
        = ((matchStage docs userId startDate endDate).filter (categoryResolves db)).length ∧
      (((categoryPipeline db docs userId startDate endDate).map (fun g => g.count)).sum
          = (matchStage docs userId startDate endDate).length ↔
        ∀ d ∈ matchStage docs userId startDate endDate, categoryResolves db d = true) := by
    intro docs
    obtain ⟨h1, h2⟩ := categoryPipeline_resolved_totals db hnd docs userId startDate endDate
    refine ⟨fun d hd => not_mem_included_of_not_resolves db docs userId startDate endDate d hd,
      (categoryPipeline_filter_resolves db docs userId startDate endDate).symm, h1, h2, ?_⟩
    rw [h2]
    exact length_filter_eq_iff _ _
  exact ⟨⟨_, rfl, key db.expenses⟩, ⟨_, rfl, key db.incomes⟩⟩

/-- Witness of C27 on `scenarioOrphan`: the expense of 450 with the missing
category 9 is dropped, the roll-up is Food 300 ×1, and the counts (1) fall
short of the two filtered expenses. -/
theorem getExpensesByCategory_drops_unresolved_witness :
    getExpensesByCategory scenarioOrphan 7 none none
      = .ok [{ _id := "Food", totalAmount := 300, count := 1 }] ∧
    (matchStage scenarioOrphan.expenses 7 none none).length = 2 ∧
    ∃ rollup, getExpensesByCategory scenarioOrphan 7 none none = .ok rollup ∧
      (∀ d, categoryResolves scenarioOrphan d = false →
        d ∉ (lookupUnwind scenarioOrphan.categories
              (matchStage scenarioOrphan.expenses 7 none none)).map (fun dc => dc.1)) ∧
      rollup = categoryPipeline scenarioOrphan
        (scenarioOrphan.expenses.filter (categoryResolves scenarioOrphan)) 7 none none ∧
      (rollup.map (fun g => g.totalAmount)).sum
        = (((matchStage scenarioOrphan.expenses 7 none none).filter
            (categoryResolves scenarioOrphan)).map (fun d => d.amount)).sum ∧
      (rollup.map (fun g => g.count)).sum
        = ((matchStage scenarioOrphan.expenses 7 none none).filter
            (categoryResolves scenarioOrphan)).length ∧
      ((rollup.map (fun g => g.count)).sum
          = (matchStage scenarioOrphan.expenses 7 none none).length ↔
        ∀ d ∈ matchStage scenarioOrphan.expenses 7 none none,
          categoryResolves scenarioOrphan d = true) :=
  ⟨by decide!, by decide!,
   (getExpensesByCategory_drops_unresolved scenarioOrphan 7 none none (by decide)).1⟩

/-! ### Totals and order of the monthly merge -/

theorem totalOr0_cons (j : MonthlyTotal) (rest : List MonthlyTotal) (k : MonthKey) :
    totalOr0 (j :: rest) k = if j._id = k then j.total else totalOr0 rest k := by
  unfold totalOr0
  rw [List.find?_cons]
  by_cases h : j._id = k
  · simp [h]
  · simp [h]

theorem sum_ite_key (exps : List MonthlyTotal) (hE : (exps.map (fun i => i._id)).Nodup)
    (k : MonthKey) (c : ℚ) (g : MonthlyTotal → ℚ) (hg : ∀ i ∈ exps, i._id = k → g i = 0) :
    (exps.map (fun i => if k = i._id then c else g i)).sum
      = (if k ∈ exps.map (fun i => i._id) then c else 0) + (exps.map g).sum := by
  induction exps with
  | nil => simp
  | cons i rest ih =>
    rw [List.map_cons, List.nodup_cons] at hE
    have ihr := ih hE.2 (fun x hx => hg x (List.mem_cons_of_mem _ hx))
    by_cases hk : k = i._id
    · have hnot : k ∉ rest.map (fun i => i._id) := hk ▸ hE.1
      rw [if_neg hnot, zero_add] at ihr
      have hgi : g i = 0 := hg i (List.mem_cons_self _ _) hk.symm
      simp only [List.map_cons, List.sum_cons, hk, if_true, List.mem_cons, true_or]
      rw [← hk, ihr, hgi, zero_add]
    · simp only [List.map_cons, List.sum_cons, hk, if_false, List.mem_cons, false_or]
      rw [ihr]
      ring

theorem sum_totalOr0 (exps incs : List MonthlyTotal)
    (hE : (exps.map (fun i => i._id)).Nodup) (hI : (incs.map (fun i => i._id)).Nodup) :
    (exps.map (fun i => totalOr0 incs i._id)).sum
      = ((incs.filter (fun j => decide (j._id ∈ exps.map (fun i => i._id)))).map
          (fun j => j.total)).sum := by
  induction incs with
  | nil => simp [totalOr0]
  | cons j rest ih =>
    rw [List.map_cons, List.nodup_cons] at hI
    have hfun : (fun i : MonthlyTotal => totalOr0 (j :: rest) i._id)
        = (fun i : MonthlyTotal => if j._id = i._id then j.total else totalOr0 rest i._id) := by
      funext i
      exact totalOr0_cons j rest i._id
    rw [hfun, sum_ite_key exps hE j._id j.total (fun i => totalOr0 rest i._id)
      (fun i _ hik => totalOr0_of_not_mem rest i._id (hik ▸ hI.1)), ih hI.2]
    by_cases hmem : j._id ∈ exps.map (fun i => i._id)
    · rw [List.filter_cons]
      simp only [hmem, decide_True, if_true, List.map_cons, List.sum_cons]
    · rw [List.filter_cons]
      simp only [hmem, decide_False, if_false, zero_add, Bool.false_eq_true]

theorem sum_filter_add_sum_filter_not (l : List MonthlyTotal) (p : MonthlyTotal → Prop)
    [DecidablePred p] :
    ((l.filter (fun j => decide (p j))).map (fun j => j.total)).sum
      + ((l.filter (fun j => decide (¬ p j))).map (fun j => j.total)).sum
      = (l.map (fun j => j.total)).sum := by
  induction l with
  | nil => simp
  | cons j rest ih =>
    by_cases h : p j
    · simp only [List.filter_cons, h, decide_True, if_true, not_true_eq_false, decide_False,
        List.map_cons, List.sum_cons, Bool.false_eq_true, if_false]
      rw [← ih]
      ring
    · simp only [List.filter_cons, h, decide_False, not_false_eq_true, decide_True, if_true,
        List.map_cons, List.sum_cons, Bool.false_eq_true, if_false]
      rw [← ih]
      ring

/-- C28: for every pair of groupings with distinct keys, the buckets of the
merge conserve the totals: their `totalExpenses` add up to the totals of the
expense grouping and their `totalIncome` add up to the totals of the income
grouping. -/
theorem mergeMonthly_conserves_totals (exps incs : List MonthlyTotal)
    (hE : (exps.map (fun i => i._id)).Nodup) (hI : (incs.map (fun i => i._id)).Nodup) :
    ((mergeMonthly exps incs).map (fun kv => kv.2.totalExpenses)).sum
      = (exps.map (fun i => i.total)).sum ∧
    ((mergeMonthly exps incs).map (fun kv => kv.2.totalIncome)).sum
      = (incs.map (fun j => j.total)).sum := by
  rw [mergeMonthly_eq exps incs hE hI]
  constructor
  · simp only [List.map_append, List.map_map, List.sum_append, Function.comp_def]
    have hzero : ((incs.filter (fun j => decide (j._id ∉ exps.map (fun i => i._id)))).map
        (fun _ => (0 : ℚ))).sum = 0 := by
      simp
    rw [hzero, add_zero]
  · simp only [List.map_append, List.map_map, List.sum_append, Function.comp_def]
    rw [sum_totalOr0 exps incs hE hI]
    exact sum_filter_add_sum_filter_not incs (fun j => j._id ∈ exps.map (fun i => i._id))

/-- Witness of C28 on the groupings of Scenario C: expenses 750, income
2000 + 2000. -/
theorem mergeMonthly_conserves_totals_witness :
    ((mergeMonthly [{ _id := ⟨2024, 3⟩, total := 750 }]
        [{ _id := ⟨2024, 3⟩, total := 2000 }, { _id := ⟨2024, 4⟩, total := 2000 }]).map
        (fun kv => kv.2.totalExpenses)).sum
      = (([{ _id := ⟨2024, 3⟩, total := 750 }] : List MonthlyTotal).map
          (fun i => i.total)).sum ∧
    ((mergeMonthly [{ _id := ⟨2024, 3⟩, total := 750 }]
        [{ _id := ⟨2024, 3⟩, total := 2000 }, { _id := ⟨2024, 4⟩, total := 2000 }]).map
        (fun kv => kv.2.totalIncome)).sum
      = (([{ _id := ⟨2024, 3⟩, total := 2000 }, { _id := ⟨2024, 4⟩, total := 2000 }]
          : List MonthlyTotal).map (fun j => j.total)).sum :=
  mergeMonthly_conserves_totals [{ _id := ⟨2024, 3⟩, total := 750 }]
    [{ _id := ⟨2024, 3⟩, total := 2000 }, { _id := ⟨2024, 4⟩, total := 2000 }]
    (by decide) (by decide)

theorem MonthKey.lt_irrefl (a : MonthKey) : ¬ MonthKey.lt a a := by
  unfold MonthKey.lt
  omega

theorem nodup_of_pairwise_lt (l : List MonthKey) (h : l.Pairwise MonthKey.lt) : l.Nodup := by
  unfold List.Nodup
  refine h.imp ?_
  intro a b hab heq
  subst heq
  exact MonthKey.lt_irrefl a hab

theorem MonthKey.lt_of_le_of_ne {a b : MonthKey} (hle : MonthKey.le a b) (hne : a ≠ b) :
    MonthKey.lt a b := by
  unfold MonthKey.le at hle
  unfold MonthKey.lt
  rcases hle with h | ⟨hy, hm⟩
  · exact Or.inl h
  · right
    have hmne : a.month ≠ b.month := by
      intro hmm
      apply hne
      cases a; cases b
      simp only [MonthKey.mk.injEq]
      exact ⟨hy, hmm⟩
    exact ⟨hy, by omega⟩

/-- The groupings that reach the merge in the handler are strictly ascending
by (year, month). -/
theorem monthlyPipeline_sorted (docs : List Income) (userId : ObjectId)
    (startDate endDate : Option Int) :
    ((monthlyPipeline docs userId startDate endDate).map (fun g => g._id)).Pairwise
      MonthKey.lt := by
  have hnd := monthlyPipeline_ids_nodup docs userId startDate endDate
  have hsorted : (monthlyPipeline docs userId startDate endDate).Pairwise
      (fun a b => MonthKey.le a._id b._id) := by
    unfold monthlyPipeline monthlySortStage
    haveI : IsTotal MonthlyTotal (fun a b => MonthKey.le a._id b._id) :=
      ⟨fun a b => by unfold MonthKey.le; omega⟩
    haveI : IsTrans MonthlyTotal (fun a b => MonthKey.le a._id b._id) :=
      ⟨fun a b c hab hbc => by unfold MonthKey.le at *; omega⟩
    exact List.sorted_insertionSort _ _
  rw [List.pairwise_map]
  have hne : (monthlyPipeline docs userId startDate endDate).Pairwise
      (fun a b => a._id ≠ b._id) := by
    have := hnd
    rw [List.Nodup, List.pairwise_map] at this
    exact this
  exact (hsorted.and hne).imp (fun h => MonthKey.lt_of_le_of_ne h.1 h.2)

/-- C25: for every pair of groupings, each strictly ascending by
(year, month), the bucket list of `getMonthlySummary` is the buckets of all
months of the expense grouping in ascending order, followed by the buckets of
the months of the income grouping that the expense grouping lacks, in
ascending order; so the keys of the whole list are ascending whenever every
income-only month is later than every expense month. -/
theorem mergeMonthly_expense_months_first (exps incs : List MonthlyTotal)
    (hE : (exps.map (fun i => i._id)).Pairwise MonthKey.lt)
    (hI : (incs.map (fun i => i._id)).Pairwise MonthKey.lt) :
    (mergeMonthly exps incs).map (fun kv => kv.2)
      = exps.map (fun i =>
          ({ month := monthName i._id, totalExpenses := i.total,
             totalIncome := totalOr0 incs i._id } : MonthlyBucket))
        ++ (incs.filter (fun j => decide (j._id ∉ exps.map (fun i => i._id)))).map
            (fun j =>
              ({ month := monthName j._id, totalExpenses := 0, totalIncome := j.total }
                : MonthlyBucket)) ∧
    (mergeMonthly exps incs).map (fun kv => kv.1)
      = (exps.map (fun i => i._id)
          ++ (incs.map (fun i => i._id)).filter
              (fun k => decide (k ∉ exps.map (fun i => i._id)))).map monthMapKey ∧
    ((incs.map (fun i => i._id)).filter
        (fun k => decide (k ∉ exps.map (fun i => i._id)))).Pairwise MonthKey.lt ∧
    ((∀ a ∈ exps.map (fun i => i._id), ∀ b ∈ incs.map (fun i => i._id),
        b ∉ exps.map (fun i => i._id) → MonthKey.lt a b) →
      (exps.map (fun i => i._id)
        ++ (incs.map (fun i => i._id)).filter
            (fun k => decide (k ∉ exps.map (fun i => i._id)))).Pairwise MonthKey.lt) := by
  have hEn := nodup_of_pairwise_lt _ hE
  have hIn := nodup_of_pairwise_lt _ hI
  refine ⟨?_, mergeMonthly_keys exps incs hEn hIn, hI.filter _, ?_⟩
  · rw [mergeMonthly_eq exps incs hEn hIn]
    simp only [List.map_append, List.map_map, Function.comp_def]
  · intro hlater
    rw [List.pairwise_append]
    refine ⟨hE, hI.filter _, ?_⟩
    intro a ha b hb
    rw [List.mem_filter] at hb
    exact hlater a ha b hb.1 (of_decide_eq_true hb.2)

/-- Witness of C25 on the groupings of Scenario C (expenses in March, income
in March and April): March, then the income-only April. -/
theorem mergeMonthly_expense_months_first_witness :
    (mergeMonthly [{ _id := ⟨2024, 3⟩, total := 750 }]
        [{ _id := ⟨2024, 3⟩, total := 2000 }, { _id := ⟨2024, 4⟩, total := 2000 }]).map
        (fun kv => kv.1)
      = ((([{ _id := ⟨2024, 3⟩, total := 750 }] : List MonthlyTotal).map (fun i => i._id))
          ++ (([{ _id := ⟨2024, 3⟩, total := 2000 }, { _id := ⟨2024, 4⟩, total := 2000 }]
                : List MonthlyTotal).map (fun i => i._id)).filter
              (fun k => decide (k ∉ ([{ _id := ⟨2024, 3⟩, total := 750 }]
                : List MonthlyTotal).map (fun i => i._id)))).map monthMapKey :=
  (mergeMonthly_expense_months_first [{ _id := ⟨2024, 3⟩, total := 750 }]
    [{ _id := ⟨2024, 3⟩, total := 2000 }, { _id := ⟨2024, 4⟩, total := 2000 }]
    (by decide) (by decide)).2.1

/-! ### Stability of the merge of recent transactions -/

theorem slice0_initial {α : Type} (l : List α) (n : Int) : List.IsPrefix (slice0 l n) l := by
  unfold slice0
  split <;> exact List.take_prefix _ _

/-- The stable sort keeps, for each date, the entries of that date in their
input order. -/
theorem sortTaggedByDateDesc_filter_date (l : List TaggedTransaction) (d : Int) :
    (sortTaggedByDateDesc l).filter (fun t => decide (t.date = d))
      = l.filter (fun t => decide (t.date = d)) := by
  have hpw : (l.filter (fun t => decide (t.date = d))).Pairwise
      (fun a b => a.date ≥ b.date) := by
    rw [List.pairwise_filter]
    exact List.pairwise_of_forall (fun a b ha hb => by
      rw [ha, hb])
  have hsub : List.Sublist (l.filter (fun t => decide (t.date = d)))
      (sortTaggedByDateDesc l) :=
    List.sublist_insertionSort hpw (List.filter_sublist l)
  have hsub2 := hsub.filter (fun t => decide (t.date = d))
  rw [List.filter_filter] at hsub2
  simp only [Bool.and_self] at hsub2
  have hlen : ((sortTaggedByDateDesc l).filter (fun t => decide (t.date = d))).length
      = (l.filter (fun t => decide (t.date = d))).length :=
    ((sortTaggedByDateDesc_perm l).filter _).length_eq
  exact (hsub2.eq_of_length hlen.symm).symm

/-- C21: the merge of `getRecentTransactions` is stable: for every date, the
entries of that date appear in the sorted array in the order they have in
the concatenation of the tagged expense feed and the tagged income feed
(expenses first, each feed in its own order), two entries of equal date keep
their relative order, and the answer, a prefix of the sorted array, lists the
entries of each date in that same order. -/
theorem getRecentTransactions_stable (db : Store) (userId : ObjectId)
    (limit : Option String) :
    ∃ feed, getRecentTransactions db userId limit = .ok feed ∧
      List.IsPrefix feed (sortTaggedByDateDesc
        ((recentFind db db.expenses userId (recentLimit limit)).map
            (fun exp => ({ exp with type := "expense" } : TaggedTransaction))
          ++ (recentFind db db.incomes userId (recentLimit limit)).map
            (fun inc => ({ inc with type := "income" } : TaggedTransaction)))) ∧
      (∀ d : Int,
        (sortTaggedByDateDesc
          ((recentFind db db.expenses userId (recentLimit limit)).map
              (fun exp => ({ exp with type := "expense" } : TaggedTransaction))
            ++ (recentFind db db.incomes userId (recentLimit limit)).map
              (fun inc => ({ inc with type := "income" } : TaggedTransaction)))).filter
            (fun t => decide (t.date = d))
          = ((recentFind db db.expenses userId (recentLimit limit)).map
                (fun exp => ({ exp with type := "expense" } : TaggedTransaction))).filter
              (fun t => decide (t.date = d))
            ++ ((recentFind db db.incomes userId (recentLimit limit)).map
                (fun inc => ({ inc with type := "income" } : TaggedTransaction))).filter
              (fun t => decide (t.date = d))) ∧
      (∀ d : Int,
        List.IsPrefix (feed.filter (fun t => decide (t.date = d)))
          (((recentFind db db.expenses userId (recentLimit limit)).map
                (fun exp => ({ exp with type := "expense" } : TaggedTransaction))).filter
              (fun t => decide (t.date = d))
            ++ ((recentFind db db.incomes userId (recentLimit limit)).map
                (fun inc => ({ inc with type := "income" } : TaggedTransaction))).filter
              (fun t => decide (t.date = d)))) ∧
      (∀ a b : TaggedTransaction, a.date = b.date →
        List.Sublist [a, b] ((recentFind db db.expenses userId (recentLimit limit)).map
              (fun exp => ({ exp with type := "expense" } : TaggedTransaction))
            ++ (recentFind db db.incomes userId (recentLimit limit)).map
              (fun inc => ({ inc with type := "income" } : TaggedTransaction))) →
        List.Sublist [a, b] (sortTaggedByDateDesc
          ((recentFind db db.expenses userId (recentLimit limit)).map
              (fun exp => ({ exp with type := "expense" } : TaggedTransaction))
            ++ (recentFind db db.incomes userId (recentLimit limit)).map
              (fun inc => ({ inc with type := "income" } : TaggedTransaction))))) := by
  refine ⟨_, rfl, slice0_initial _ _, ?_, ?_, ?_⟩
  · intro d
    rw [sortTaggedByDateDesc_filter_date, List.filter_append]
  · intro d
    have h := (slice0_initial (sortTaggedByDateDesc
      ((recentFind db db.expenses userId (recentLimit limit)).map
          (fun exp => ({ exp with type := "expense" } : TaggedTransaction))
        ++ (recentFind db db.incomes userId (recentLimit limit)).map
          (fun inc => ({ inc with type := "income" } : TaggedTransaction))))
      (recentLimit limit)).filter (fun t => decide (t.date = d))
    rw [sortTaggedByDateDesc_filter_date, List.filter_append] at h
    exact h
  · intro a b hab hsub
    exact List.pair_sublist_insertionSort (le_of_eq hab.symm) hsub

/-- The merged feed of user 7 in `scenarioRecent` with `limit=5`: the expense
"dinner" (102) and the income "pay" (200) have the same date, and the expense
comes first. -/
theorem scenarioRecent_stable :
    (match getRecentTransactions scenarioRecent 7 (some "5") with
      | .ok feed => feed.map (fun t => (t._id, t.type, t.date))
      | .fail _ _ => [])
      = [(101, "expense", 1710300000000), (102, "expense", 1710200000000),
         (200, "income", 1710200000000), (201, "income", 1710100000000),
         (100, "expense", 1710000000000)] := by
  decide!

/-! ### The limit of recent transactions -/

/-- The limit for some parameter values: absent, not a number, 0, 3, "7 days"
and -2. -/
theorem recentLimit_examples :
    recentLimit none = 10 ∧ recentLimit (some "abc") = 10 ∧ recentLimit (some "") = 10 ∧
    recentLimit (some "0") = 10 ∧ recentLimit (some "3") = 3 ∧
    recentLimit (some "7 days") = 7 ∧ recentLimit (some "-2") = -2 := by
  decide

/-- With `limit=-2` the same integer reaches both calls: each query is
limited to 2 documents and `slice(0, -2)` drops the last 2 of the 4 merged
entries. -/
theorem scenarioRecent_negative_limit :
    (recentFind scenarioRecent scenarioRecent.expenses 7 (-2)).map (fun d => d._id)
      = [101, 102] ∧
    (recentFind scenarioRecent scenarioRecent.incomes 7 (-2)).map (fun d => d._id)
      = [200, 201] ∧
    (match getRecentTransactions scenarioRecent 7 (some "-2") with
      | .ok feed => feed.map (fun t => t._id)
      | .fail _ _ => []) = [101, 102] := by
  decide!

/-- C29: the limit of `getRecentTransactions` is 10 when the `limit`
parameter is absent, is not read as a number by `parseInt`, or is read as 0,
and is the parsed integer for every other value; that one limit is the
argument of `.limit` in both queries and the end of the `slice` of the merged
array, so for a limit N ≥ 1 each feed is the first N of the user's documents
by date and the answer is the first N of the merged array. -/
theorem getRecentTransactions_limit (db : Store) (userId : ObjectId)
    (limit : Option String) :
    (limit = none → recentLimit limit = 10) ∧
    (∀ s, limit = some s → parseInt s = none → recentLimit limit = 10) ∧
    (∀ s, limit = some s → parseInt s = some 0 → recentLimit limit = 10) ∧
    (∀ s n, limit = some s → parseInt s = some n → n ≠ 0 → recentLimit limit = n) ∧
    recentFind db db.expenses userId (recentLimit limit)
      = (cursorLimit (recentLimit limit)
          (sortByDateDesc (db.expenses.filter (fun d => d.user == userId)))).map
          (toRecentDoc db) ∧
    recentFind db db.incomes userId (recentLimit limit)
      = (cursorLimit (recentLimit limit)
          (sortByDateDesc (db.incomes.filter (fun d => d.user == userId)))).map
          (toRecentDoc db) ∧
    getRecentTransactions db userId limit
      = .ok (slice0 (sortTaggedByDateDesc
          ((recentFind db db.expenses userId (recentLimit limit)).map
              (fun exp => ({ exp with type := "expense" } : TaggedTransaction))
            ++ (recentFind db db.incomes userId (recentLimit limit)).map
              (fun inc => ({ inc with type := "income" } : TaggedTransaction))))
          (recentLimit limit)) ∧
    (1 ≤ recentLimit limit →
      recentFind db db.expenses userId (recentLimit limit)
        = ((sortByDateDesc (db.expenses.filter (fun d => d.user == userId))).take
            (recentLimit limit).toNat).map (toRecentDoc db) ∧
      recentFind db db.incomes userId (recentLimit limit)
        = ((sortByDateDesc (db.incomes.filter (fun d => d.user == userId))).take
            (recentLimit limit).toNat).map (toRecentDoc db) ∧
      getRecentTransactions db userId limit
        = .ok ((sortTaggedByDateDesc
            ((recentFind db db.expenses userId (recentLimit limit)).map
                (fun exp => ({ exp with type := "expense" } : TaggedTransaction))
              ++ (recentFind db db.incomes userId (recentLimit limit)).map
                (fun inc => ({ inc with type := "income" } : TaggedTransaction)))).take
            (recentLimit limit).toNat)) := by
  refine ⟨?_, ?_, ?_, ?_, rfl, rfl, rfl, ?_⟩
  · rintro rfl; rfl
  · rintro s rfl hs
    simp only [recentLimit, hs]
  · rintro s rfl hs
    simp only [recentLimit, hs, if_true]
  · rintro s n rfl hs hn
    simp only [recentLimit, hs, hn, if_false]
  · intro hpos
    have hcur : ∀ l : List Income, cursorLimit (recentLimit limit) l
        = l.take (recentLimit limit).toNat := by
      intro l
      unfold cursorLimit
      rw [if_neg (by omega)]
      congr 1
      omega
    refine ⟨?_, ?_, ?_⟩
    · unfold recentFind
      rw [hcur]
    · unfold recentFind
      rw [hcur]
    · unfold getRecentTransactions slice0
      simp only []
      rw [if_neg (by omega)]

/-! ### The most recent transactions of both kinds -/

theorem sortedDesc_sorted (l : List Int) : (sortedDesc l).Pairwise (fun a b => a ≥ b) := by
  haveI : IsTotal Int (fun a b => a ≥ b) := ⟨fun a b => le_total b a⟩
  haveI : IsTrans Int (fun a b => a ≥ b) := ⟨fun _ _ _ hab hbc => le_trans hbc hab⟩
  exact List.sorted_insertionSort _ l

theorem sortedDesc_perm (l : List Int) : (sortedDesc l).Perm l :=
  List.perm_insertionSort _ l

theorem eq_of_perm_of_sortedDesc {l₁ l₂ : List Int} (hp : l₁.Perm l₂)
    (h₁ : l₁.Pairwise (fun a b => a ≥ b)) (h₂ : l₂.Pairwise (fun a b => a ≥ b)) : l₁ = l₂ := by
  haveI : IsAntisymm Int (fun a b => a ≥ b) := ⟨fun _ _ hab hba => le_antisymm hba hab⟩
  exact List.eq_of_perm_of_sorted hp h₁ h₂

theorem sortedDesc_congr {l₁ l₂ : List Int} (hp : l₁.Perm l₂) : sortedDesc l₁ = sortedDesc l₂ :=
  eq_of_perm_of_sortedDesc (((sortedDesc_perm l₁).trans hp).trans (sortedDesc_perm l₂).symm)
    (sortedDesc_sorted l₁) (sortedDesc_sorted l₂)

theorem sortedDesc_of_sorted {l : List Int} (h : l.Pairwise (fun a b => a ≥ b)) :
    sortedDesc l = l :=
  eq_of_perm_of_sortedDesc (sortedDesc_perm l) (sortedDesc_sorted l) h

/-- In a descending list with at least `n` elements `≥ r`, the first `n`
elements are `≥ r`. -/
theorem take_ge_of_countP (L : List Int) (hL : L.Pairwise (fun a b => a ≥ b)) (r : Int) :
    ∀ n : Nat, n ≤ L.countP (fun x => decide (x ≥ r)) → ∀ x ∈ L.take n, x ≥ r := by
  induction L with
  | nil => intro n _ x hx; simp at hx
  | cons a as ih =>
    intro n hn x hx
    rw [List.pairwise_cons] at hL
    cases n with
    | zero => simp at hx
    | succ k =>
      by_cases ha : a ≥ r
      · rw [List.take_succ_cons, List.mem_cons] at hx
        rcases hx with rfl | hx
        · exact ha
        · apply ih hL.2 k _ x hx
          rw [List.countP_cons_of_pos _ _ (by simpa using ha)] at hn
          omega
      · exfalso
        have hzero : as.countP (fun x => decide (x ≥ r)) = 0 := by
          rw [List.countP_eq_zero]
          intro y hy hyr
          have h1 := hL.1 y hy
          have h2 : y ≥ r := of_decide_eq_true hyr
          exact ha (le_trans h2 h1)
        rw [List.countP_cons_of_neg _ _ (by simpa using ha), hzero] at hn
        omega

/-- Appending elements that are below the first `n` of a descending list does
not change the first `n` of the sorted whole. -/
theorem take_sortedDesc_append (L R : List Int) (n : Nat)
    (hL : L.Pairwise (fun a b => a ≥ b))
    (hR : ∀ x ∈ L.take n, ∀ r ∈ R, x ≥ r) (hlen : R = [] ∨ n ≤ L.length) :
    (sortedDesc (L ++ R)).take n = L.take n := by
  by_cases hRnil : R = []
  · rw [hRnil, List.append_nil, sortedDesc_of_sorted hL]
  · have hn : n ≤ L.length := hlen.resolve_left hRnil
    have hperm : (L.take n ++ sortedDesc (L.drop n ++ R)).Perm (L ++ R) := by
      have h1 : (L.take n ++ sortedDesc (L.drop n ++ R)).Perm
          (L.take n ++ (L.drop n ++ R)) := (sortedDesc_perm _).append_left _
      rw [← List.append_assoc, List.take_append_drop] at h1
      exact h1
    have hsorted : (L.take n ++ sortedDesc (L.drop n ++ R)).Pairwise (fun a b => a ≥ b) := by
      rw [List.pairwise_append]
      refine ⟨hL.sublist (List.take_sublist _ _), sortedDesc_sorted _, ?_⟩
      intro x hx y hy
      have hy2 : y ∈ L.drop n ++ R := (sortedDesc_perm _).mem_iff.mp hy
      rcases List.mem_append.mp hy2 with hyd | hyr
      · exact List.Sorted.rel_of_mem_take_of_mem_drop hL hx hyd
      · exact hR x hx y hyr
    have heq : sortedDesc (L ++ R) = L.take n ++ sortedDesc (L.drop n ++ R) :=
      eq_of_perm_of_sortedDesc ((sortedDesc_perm _).trans hperm.symm) (sortedDesc_sorted _)
        hsorted
    rw [heq, List.take_append_of_le_length (by rw [List.length_take]; omega), List.take_take,
      Nat.min_self]

/-- Fetching only the first `n` of each sorted list loses nothing of the first
`n` of the sorted whole. -/
theorem take_sortedDesc_take_append (A B : List Int) (n : Nat) :
    (sortedDesc ((sortedDesc A).take n ++ (sortedDesc B).take n)).take n
      = (sortedDesc (A ++ B)).take n := by
  have hA := sortedDesc_sorted A
  have hB := sortedDesc_sorted B
  have hperm : (A ++ B).Perm
      (sortedDesc ((sortedDesc A).take n ++ (sortedDesc B).take n)
        ++ ((sortedDesc A).drop n ++ (sortedDesc B).drop n)) := by
    have h1 : (A ++ B).Perm (sortedDesc A ++ sortedDesc B) :=
      ((sortedDesc_perm A).append (sortedDesc_perm B)).symm
    have h2 : (sortedDesc A ++ sortedDesc B).Perm
        (((sortedDesc A).take n ++ (sortedDesc B).take n)
          ++ ((sortedDesc A).drop n ++ (sortedDesc B).drop n)) := by
      conv_lhs => rw [← List.take_append_drop n (sortedDesc A),
        ← List.take_append_drop n (sortedDesc B)]
      rw [List.append_assoc, List.append_assoc]
      apply List.Perm.append_left
      rw [← List.append_assoc, ← List.append_assoc]
      exact List.Perm.append_right _ List.perm_append_comm
    exact (h1.trans h2).trans ((sortedDesc_perm _).symm.append_right _)
  rw [sortedDesc_congr hperm]
  symm
  apply take_sortedDesc_append _ _ n (sortedDesc_sorted _)
  · -- every dropped element is below the first `n` of the merged prefixes
    intro x hx r hr
    have hcount : ∀ (S T : List Int), S.Pairwise (fun a b => a ≥ b) → r ∈ S.drop n →
        n ≤ (sortedDesc (S.take n ++ T)).countP (fun x => decide (x ≥ r)) := by
      intro S T hS hrS
      have hlenS : n ≤ S.length := by
        by_contra hcon
        rw [List.drop_of_length_le (by omega)] at hrS
        cases hrS
      rw [(sortedDesc_perm _).countP_eq, List.countP_append]
      have hall : (S.take n).countP (fun x => decide (x ≥ r)) = (S.take n).length := by
        rw [List.countP_eq_length]
        intro y hy
        exact decide_eq_true (List.Sorted.rel_of_mem_take_of_mem_drop hS hy hrS)
      rw [hall, List.length_take]
      omega
    rcases List.mem_append.mp hr with hrA | hrB
    · exact take_ge_of_countP _ (sortedDesc_sorted _) r n
        (hcount (sortedDesc A) ((sortedDesc B).take n) hA hrA) x hx
    · have hx2 : x ∈ (sortedDesc ((sortedDesc B).take n ++ (sortedDesc A).take n)).take n := by
        rw [sortedDesc_congr (List.perm_append_comm)]
        exact hx
      exact take_ge_of_countP _ (sortedDesc_sorted _) r n
        (hcount (sortedDesc B) ((sortedDesc A).take n) hB hrB) x hx2
  · by_cases hnil : (sortedDesc A).drop n ++ (sortedDesc B).drop n = []
    · exact Or.inl hnil
    · right
      rw [(sortedDesc_perm _).length_eq, List.length_append, List.length_take, List.length_take]
      have hne : (sortedDesc A).drop n ≠ [] ∨ (sortedDesc B).drop n ≠ [] := by
        by_contra hcon
        push_neg at hcon
        exact hnil (by rw [hcon.1, hcon.2]; rfl)
      rcases hne with h | h
      · have : n < (sortedDesc A).length := by
          by_contra hcon
          exact h (List.drop_of_length_le (by omega))
        omega
      · have : n < (sortedDesc B).length := by
          by_contra hcon
          exact h (List.drop_of_length_le (by omega))
        omega

theorem sortByDateDesc_map_date (l : List Income) :
    (sortByDateDesc l).map (fun d => d.date) = sortedDesc (l.map (fun d => d.date)) :=
  List.map_insertionSort (fun a b : Income => a.date ≥ b.date) (fun a b : Int => a ≥ b)
    (fun d => d.date) l (fun _ _ _ _ => Iff.rfl)

theorem sortTaggedByDateDesc_map_date (l : List TaggedTransaction) :
    (sortTaggedByDateDesc l).map (fun t => t.date) = sortedDesc (l.map (fun t => t.date)) :=
  List.map_insertionSort (fun a b : TaggedTransaction => a.date ≥ b.date)
    (fun a b : Int => a ≥ b) (fun t => t.date) l (fun _ _ _ _ => Iff.rfl)

theorem cursorLimit_of_pos {α : Type} {n : Int} (hn : 1 ≤ n) (l : List α) :
    cursorLimit n l = l.take n.toNat := by
  unfold cursorLimit
  rw [if_neg (by omega)]
  congr 1
  omega

theorem slice0_of_pos {α : Type} {n : Int} (hn : 1 ≤ n) (l : List α) :
    slice0 l n = l.take n.toNat := by
  unfold slice0
  rw [if_neg (by omega)]

/-- The dates of one tagged feed, for a limit `n ≥ 1`: the first `n` of the
sorted dates of the user's documents. -/
theorem recentFind_dates (db : Store) (docs : List Income) (userId : ObjectId) {n : Int}
    (hn : 1 ≤ n) (tag : String) :
    ((recentFind db docs userId n).map
        (fun d => ({ d with type := tag } : TaggedTransaction))).map (fun t => t.date)
      = (sortedDesc ((docs.filter (fun d => d.user == userId)).map (fun d => d.date))).take
          n.toNat := by
  unfold recentFind
  rw [cursorLimit_of_pos hn, ← sortByDateDesc_map_date, ← List.map_take]
  simp only [List.map_map, Function.comp_def, toRecentDoc]

/-- C26: for every store, user and limit N ≥ 1 (also the default 10),
`getRecentTransactions` answers with a feed whose sequence of dates is the
first N of the dates of all the user's expenses and incomes combined, taken
with multiplicity in descending order: fetching only the N most recent of each
kind loses nothing. -/
theorem getRecentTransactions_top_dates (db : Store) (userId : ObjectId)
    (limit : Option String) (hN : 1 ≤ recentLimit limit) :
    ∃ feed, getRecentTransactions db userId limit = .ok feed ∧
      feed.map (fun t => t.date)
        = (sortedDesc ((db.expenses.filter (fun d => d.user == userId)
              ++ db.incomes.filter (fun d => d.user == userId)).map (fun d => d.date))).take
            (recentLimit limit).toNat ∧
      (sortedDesc ((db.expenses.filter (fun d => d.user == userId)
          ++ db.incomes.filter (fun d => d.user == userId)).map (fun d => d.date))).Perm
        ((db.expenses.filter (fun d => d.user == userId)
          ++ db.incomes.filter (fun d => d.user == userId)).map (fun d => d.date)) ∧
      (sortedDesc ((db.expenses.filter (fun d => d.user == userId)
          ++ db.incomes.filter (fun d => d.user == userId)).map (fun d => d.date))).Pairwise
        (fun a b => a ≥ b) := by
  refine ⟨_, rfl, ?_, sortedDesc_perm _, sortedDesc_sorted _⟩
  rw [slice0_of_pos hN, List.map_take, sortTaggedByDateDesc_map_date, List.map_append,
    recentFind_dates db db.expenses userId hN "expense",
    recentFind_dates db db.incomes userId hN "income", take_sortedDesc_take_append,
    List.map_append]

/-- Witness of C26 on the store of recent transactions with `limit=3`: the
dates of the feed are the three greatest of the five dates of user 7. -/
theorem getRecentTransactions_top_dates_witness :
    1 ≤ recentLimit (some "3") ∧
    ∃ feed, getRecentTransactions scenarioRecent 7 (some "3") = .ok feed ∧
      feed.map (fun t => t.date)
        = (sortedDesc ((scenarioRecent.expenses.filter (fun d => d.user == 7)
              ++ scenarioRecent.incomes.filter (fun d => d.user == 7)).map
              (fun d => d.date))).take (recentLimit (some "3")).toNat ∧
      (sortedDesc ((scenarioRecent.expenses.filter (fun d => d.user == 7)
          ++ scenarioRecent.incomes.filter (fun d => d.user == 7)).map (fun d => d.date))).Perm
        ((scenarioRecent.expenses.filter (fun d => d.user == 7)
          ++ scenarioRecent.incomes.filter (fun d => d.user == 7)).map (fun d => d.date)) ∧
      (sortedDesc ((scenarioRecent.expenses.filter (fun d => d.user == 7)
          ++ scenarioRecent.incomes.filter (fun d => d.user == 7)).map
          (fun d => d.date))).Pairwise (fun a b => a ≥ b) :=
  ⟨by decide, getRecentTransactions_top_dates scenarioRecent 7 (some "3") (by decide)⟩

/-- The feed of the store of recent transactions with `limit=3`: dates
1710300000000, 1710200000000 (expense 102), 1710200000000 (income 200). -/
theorem scenarioRecent_top3 :
    (match getRecentTransactions scenarioRecent 7 (some "3") with
      | .ok feed => feed.map (fun t => (t._id, t.date))
      | .fail _ _ => [])
      = [(101, 1710300000000), (102, 1710200000000), (200, 1710200000000)] ∧
    (sortedDesc ((scenarioRecent.expenses.filter (fun d => d.user == 7)
        ++ scenarioRecent.incomes.filter (fun d => d.user == 7)).map (fun d => d.date))).take 3
      = [1710300000000, 1710200000000, 1710200000000] := by
  decide!

/-! ### The date range of a budget month -/

theorem InLeapYear_iff (y : Int) :
    InLeapYear y = true ↔ (y % 4 = 0 ∧ y % 100 ≠ 0) ∨ y % 400 = 0 := by
  simp [InLeapYear]

theorem DayFromYear_succ (y : Int) :
    DayFromYear (y + 1) = DayFromYear y + (if InLeapYear y = true then 366 else 365) := by
  have hleap := InLeapYear_iff y
  have h4 : (y + 1 - 1969) / 4 = (y - 1969) / 4 + (if y % 4 = 0 then 1 else 0) := by
    split <;> omega
  have h100 : (y + 1 - 1901) / 100 = (y - 1901) / 100 + (if y % 100 = 0 then 1 else 0) := by
    split <;> omega
  have h400 : (y + 1 - 1601) / 400 = (y - 1601) / 400 + (if y % 400 = 0 then 1 else 0) := by
    split <;> omega
  have h100_4 : y % 100 = 0 → y % 4 = 0 := by omega
  have h400_100 : y % 400 = 0 → y % 100 = 0 := by omega
  unfold DayFromYear
  rw [h4, h100, h400]
  by_cases h : InLeapYear y = true
  · rw [if_pos h]
    rcases hleap.mp h with ⟨ha, hb⟩ | hc
    · have hc : ¬ y % 400 = 0 := fun hc => hb (h400_100 hc)
      rw [if_pos ha, if_neg hb, if_neg hc]
      omega
    · rw [if_pos (h100_4 (h400_100 hc)), if_pos (h400_100 hc), if_pos hc]
      omega
  · rw [if_neg h]
    have hn : ¬ ((y % 4 = 0 ∧ y % 100 ≠ 0) ∨ y % 400 = 0) := fun hh => h (hleap.mpr hh)
    push_neg at hn
    have hc : ¬ y % 400 = 0 := hn.2
    by_cases ha : y % 4 = 0
    · rw [if_pos ha, if_pos (hn.1 ha), if_neg hc]
      omega
    · have hb : ¬ y % 100 = 0 := fun hb => ha (h100_4 hb)
      rw [if_neg ha, if_neg hb, if_neg hc]
      omega

theorem MakeDay_day_zero (y m : Int) (hm1 : 1 ≤ m) (hm2 : m ≤ 12) :
    MakeDay y m 0 = MakeDay y (m - 1) (lastDayOfMonth y m) := by
  have hleap := InLeapYear_iff y
  have hsucc := DayFromYear_succ y
  unfold lastDayOfMonth
  interval_cases m <;>
    cases hl : InLeapYear y <;>
    simp [MakeDay, daysBeforeMonth, daysInMonth, hl] at hleap hsucc ⊢ <;>
    omega

theorem lastDayOfMonth_bounds (y m : Int) :
    28 ≤ lastDayOfMonth y m ∧ lastDayOfMonth y m ≤ 31 := by
  unfold lastDayOfMonth
  split_ifs <;> omega

theorem MakeDay_bounds (y m d : Int) (hy1 : -271820 ≤ y) (hy2 : y ≤ 275759)
    (hm1 : 1 ≤ m) (hm2 : m ≤ 12) (hd1 : 1 ≤ d) (hd2 : d ≤ 31) :
    -100000000 ≤ MakeDay y (m - 1) d ∧ MakeDay y (m - 1) d < 100000000 := by
  interval_cases m <;>
    cases hl : InLeapYear y <;>
    simp [MakeDay, daysBeforeMonth, daysInMonth, hl, DayFromYear] <;>
    omega

theorem TimeClip_of_bounds {t : Int} (h1 : -8640000000000000 ≤ t)
    (h2 : t ≤ 8640000000000000) : TimeClip t = some t := by
  unfold TimeClip
  rw [if_pos (by omega)]

theorem Date.new_eq (year monthIndex day hours minutes seconds : Int) :
    Date.new year monthIndex day hours minutes seconds
      = TimeClip (MakeDate (MakeDay (denotedYear year) monthIndex day)
          (MakeTime hours minutes seconds 0)) :=
  rfl

theorem denotedYear_bounds (y : Int) (hy1 : -271820 ≤ y) (hy2 : y ≤ 275759) :
    -271820 ≤ denotedYear y ∧ denotedYear y ≤ 275759 := by
  unfold denotedYear
  split_ifs <;> omega

/-- The two dates of the budget range for a representable year and a month in
1..12, in terms of the year the constructor reads. -/
theorem budgetRange_dates (y m : Int) (hy1 : -271820 ≤ y) (hy2 : y ≤ 275759)
    (hm1 : 1 ≤ m) (hm2 : m ≤ 12) :
    Date.new y (m - 1) 1 0 0 0 = some (MakeDate (MakeDay (denotedYear y) (m - 1) 1) 0) ∧
    Date.new y m 0 23 59 59
      = some (MakeDate (MakeDay (denotedYear y) (m - 1) (lastDayOfMonth (denotedYear y) m))
          (MakeTime 23 59 59 0)) ∧
    MakeDate (MakeDay (denotedYear y) (m - 1) (lastDayOfMonth (denotedYear y) m))
        (MakeTime 23 59 59 0)
      = MakeDate (MakeDay (denotedYear y) (m - 1) 1) 0
        + lastDayOfMonth (denotedYear y) m * msPerDay - 1000 := by
  obtain ⟨hY1, hY2⟩ := denotedYear_bounds y hy1 hy2
  obtain ⟨hl1, hl2⟩ := lastDayOfMonth_bounds (denotedYear y) m
  have hb1 := MakeDay_bounds (denotedYear y) m 1 hY1 hY2 hm1 hm2 le_rfl (by omega)
  have hb2 := MakeDay_bounds (denotedYear y) m (lastDayOfMonth (denotedYear y) m) hY1 hY2
    hm1 hm2 (by omega) hl2
  refine ⟨?_, ?_, ?_⟩
  · rw [Date.new_eq]
    have : MakeTime 0 0 0 0 = 0 := by decide
    rw [this]
    apply TimeClip_of_bounds <;> unfold MakeDate msPerDay <;> omega
  · rw [Date.new_eq, MakeDay_day_zero _ _ hm1 hm2]
    have : MakeTime 23 59 59 0 = 86399000 := by decide
    rw [this]
    apply TimeClip_of_bounds <;> unfold MakeDate msPerDay <;> omega
  · have : MakeTime 23 59 59 0 = 86399000 := by decide
    rw [this]
    have hd : MakeDay (denotedYear y) (m - 1) (lastDayOfMonth (denotedYear y) m)
        = MakeDay (denotedYear y) (m - 1) 1 + lastDayOfMonth (denotedYear y) m - 1 := by
      unfold MakeDay
      simp only []
      omega
    rw [hd]
    unfold MakeDate msPerDay
    ring_nf

/-- C24 (defect): for the year 24 and month 3 the range computed by
the handlers is March 1924, not March of the year 24: it starts at
1 March 1924 and ends at 31 March 1924, 23:59:59, so of a Food expense dated
15 March 0024 and one dated 15 March 1924 the status of the budget for
3/24 counts the second one only. -/
theorem getBudgetStatus_year_24_is_1924 :
    Date.new 24 2 1 0 0 0 = some (MakeDate (MakeDay 1924 2 1) 0) ∧
    Date.new 24 3 0 23 59 59 = some (MakeDate (MakeDay 1924 2 31) (MakeTime 23 59 59 0)) ∧
    Date.new 24 2 1 0 0 0 ≠ some (MakeDate (MakeDay 24 2 1) 0) ∧
    monthKeyOfDate (MakeDate (MakeDay 1924 2 1) 0) = ⟨1924, 3⟩ ∧
    MakeDate (MakeDay 24 2 15) 0 = -61403443200000 ∧
    MakeDate (MakeDay 1924 2 15) 0 = -1445299200000 ∧
    monthKeyOfDate (-61403443200000) = ⟨24, 3⟩ ∧
    monthKeyOfDate (-1445299200000) = ⟨1924, 3⟩ ∧
    getBudgetStatus scenarioYear24 7 13 = .ok
      { budget := { _id := 13, category := { _id := 1, name := "Food", type := .expense },
                    amount := 500, month := 3, year := 24 }
        spent := 60
        remaining := 440
        percentageUsed := some 12
        isOverBudget := false
        expenseCount := 1 } ∧
    getAllBudgetStatuses scenarioYear24 7 (some "3") (some "24") = .ok
      { month := 3, year := 24, count := 1,
        budgets :=
          [{ budget := { _id := 13,
                         category := { _id := 1, name := "Food", type := .expense },
                         amount := 500, month := 3, year := 24 }
             spent := 60
             remaining := 440
             percentageUsed := some 12
             isOverBudget := false
             expenseCount := 1 }] } := by
  decide!

/-- For a year y from -271820 to 275759 and a month m in 1..12, both dates
of the range are valid; with Y the year the `Date` constructor reads (y
outside 0..99, 1900 + y inside) the range starts at 00:00:00 of day 1 of month
m of Y and ends at 23:59:59 of the last calendar day of that month, the start
plus the days of the month less one second; the expense query of the status
runs over that range. -/
theorem budgetStatus_range_is_month (db : Store) (reqUser : ObjectId) (b : Budget)
    (y m : Int) (hy1 : -271820 ≤ y) (hy2 : y ≤ 275759) (hm1 : 1 ≤ m) (hm2 : m ≤ 12) :
    ∃ s e, Date.new y (m - 1) 1 0 0 0 = some s ∧ Date.new y m 0 23 59 59 = some e ∧
      s = MakeDate (MakeDay (denotedYear y) (m - 1) 1) 0 ∧
      e = MakeDate (MakeDay (denotedYear y) (m - 1) (lastDayOfMonth (denotedYear y) m))
            (MakeTime 23 59 59 0) ∧
      e = s + lastDayOfMonth (denotedYear y) m * msPerDay - 1000 ∧
      s ≤ e ∧
      (y < 0 ∨ 99 < y → denotedYear y = y) ∧
      (0 ≤ y ∧ y ≤ 99 → denotedYear y = 1900 + y) ∧
      budgetStatusFor db reqUser y m b
        = (populateCategory db b.category).map
            (fun c => statusBody b c (Expense.find db reqUser c._id s e)) := by
  obtain ⟨hs, he, hlen⟩ := budgetRange_dates y m hy1 hy2 hm1 hm2
  obtain ⟨hl1, _⟩ := lastDayOfMonth_bounds (denotedYear y) m
  refine ⟨_, _, hs, he, rfl, rfl, hlen, ?_, ?_, ?_, ?_⟩
  · rw [hlen]
    unfold msPerDay
    omega
  · intro h
    unfold denotedYear
    rw [if_neg (by omega)]
  · intro h
    unfold denotedYear
    rw [if_pos h]
  · unfold budgetStatusFor
    rw [hs, he]
    cases populateCategory db b.category <;> rfl

/-- The range of February 2024, a leap year: it runs
from 1 February to 29 February 2024, 23:59:59. -/
theorem budgetStatus_range_is_month_witness :
    ∃ s e, Date.new 2024 (2 - 1) 1 0 0 0 = some s ∧ Date.new 2024 2 0 23 59 59 = some e ∧
      s = MakeDate (MakeDay (denotedYear 2024) (2 - 1) 1) 0 ∧
      e = MakeDate (MakeDay (denotedYear 2024) (2 - 1) (lastDayOfMonth (denotedYear 2024) 2))
            (MakeTime 23 59 59 0) ∧
      e = s + lastDayOfMonth (denotedYear 2024) 2 * msPerDay - 1000 ∧
      s ≤ e ∧
      ((2024 : Int) < 0 ∨ (99 : Int) < 2024 → denotedYear 2024 = 2024) ∧
      ((0 : Int) ≤ 2024 ∧ (2024 : Int) ≤ 99 → denotedYear 2024 = 1900 + 2024) ∧
      budgetStatusFor scenarioA 7 2024 2 foodBudget
        = (populateCategory scenarioA foodBudget.category).map
            (fun c => statusBody foodBudget c (Expense.find scenarioA 7 c._id s e)) :=
  budgetStatus_range_is_month scenarioA 7 foodBudget 2024 2 (by decide) (by decide)
    (by decide) (by decide)

/-- The range of February 2024 and of December 2023 in numbers: 29 February
2024 and 31 December 2023 are the last days, both inside their own year. -/
theorem budgetRange_examples :
    Date.new 2024 1 1 0 0 0 = some 1706745600000 ∧
    Date.new 2024 2 0 23 59 59 = some 1709251199000 ∧
    lastDayOfMonth 2024 2 = 29 ∧ lastDayOfMonth 2023 2 = 28 ∧ lastDayOfMonth 1900 2 = 28 ∧
    lastDayOfMonth 2000 2 = 29 ∧
    monthKeyOfDate 1706745600000 = ⟨2024, 2⟩ ∧ monthKeyOfDate 1709251199000 = ⟨2024, 2⟩ ∧
    monthKeyOfDate (1709251199000 + 1000) = ⟨2024, 3⟩ ∧
    Date.new 2023 12 0 23 59 59
      = some (MakeDate (MakeDay 2023 11 31) (MakeTime 23 59 59 0)) ∧
    (Date.new 2023 12 0 23 59 59).map monthKeyOfDate = some ⟨2023, 12⟩ := by
  decide

/-! ### One budget per user, category, month and year -/

theorem mem_replaceOne {doc x : Budget} {l : List Budget} (h : x ∈ replaceOne doc l) :
    x ∈ l ∨ x = doc := by
  induction l with
  | nil => simp [replaceOne] at h
  | cons b rest ih =>
    unfold replaceOne at h
    split at h
    · rcases List.mem_cons.mp h with rfl | h
      · exact Or.inr rfl
      · exact Or.inl (List.mem_cons_of_mem _ h)
    · rcases List.mem_cons.mp h with rfl | h
      · exact Or.inl (List.mem_cons_self _ _)
      · rcases ih h with h | h
        · exact Or.inl (List.mem_cons_of_mem _ h)
        · exact Or.inr h

theorem map_id_replaceOne (doc : Budget) (l : List Budget) :
    (replaceOne doc l).map (fun b => b._id) = l.map (fun b => b._id) := by
  induction l with
  | nil => rfl
  | cons b rest ih =>
    unfold replaceOne
    split
    · rename_i h
      simp [h]
    · simp [ih]

theorem key_ne_of_not_duplicateKey {budgets : List Budget} {doc : Budget}
    (hdup : duplicateKey budgets doc = false) {b : Budget} (hb : b ∈ budgets)
    (hid : b._id ≠ doc._id) : budgetKey b ≠ budgetKey doc := by
  intro hkey
  have hall := List.any_eq_false.mp hdup b hb
  simp only [budgetKey, Prod.mk.injEq] at hkey
  obtain ⟨hu, hc, hm, hy⟩ := hkey
  simp [hid, hu, hc, hm, hy] at hall

theorem replaceOne_keys_nodup (doc : Budget) (budgets : List Budget)
    (hids : (budgets.map (fun b => b._id)).Nodup)
    (hkeys : (budgets.map budgetKey).Nodup)
    (hdup : duplicateKey budgets doc = false) :
    ((replaceOne doc budgets).map budgetKey).Nodup := by
  induction budgets with
  | nil => simp [replaceOne]
  | cons b rest ih =>
    rw [List.map_cons, List.nodup_cons] at hids hkeys
    have hrest : duplicateKey rest doc = false := by
      unfold duplicateKey at hdup ⊢
      rw [List.any_cons, Bool.or_eq_false_iff] at hdup
      exact hdup.2
    unfold replaceOne
    split
    · rename_i hid
      rw [List.map_cons, List.nodup_cons]
      refine ⟨?_, hkeys.2⟩
      intro hmem
      obtain ⟨r, hr, hkey⟩ := List.mem_map.mp hmem
      have hrid : r._id ≠ doc._id := by
        intro h
        exact hids.1 (List.mem_map.mpr ⟨r, hr, by rw [h, hid]⟩)
      exact key_ne_of_not_duplicateKey hrest hr hrid hkey
    · rename_i hid
      rw [List.map_cons, List.nodup_cons]
      refine ⟨?_, ih hids.2 hkeys.2 hrest⟩
      intro hmem
      obtain ⟨r, hr, hkey⟩ := List.mem_map.mp hmem
      rcases mem_replaceOne hr with hr | rfl
      · exact hkeys.1 (List.mem_map.mpr ⟨r, hr, hkey⟩)
      · exact key_ne_of_not_duplicateKey hdup (List.mem_cons_self _ _) hid hkey.symm

theorem key_not_mem_of_findOne_none {db : Store} {category : ObjectId} {month year : Int}
    {user : ObjectId} (h : Budget.findOne db category month year user = none) :
    (user, category, month, year) ∉ db.budgets.map budgetKey := by
  intro hmem
  obtain ⟨b, hb, hkey⟩ := List.mem_map.mp hmem
  have hnone := List.find?_eq_none.mp h b hb
  simp only [budgetKey, Prod.mk.injEq] at hkey
  obtain ⟨hu, hc, hm, hy⟩ := hkey
  simp [hu, hc, hm, hy] at hnone

/-- The outcomes of `createBudget`: either the store is unchanged and the
answer is not a 201, or the answer is 201 and one budget with the body's
fields, whose key was not in the store, is appended. -/
theorem createBudget_cases (db : Store) (reqUser newId : ObjectId) (body : BudgetBody) :
    ((createBudget db reqUser newId body).2 = db ∧
      ∀ doc, (createBudget db reqUser newId body).1 ≠ .json 201 doc) ∨
    ∃ b : Budget, b._id = newId ∧ b.user = reqUser ∧
      body = { category := some b.category, amount := some b.amount, month := some b.month,
               year := some b.year } ∧
      Budget.findOne db b.category b.month b.year reqUser = none ∧
      db.budgets.any (fun x => x._id == newId) = false ∧
      createBudget db reqUser newId body
        = (.json 201 (toBudgetDocument { db with budgets := db.budgets ++ [b] } b),
           { db with budgets := db.budgets ++ [b] }) := by
  obtain ⟨c, a, m, y⟩ := body
  cases c <;> cases a <;> cases m <;> cases y <;>
    try (left; exact ⟨rfl, fun doc h => BudgetResponse.noConfusion h⟩)
  rename_i category amount month year
  unfold createBudget
  simp only []
  split_ifs with h1 h2 h3
  · left; exact ⟨rfl, fun doc h => BudgetResponse.noConfusion h⟩
  · left; exact ⟨rfl, fun doc h => BudgetResponse.noConfusion h⟩
  · left; exact ⟨rfl, fun doc h => BudgetResponse.noConfusion h⟩
  · cases hcat : Category.findOne db category reqUser with
    | none => left; exact ⟨rfl, fun doc h => BudgetResponse.noConfusion h⟩
    | some cat =>
      cases hone : Budget.findOne db category month year reqUser with
      | some found => left; exact ⟨rfl, fun doc h => BudgetResponse.noConfusion h⟩
      | none =>
        simp only []
        unfold Budget.create
        split_ifs with hrej
        · left; exact ⟨rfl, fun doc h => BudgetResponse.noConfusion h⟩
        · right
          refine ⟨{ _id := newId, category := category, amount := amount, month := month,
                    year := year, user := reqUser }, rfl, rfl, rfl, hone, ?_, rfl⟩
          rw [Bool.or_eq_true, not_or] at hrej
          simpa using hrej.1

/-- The outcomes of `updateBudget`: either the store is unchanged and the
answer is not a 200, or the answer is 200 and the stored budget is replaced by
one with the body's fields whose key no other budget holds. -/
theorem updateBudget_cases (db : Store) (reqUser id : ObjectId) (body : BudgetBody) :
    ((updateBudget db reqUser id body).2 = db ∧
      ∀ doc, (updateBudget db reqUser id body).1 ≠ .json 200 doc) ∨
    ∃ old new : Budget, Budget.findById db id = some old ∧ old.user = reqUser ∧
      new._id = old._id ∧ new.user = old.user ∧ new.category = old.category ∧
      new.amount = body.amount.getD old.amount ∧ new.month = body.month.getD old.month ∧
      new.year = body.year.getD old.year ∧
      duplicateKey db.budgets new = false ∧
      updateBudget db reqUser id body
        = (.json 200 (toBudgetDocument { db with budgets := replaceOne new db.budgets } new),
           { db with budgets := replaceOne new db.budgets }) := by
  unfold updateBudget
  cases hfind : Budget.findById db id with
  | none => left; exact ⟨rfl, fun doc h => BudgetResponse.noConfusion h⟩
  | some old =>
    simp only []
    split_ifs with h1 h2 h3
    · left; exact ⟨rfl, fun doc h => BudgetResponse.noConfusion h⟩
    · left; exact ⟨rfl, fun doc h => BudgetResponse.noConfusion h⟩
    · left; exact ⟨rfl, fun doc h => BudgetResponse.noConfusion h⟩
    · unfold Budget.save
      split_ifs with hrej
      · left; exact ⟨rfl, fun doc h => BudgetResponse.noConfusion h⟩
      · right
        refine ⟨old,
          { old with
            amount := match body.amount with
              | some amount => amount
              | none => old.amount
            month := match body.month with
              | some month => month
              | none => old.month
            year := match body.year with
              | some year => year
              | none => old.year },
          rfl, not_not.mp h1, rfl, rfl, rfl, ?_, ?_, ?_, ?_, rfl⟩
        · cases body.amount <;> rfl
        · cases body.month <;> rfl
        · cases body.year <;> rfl
        · simpa using hrej

/-- Requests on the store with two Food budgets (March and April 2024) and a
Rent budget (March 2024): a new Rent budget for April is created; a second
Food budget for March is refused by the handler with 400; moving the April
Food budget to March is refused by the unique index (the handler itself does
not check, the exception becomes a 500); moving it to May succeeds. -/
theorem scenarioBudgets_writes :
    ((createBudget scenarioBudgets 7 20
        { category := some 2, amount := some 300, month := some 4, year := some 2024 }).1,
     (createBudget scenarioBudgets 7 20
        { category := some 2, amount := some 300, month := some 4, year := some 2024 }).2.budgets)
      = (.json 201 { _id := 20, category := some { _id := 2, name := "Rent", type := .expense },
                     amount := 300, month := 4, year := 2024, user := 7 },
         [foodBudget, rentBudget, freeBudget,
          { _id := 20, category := 2, amount := 300, month := 4, year := 2024, user := 7 }]) ∧
    ((createBudget scenarioBudgets 7 20
        { category := some 1, amount := some 300, month := some 3, year := some 2024 }).1,
     (createBudget scenarioBudgets 7 20
        { category := some 1, amount := some 300, month := some 3, year := some 2024 }).2.budgets)
      = (.message 400
          "Budget already exists for this category and month. Use update to modify it.",
         [foodBudget, rentBudget, freeBudget]) ∧
    ((updateBudget scenarioBudgets 7 12
        { category := none, amount := none, month := some 3, year := none }).1,
     (updateBudget scenarioBudgets 7 12
        { category := none, amount := none, month := some 3, year := none }).2.budgets)
      = (.message 500 "Server error", [foodBudget, rentBudget, freeBudget]) ∧
    ((updateBudget scenarioBudgets 7 12
        { category := none, amount := some 80, month := some 5, year := none }).1,
     (updateBudget scenarioBudgets 7 12
        { category := none, amount := some 80, month := some 5, year := none }).2.budgets)
      = (.json 200 { _id := 12, category := some { _id := 1, name := "Food", type := .expense },
                     amount := 80, month := 5, year := 2024, user := 7 },
         [foodBudget, rentBudget,
          { _id := 12, category := 1, amount := 80, month := 5, year := 2024, user := 7 }]) := by
  decide!

/-- C23: from a store whose budgets have distinct `_id`s and in which at most
one budget exists per (user, category, month, year), the store after
`createBudget` and the store after `updateBudget` (which may change month and
year) again hold at most one budget per tuple, and distinct `_id`s; in
particular after a 201 of `createBudget` and after a 200 of `updateBudget`.
The unique index of the schema is part of the store. -/
theorem budget_writes_keep_unique (db : Store) (reqUser : ObjectId) (body : BudgetBody)
    (hids : (db.budgets.map (fun b => b._id)).Nodup) (hinv : UniqueBudgets db) :
    (∀ newId, UniqueBudgets (createBudget db reqUser newId body).2 ∧
      ((createBudget db reqUser newId body).2.budgets.map (fun b => b._id)).Nodup) ∧
    (∀ id, UniqueBudgets (updateBudget db reqUser id body).2 ∧
      ((updateBudget db reqUser id body).2.budgets.map (fun b => b._id)).Nodup) ∧
    (∀ newId doc db1, createBudget db reqUser newId body = (.json 201 doc, db1) →
      UniqueBudgets db1) ∧
    (∀ id doc db1, updateBudget db reqUser id body = (.json 200 doc, db1) →
      UniqueBudgets db1) := by
  have hcreate : ∀ newId, UniqueBudgets (createBudget db reqUser newId body).2 ∧
      ((createBudget db reqUser newId body).2.budgets.map (fun b => b._id)).Nodup := by
    intro newId
    rcases createBudget_cases db reqUser newId body with
      ⟨h, _⟩ | ⟨b, hid, hu, _, hone, hany, heq⟩
    · rw [h]
      exact ⟨hinv, hids⟩
    · rw [heq]
      have hnot := key_not_mem_of_findOne_none hone
      have hk : budgetKey b = (reqUser, b.category, b.month, b.year) := by
        simp only [budgetKey, hu]
      constructor
      · unfold UniqueBudgets
        simp only [List.map_append, List.map_cons, List.map_nil]
        apply List.Nodup.append hinv (List.nodup_singleton _)
        intro k hk1 hk2
        rw [List.mem_singleton] at hk2
        rw [hk2, hk] at hk1
        exact hnot hk1
      · simp only [List.map_append, List.map_cons, List.map_nil]
        apply List.Nodup.append hids (List.nodup_singleton _)
        intro k hk1 hk2
        rw [List.mem_singleton] at hk2
        obtain ⟨x, hx, hxk⟩ := List.mem_map.mp hk1
        have := List.any_eq_false.mp hany x hx
        simp only [beq_iff_eq] at this
        exact this (by rw [hxk, hk2, hid])
  have hupdate : ∀ id, UniqueBudgets (updateBudget db reqUser id body).2 ∧
      ((updateBudget db reqUser id body).2.budgets.map (fun b => b._id)).Nodup := by
    intro id
    rcases updateBudget_cases db reqUser id body with
      ⟨h, _⟩ | ⟨old, new, _, _, _, _, _, _, _, _, hdup, heq⟩
    · rw [h]
      exact ⟨hinv, hids⟩
    · rw [heq]
      constructor
      · exact replaceOne_keys_nodup new db.budgets hids hinv hdup
      · simp only [map_id_replaceOne]
        exact hids
  refine ⟨hcreate, hupdate, ?_, ?_⟩
  · intro newId doc db1 hres
    have h := (hcreate newId).1
    rw [hres] at h
    exact h
  · intro id doc db1 hres
    have h := (hupdate id).1
    rw [hres] at h
    exact h

/-- Witness of C23 on the store with three budgets, for a body that sets
month 5 and amount 80. -/
theorem budget_writes_keep_unique_witness :
    (∀ newId, UniqueBudgets (createBudget scenarioBudgets 7 newId
        { category := none, amount := some 80, month := some 5, year := none }).2 ∧
      ((createBudget scenarioBudgets 7 newId
        { category := none, amount := some 80, month := some 5, year := none }).2.budgets.map
          (fun b => b._id)).Nodup) ∧
    (∀ id, UniqueBudgets (updateBudget scenarioBudgets 7 id
        { category := none, amount := some 80, month := some 5, year := none }).2 ∧
      ((updateBudget scenarioBudgets 7 id
        { category := none, amount := some 80, month := some 5, year := none }).2.budgets.map
          (fun b => b._id)).Nodup) ∧
    (∀ newId doc db1, createBudget scenarioBudgets 7 newId
        { category := none, amount := some 80, month := some 5, year := none }
          = (.json 201 doc, db1) → UniqueBudgets db1) ∧
    (∀ id doc db1, updateBudget scenarioBudgets 7 id
        { category := none, amount := some 80, month := some 5, year := none }
          = (.json 200 doc, db1) → UniqueBudgets db1) :=
  budget_writes_keep_unique scenarioBudgets 7
    { category := none, amount := some 80, month := some 5, year := none }
    (by decide) (by decide)

end FinanceTracker
